import Mathlib

/-!
# HezzlTestTask: rank store and ingestion batcher

A shallow embedding of

* `internal/model/models.go` (the `Good` and `PriorityUpdate` records),
* `internal/repository/postgres.go` (`GoodRepository.Reprioritize`, `GetGood`,
  `UpdateGood`, `RemoveGood`),
* `internal/consumer/handler.go` (`Consumer.HandleMessage`, `Consumer.Flush`),
* `internal/service/goods.go` (`GoodsService` and its collaborator interfaces),
* `internal/transport/http/handler.go` (the handlers and `parseIDs`),

followed by the theorems about them.

The `goods` table is a list of rows.  An SQL `UPDATE ... WHERE c` is a map over
the rows that rewrites the rows satisfying `c`; `RETURNING` yields the rewritten
rows in table order; `QueryRow` yields the first matching row.  Ranks are
mathematical integers: the Go code does no arithmetic on them, and the database
does not wrap on overflow but fails the statement, which is one of the
statement failures the `Faults` record below describes.
-/

namespace HezzlTestTask

/-! ## internal/model/models.go -/

/-- Row of the goods table (model.Good). -/
structure Good where
  ID : Int
  ProjectID : Int
  Name : String
  Description : Option String
  Priority : Int
  Removed : Bool
  CreatedAt : Int
deriving DecidableEq, Repr

/-- Rank delta (model.PriorityUpdate). -/
structure PriorityUpdate where
  ID : Int
  Priority : Int
deriving DecidableEq, Repr

/-! ## Errors -/

/-- Go error values: the two sentinels of the repository package, an error
raised by a collaborator (driver, decoder, analytical store), and
`fmt.Errorf("<msg>: %w", err)`. -/
inductive Error where
  | ErrNotFound
  | ErrEmptyName
  | external (text : String)
  | wrapf (msg : String) (cause : Error)
deriving DecidableEq, Repr

/-- The chain walked by errors.Unwrap, outermost error first. -/
def Error.chain : Error → List Error
  | .wrapf msg cause => .wrapf msg cause :: cause.chain
  | e => [e]

/-! ## internal/repository/postgres.go -/

/-- Contents of the goods table. -/
abbrev Table := List Good

/-- Primary key of the goods table: no two rows share (id, project_id). -/
def PrimaryKey (db : Table) : Prop :=
  (db.map fun g => (g.ID, g.ProjectID)).Nodup

instance (db : Table) : Decidable (PrimaryKey db) := by
  unfold PrimaryKey; infer_instance

/-- Statements sent to the database by one call, in order. -/
inductive Stmt where
  | beginTx
  | selectForUpdate (id projectID : Int)
  | shiftUp (projectID lo hi : Int)
  | shiftDown (projectID lo hi : Int)
  | setPriority (priority id projectID : Int)
  | commit
  | rollback
deriving DecidableEq, Repr

/-- Which statements of the transaction fail, and with which driver error.
`selectRow` is a failure of the locked read other than sql.ErrNoRows; `scan i`
is a failure of rows.Scan on the i-th returned row. -/
structure Faults where
  beginTx : Option Error
  selectRow : Option Error
  shift : Option Error
  scan : Nat → Option Error
  setPriority : Option Error
  commit : Option Error

/-- Every statement succeeds. -/
def Faults.ok : Faults :=
  { beginTx := none, selectRow := none, shift := none, scan := fun _ => none,
    setPriority := none, commit := none }

/-- The error c is the failure of one of the statements. -/
def Faults.raises (f : Faults) (c : Error) : Prop :=
  f.beginTx = some c ∨ f.selectRow = some c ∨ f.shift = some c ∨ (∃ k, f.scan k = some c) ∨
    f.setPriority = some c ∨ f.commit = some c

/-- Result of one repository call: the returned value, the table afterwards and
the statements that were issued. -/
structure TxResult where
  result : Except Error (List PriorityUpdate)
  db : Table
  log : List Stmt

/-- The locked read
`SELECT priority FROM goods WHERE id=$1 AND project_id=$2 FOR UPDATE`. -/
def selectPriority (db : Table) (id projectID : Int) : Option Int :=
  (db.find? fun g => g.ID = id ∧ g.ProjectID = projectID).map (·.Priority)

/-- WHERE clause of the upward shift:
`project_id=$1 AND priority >= $2 AND priority < $3`. -/
def inShiftUp (projectID lo hi : Int) (g : Good) : Bool :=
  g.ProjectID = projectID ∧ g.Priority ≥ lo ∧ g.Priority < hi

/-- WHERE clause of the downward shift:
`project_id=$1 AND priority > $2 AND priority <= $3`. -/
def inShiftDown (projectID lo hi : Int) (g : Good) : Bool :=
  g.ProjectID = projectID ∧ g.Priority > lo ∧ g.Priority ≤ hi

/-- Table after `UPDATE goods SET priority = priority + d WHERE sel`. -/
def shiftRows (sel : Good → Bool) (d : Int) (db : Table) : Table :=
  db.map fun g => if sel g then { g with Priority := g.Priority + d } else g

/-- Rows of `RETURNING id, priority` for the same statement. -/
def shiftReturning (sel : Good → Bool) (d : Int) (db : Table) : List PriorityUpdate :=
  (db.filter sel).map fun g => { ID := g.ID, Priority := g.Priority + d }

/-- The loop `for rows.Next() { rows.Scan(...); updates = append(updates, pu) }`;
`i` is the index of the next row. -/
def scanRows (scan : Nat → Option Error) :
    Nat → List PriorityUpdate → List PriorityUpdate → Except Error (List PriorityUpdate)
  | _, [], updates => .ok updates
  | i, pu :: rows, updates =>
    match scan i with
    | some err => .error (.wrapf "failed to scan shifted priority" err)
    | none => scanRows scan (i + 1) rows (updates ++ [pu])

/-- Table after `UPDATE goods SET priority=$1 WHERE id=$2 AND project_id=$3`. -/
def setPriority (newPriority id projectID : Int) (db : Table) : Table :=
  db.map fun g =>
    if g.ID = id ∧ g.ProjectID = projectID then { g with Priority := newPriority } else g

/-- The shift branch of Reprioritize: the statement issued (if any), the
transaction's table after it and the rows it returns. -/
def shiftStep (db : Table) (projectID newPriority currPriority : Int) :
    List Stmt × Table × List PriorityUpdate :=
  if newPriority < currPriority then
    ([.shiftUp projectID newPriority currPriority],
      shiftRows (inShiftUp projectID newPriority currPriority) 1 db,
      shiftReturning (inShiftUp projectID newPriority currPriority) 1 db)
  else if newPriority > currPriority then
    ([.shiftDown projectID currPriority newPriority],
      shiftRows (inShiftDown projectID currPriority newPriority) (-1) db,
      shiftReturning (inShiftDown projectID currPriority newPriority) (-1) db)
  else
    ([], db, [])

/-- GoodRepository.Reprioritize.  The transaction works on its own copy of the
table; only a successful Commit installs it, every other exit leaves the table
as it was.  The log lists the calls made on the database handle and on the
transaction; the deferred Rollback runs on every exit after a successful
BeginTx and has no effect once Commit has been called. -/
def Reprioritize (f : Faults) (db : Table) (projectID id newPriority : Int) : TxResult :=
  match f.beginTx with
  | some err =>
    { result := .error (.wrapf "failed to begin transaction" err), db := db,
      log := [.beginTx] }
  | none =>
  let sel := Stmt.selectForUpdate id projectID
  match f.selectRow with
  | some err =>
    { result := .error (.wrapf "failed to select good for reprioritize" err), db := db,
      log := [.beginTx, sel, .rollback] }
  | none =>
  match selectPriority db id projectID with
  | none => { result := .error .ErrNotFound, db := db, log := [.beginTx, sel, .rollback] }
  | some currPriority =>
  let s := shiftStep db projectID newPriority currPriority
  match (if s.1 = [] then none else f.shift) with
  | some err =>
    { result := .error (.wrapf
        (if newPriority < currPriority then "failed to shift priorities up"
         else "failed to shift priorities down") err),
      db := db, log := [.beginTx, sel] ++ s.1 ++ [.rollback] }
  | none =>
  match scanRows f.scan 0 s.2.2 [] with
  | .error err =>
    { result := .error err, db := db, log := [.beginTx, sel] ++ s.1 ++ [.rollback] }
  | .ok updates =>
  let upd := Stmt.setPriority newPriority id projectID
  match f.setPriority with
  | some err =>
    { result := .error (.wrapf "failed to update priority of good" err), db := db,
      log := [.beginTx, sel] ++ s.1 ++ [upd, .rollback] }
  | none =>
  match f.commit with
  | some err =>
    { result := .error (.wrapf "failed to commit transaction" err), db := db,
      log := [.beginTx, sel] ++ s.1 ++ [upd, .commit, .rollback] }
  | none =>
    { result := .ok (updates ++ [{ ID := id, Priority := newPriority }]),
      db := setPriority newPriority id projectID s.2.1,
      log := [.beginTx, sel] ++ s.1 ++ [upd, .commit, .rollback] }

/-- Ranks held by the rows of one project, removed rows included, in table order. -/
def ranksOf (db : Table) (projectID : Int) : List Int :=
  (db.filter fun g => g.ProjectID = projectID).map (·.Priority)

/-- The ranks 1, 2, ..., n. -/
def ranks1N (n : Nat) : List Int :=
  (List.range n).map fun (i : Nat) => (i : Int) + 1

/-- The ranks of a project are exactly 1..n, each held once. -/
def DenseRanks (db : Table) (projectID : Int) (n : Nat) : Prop :=
  (ranksOf db projectID).Perm (ranks1N n)

instance (db : Table) (projectID : Int) (n : Nat) : Decidable (DenseRanks db projectID n) := by
  unfold DenseRanks; infer_instance

/-- Ranks are unique inside a project. -/
def UniqueRanks (db : Table) (projectID : Int) : Prop :=
  (ranksOf db projectID).Nodup

instance (db : Table) (projectID : Int) : Decidable (UniqueRanks db projectID) := by
  unfold UniqueRanks; infer_instance

/-- The row (projectID, id) exists. -/
def HasItem (db : Table) (projectID id : Int) : Prop :=
  ∃ g ∈ db, g.ID = id ∧ g.ProjectID = projectID

/-- Rank that the specification assigns to a row after a reorder of item
(projectID, id) from rank cur to rank newRank: the target gets newRank; another
row of the project with rank r gets r+1 if newRank < cur and newRank <= r < cur,
gets r-1 if newRank > cur and cur < r <= newRank, and keeps r otherwise; rows of
other projects keep their rank. -/
def referenceRank (projectID id newRank cur : Int) (g : Good) : Int :=
  if g.ID = id ∧ g.ProjectID = projectID then newRank
  else if g.ProjectID = projectID ∧ newRank < cur ∧ newRank ≤ g.Priority ∧ g.Priority < cur then
    g.Priority + 1
  else if g.ProjectID = projectID ∧ newRank > cur ∧ cur < g.Priority ∧ g.Priority ≤ newRank then
    g.Priority - 1
  else g.Priority

/-- Row after the reorder according to the specification: only the rank changes. -/
def referenceRow (projectID id newRank cur : Int) (g : Good) : Good :=
  { g with Priority := referenceRank projectID id newRank cur g }

/-- Effect of a move from rank cur to rank n on a rank r of the same project. -/
def moveRank (n cur r : Int) : Int :=
  if r = cur then n
  else if n ≤ r ∧ r < cur then r + 1
  else if cur < r ∧ r ≤ n then r - 1
  else r

/-- Rank, in table db2, of the row that has the key of g (the rank of item g
after a call that produced db2). -/
def rankIn (db2 : Table) (g : Good) : Option Int :=
  selectPriority db2 g.ID g.ProjectID

/-- Rows of db, other than the target (projectID, id), whose rank in db2 differs
from their rank in db: the shifted items, in table order. -/
def shiftedRows (db db2 : Table) (projectID id : Int) : List Good :=
  db.filter fun g =>
    !(decide (g.ID = id ∧ g.ProjectID = projectID)) && decide (rankIn db2 g ≠ some g.Priority)

/-- Delta (item id, rank in db2) of a row of db. -/
def deltaOf (db2 : Table) (g : Good) : PriorityUpdate :=
  { ID := g.ID, Priority := (rankIn db2 g).getD g.Priority }

/-- Sample rows: items A, B, C, D (ids 1..4) of project 1 with ranks 1..4, D
removed, and one item of project 2. -/
def sampleTable : Table :=
  [ { ID := 1, ProjectID := 1, Name := "A", Description := none, Priority := 1,
      Removed := false, CreatedAt := 100 },
    { ID := 2, ProjectID := 1, Name := "B", Description := some "b", Priority := 2,
      Removed := false, CreatedAt := 101 },
    { ID := 5, ProjectID := 2, Name := "E", Description := none, Priority := 1,
      Removed := false, CreatedAt := 102 },
    { ID := 3, ProjectID := 1, Name := "C", Description := none, Priority := 3,
      Removed := false, CreatedAt := 103 },
    { ID := 4, ProjectID := 1, Name := "D", Description := none, Priority := 4,
      Removed := true, CreatedAt := 104 } ]

/-! ## internal/consumer/handler.go -/

/-- Message payload (a byte slice). -/
abbrev Payload := List UInt8

/-- The decoder json.Unmarshal(data, &g) for g of type model.Good: the decoded
record, or the decoding error. -/
abbrev Decoder := Payload → Except Error Good

/-- The interface Repo: BatchInsertLogs acts on a repository in state ρ and
returns the new state and the error (none for nil). -/
structure Repo (ρ : Type) where
  BatchInsertLogs : ρ → List Good → ρ × Option Error

/-- Fields batchSize and events of Consumer; the repository is passed to the
operations, the mutex plays no part in a sequential run. -/
structure Consumer where
  batchSize : Int
  events : List Good
deriving DecidableEq, Repr

/-- NewConsumer.  `make([]model.Good, 0, batchSize)` panics for a negative
batchSize, in which case there is no consumer. -/
def NewConsumer (batchSize : Int) : Option Consumer :=
  if batchSize < 0 then none else some { batchSize := batchSize, events := [] }

/-- Effect of one call: the consumer and the repository afterwards, the
arguments of the BatchInsertLogs calls made, in order, and the returned error. -/
structure Outcome (ρ : Type) where
  consumer : Consumer
  repo : ρ
  calls : List (List Good)
  err : Option Error

/-- Consumer.HandleMessage. -/
def HandleMessage {ρ : Type} (unmarshal : Decoder) (repo : Repo ρ) (c : Consumer) (s : ρ)
    (data : Payload) : Outcome ρ :=
  match unmarshal data with
  | .error err => { consumer := c, repo := s, calls := [], err := some err }
  | .ok g =>
    let events := c.events ++ [g]
    if (events.length : Int) ≥ c.batchSize then
      let eventsCopy := events
      let r := repo.BatchInsertLogs s eventsCopy
      { consumer := { c with events := [] }, repo := r.1, calls := [eventsCopy], err := r.2 }
    else
      { consumer := { c with events := events }, repo := s, calls := [], err := none }

/-- Consumer.Flush. -/
def Flush {ρ : Type} (repo : Repo ρ) (c : Consumer) (s : ρ) : Outcome ρ :=
  if c.events.length = 0 then
    { consumer := c, repo := s, calls := [], err := none }
  else
    let eventsCopy := c.events
    let r := repo.BatchInsertLogs s eventsCopy
    { consumer := { c with events := [] }, repo := r.1, calls := [eventsCopy], err := r.2 }

/-- One call on the consumer. -/
inductive Op where
  | handle (data : Payload)
  | flush

/-- State of a sequential run: consumer, repository, every batch passed to
BatchInsertLogs so far and the error returned by every call so far. -/
structure Run (ρ : Type) where
  consumer : Consumer
  repo : ρ
  calls : List (List Good)
  errs : List (Option Error)

/-- The run before any call. -/
def Run.start {ρ : Type} (c : Consumer) (s : ρ) : Run ρ :=
  { consumer := c, repo := s, calls := [], errs := [] }

/-- Perform one call in a run. -/
def Run.step {ρ : Type} (unmarshal : Decoder) (repo : Repo ρ) (t : Run ρ) (op : Op) : Run ρ :=
  let o := match op with
    | .handle data => HandleMessage unmarshal repo t.consumer t.repo data
    | .flush => Flush repo t.consumer t.repo
  { consumer := o.consumer, repo := o.repo, calls := t.calls ++ o.calls,
    errs := t.errs ++ [o.err] }

/-- Perform a series of calls one after the other. -/
def Run.exec {ρ : Type} (unmarshal : Decoder) (repo : Repo ρ) (t : Run ρ) (ops : List Op) :
    Run ρ :=
  ops.foldl (Run.step unmarshal repo) t

/-- The repository of handler_test.go: it appends every batch to the received
batches and returns the error err it was set up with. -/
def mockRepo (err : Option Error) : Repo (List (List Good)) :=
  { BatchInsertLogs := fun received events => (received ++ [events], err) }

/-- Sample event with the given id. -/
def sampleEvent (id : Int) : Good :=
  { ID := id, ProjectID := 5, Name := "name", Description := none, Priority := 0,
    Removed := false, CreatedAt := 0 }

/-- Sample decoder used in the examples: a one-byte payload decodes to the
sample event with that id, every other payload is rejected. -/
def sampleDecode : Decoder
  | [b] => .ok (sampleEvent b.toNat)
  | _ => .error (.external "invalid character")

/-! ## internal/repository/postgres.go: GetGood, UpdateGood, RemoveGood -/

/-- Which steps of a select-then-update transaction fail, and with which driver
error; `selectRow` is a failure of the read other than sql.ErrNoRows. -/
structure TxFaults where
  beginTx : Option Error
  selectRow : Option Error
  exec : Option Error
  commit : Option Error

/-- Every step succeeds. -/
def TxFaults.ok : TxFaults :=
  { beginTx := none, selectRow := none, exec := none, commit := none }

/-- Returned value of a repository call and the table afterwards. -/
structure RepoResult (α : Type) where
  result : Except Error α
  db : Table

/-- The read `SELECT id, project_id, name, description, priority, removed,
created_at FROM goods WHERE id=$1 AND project_id=$2` through QueryRow. -/
def selectGood (db : Table) (id projectID : Int) : Option Good :=
  db.find? fun g => g.ID = id ∧ g.ProjectID = projectID

/-- GoodRepository.GetGood; `queryErr` is a failure of the query other than
sql.ErrNoRows. -/
def GetGood (queryErr : Option Error) (db : Table) (projectID id : Int) : RepoResult Good :=
  match queryErr with
  | some err => { result := .error (.wrapf "failed to get good" err), db := db }
  | none =>
    match selectGood db id projectID with
    | none => { result := .error .ErrNotFound, db := db }
    | some g => { result := .ok g, db := db }

/-- Table after `UPDATE goods SET name=$1, description=$2 WHERE id=$3 AND
project_id=$4`. -/
def setNameDescription (name : String) (description : Option String) (id projectID : Int)
    (db : Table) : Table :=
  db.map fun g =>
    if g.ID = id ∧ g.ProjectID = projectID then
      { g with Name := name, Description := description }
    else g

/-- GoodRepository.UpdateGood.  As in Reprioritize, only a successful Commit
installs the transaction's table. -/
def UpdateGood (f : TxFaults) (db : Table) (projectID id : Int) (name : String)
    (description : Option String) : RepoResult Good :=
  if name = "" then { result := .error .ErrEmptyName, db := db }
  else
  match f.beginTx with
  | some err => { result := .error (.wrapf "failed to begin transaction" err), db := db }
  | none =>
  match f.selectRow with
  | some err => { result := .error (.wrapf "failed to select good for update" err), db := db }
  | none =>
  match selectGood db id projectID with
  | none => { result := .error .ErrNotFound, db := db }
  | some g =>
  match f.exec with
  | some err => { result := .error (.wrapf "failed to update good" err), db := db }
  | none =>
  match f.commit with
  | some err => { result := .error (.wrapf "failed to commit transaction" err), db := db }
  | none =>
    { result := .ok { g with Name := name, Description := description },
      db := setNameDescription name description id projectID db }

/-- Table after `UPDATE goods SET removed=true WHERE id=$1 AND project_id=$2`. -/
def setRemoved (id projectID : Int) (db : Table) : Table :=
  db.map fun g => if g.ID = id ∧ g.ProjectID = projectID then { g with Removed := true } else g

/-- GoodRepository.RemoveGood. -/
def RemoveGood (f : TxFaults) (db : Table) (projectID id : Int) : RepoResult Unit :=
  match f.beginTx with
  | some err => { result := .error (.wrapf "failed to begin transaction" err), db := db }
  | none =>
  match f.selectRow with
  | some err => { result := .error (.wrapf "failed to select good for remove" err), db := db }
  | none =>
  match selectGood db id projectID with
  | none => { result := .error .ErrNotFound, db := db }
  | some _ =>
  match f.exec with
  | some err => { result := .error (.wrapf "failed to remove good" err), db := db }
  | none =>
  match f.commit with
  | some err => { result := .error (.wrapf "failed to commit transaction" err), db := db }
  | none => { result := .ok (), db := setRemoved id projectID db }

/-! ## internal/service/goods.go -/

/-- The value errors.New(text). -/
def errorsNew (text : String) : Error := .external text

/-- A time.Duration, in nanoseconds. -/
abbrev Duration := Int

/-- Calls made by the service on its collaborators. -/
inductive Call where
  | createGood (projectID : Int) (name : String) (description : Option String)
  | getGood (projectID id : Int)
  | updateGood (projectID id : Int) (name : String) (description : Option String)
  | removeGood (projectID id : Int)
  | listGoods (limit offset : Int)
  | reprioritize (projectID id newPriority : Int)
  | cacheSet (key : String) (value : Payload) (ttl : Duration)
  | cacheGet (key : String)
  | cacheInvalidate (key : String)
  | publishLog (data : Payload)
deriving DecidableEq, Repr

/-- The call goes to the repository. -/
def Call.isRepo : Call → Bool
  | .createGood .. | .getGood .. | .updateGood .. | .removeGood .. | .listGoods ..
  | .reprioritize .. => true
  | _ => false

/-- The interface service.Repo over collaborators in state σ: every method
returns the state afterwards and its Go result. -/
structure service.Repo (σ : Type) where
  CreateGood : σ → Int → String → Option String → σ × Except Error Good
  GetGood : σ → Int → Int → σ × Except Error Good
  UpdateGood : σ → Int → Int → String → Option String → σ × Except Error Good
  RemoveGood : σ → Int → Int → σ × Option Error
  ListGoods : σ → Int → Int → σ × Except Error (List Good × Int × Int)
  Reprioritize : σ → Int → Int → Int → σ × Except Error (List PriorityUpdate)

/-- The interface service.Cache. -/
structure service.Cache (σ : Type) where
  Set : σ → String → Payload → Duration → σ × Option Error
  Get : σ → String → σ × Except Error Payload
  Invalidate : σ → String → σ × Option Error

/-- The interface service.Logger. -/
structure service.Logger (σ : Type) where
  PublishLog : σ → Payload → σ × Option Error

/-- The encoding/json calls of the service.  Unmarshal results are the value
left in the zero-initialised target together with the returned error, which the
service discards. -/
structure Codec where
  marshalGood : Good → Payload
  marshalUpdates : List PriorityUpdate → Payload
  marshalList : List Good → Int → Int → Int → Int → Payload
  unmarshalGood : Payload → Good × Option Error
  unmarshalList : Payload → (List Good × Int × Int) × Option Error

/-- GoodsService with its three collaborators, the JSON codec and the package
variable cacheTTL. -/
structure GoodsService (σ : Type) where
  repo : service.Repo σ
  cache : service.Cache σ
  logger : service.Logger σ
  json : Codec
  cacheTTL : Duration

/-- Result of a service call: the returned value, the state of the
collaborators afterwards and the calls made on them, in order. -/
structure Served (σ α : Type) where
  result : Except Error α
  state : σ
  calls : List Call

/-- The key `fmt.Sprintf("good:%d:%d", projectID, id)`. -/
def goodKey (projectID id : Int) : String :=
  "good:" ++ toString projectID ++ ":" ++ toString id

/-- The key `fmt.Sprintf("goods:list:%d:%d", limit, offset)`. -/
def listKey (limit offset : Int) : String :=
  "goods:list:" ++ toString limit ++ ":" ++ toString offset

/-- GoodsService.Create. -/
def GoodsService.Create {σ : Type} (s : GoodsService σ) (w : σ) (projectID : Int)
    (name : String) (description : Option String) : Served σ Good :=
  if name = "" then
    { result := .error (errorsNew "name cannot be empty"), state := w, calls := [] }
  else
    let r := s.repo.CreateGood w projectID name description
    match r.2 with
    | .error err =>
      { result := .error err, state := r.1, calls := [.createGood projectID name description] }
    | .ok good =>
      let i1 := s.cache.Invalidate r.1 "goods:list"
      let i2 := s.cache.Invalidate i1.1 (goodKey projectID good.ID)
      let data := s.json.marshalGood good
      let pub := s.logger.PublishLog i2.1 data
      { result := .ok good, state := pub.1,
        calls := [.createGood projectID name description, .cacheInvalidate "goods:list",
          .cacheInvalidate (goodKey projectID good.ID), .publishLog data] }

/-- GoodsService.Get. -/
def GoodsService.Get {σ : Type} (s : GoodsService σ) (w : σ) (projectID id : Int) :
    Served σ Good :=
  let key := goodKey projectID id
  let c := s.cache.Get w key
  match c.2 with
  | .ok bytes =>
    { result := .ok (s.json.unmarshalGood bytes).1, state := c.1, calls := [.cacheGet key] }
  | .error _ =>
    let r := s.repo.GetGood c.1 projectID id
    match r.2 with
    | .error err =>
      { result := .error err, state := r.1, calls := [.cacheGet key, .getGood projectID id] }
    | .ok good =>
      let data := s.json.marshalGood good
      let st := s.cache.Set r.1 key data s.cacheTTL
      { result := .ok good, state := st.1,
        calls := [.cacheGet key, .getGood projectID id, .cacheSet key data s.cacheTTL] }

/-- GoodsService.Update. -/
def GoodsService.Update {σ : Type} (s : GoodsService σ) (w : σ) (projectID id : Int)
    (name : String) (description : Option String) : Served σ Good :=
  if name = "" then
    { result := .error (errorsNew "name cannot be empty"), state := w, calls := [] }
  else
    let r := s.repo.UpdateGood w projectID id name description
    match r.2 with
    | .error err =>
      { result := .error err, state := r.1,
        calls := [.updateGood projectID id name description] }
    | .ok good =>
      let i1 := s.cache.Invalidate r.1 "goods:list"
      let i2 := s.cache.Invalidate i1.1 (goodKey projectID id)
      let data := s.json.marshalGood good
      let pub := s.logger.PublishLog i2.1 data
      { result := .ok good, state := pub.1,
        calls := [.updateGood projectID id name description, .cacheInvalidate "goods:list",
          .cacheInvalidate (goodKey projectID id), .publishLog data] }

/-- GoodsService.Remove. -/
def GoodsService.Remove {σ : Type} (s : GoodsService σ) (w : σ) (projectID id : Int) :
    Served σ Unit :=
  let r := s.repo.GetGood w projectID id
  match r.2 with
  | .error err => { result := .error err, state := r.1, calls := [.getGood projectID id] }
  | .ok good =>
    let d := s.repo.RemoveGood r.1 projectID id
    match d.2 with
    | some err =>
      { result := .error err, state := d.1,
        calls := [.getGood projectID id, .removeGood projectID id] }
    | none =>
      let i1 := s.cache.Invalidate d.1 "goods:list"
      let i2 := s.cache.Invalidate i1.1 (goodKey projectID id)
      let data := s.json.marshalGood { good with Removed := true }
      let pub := s.logger.PublishLog i2.1 data
      { result := match pub.2 with
          | some err => .error err
          | none => .ok (),
        state := pub.1,
        calls := [.getGood projectID id, .removeGood projectID id,
          .cacheInvalidate "goods:list", .cacheInvalidate (goodKey projectID id),
          .publishLog data] }

/-- GoodsService.Reprioritize. -/
def GoodsService.Reprioritize {σ : Type} (s : GoodsService σ) (w : σ)
    (projectID id newPriority : Int) : Served σ (List PriorityUpdate) :=
  let r := s.repo.Reprioritize w projectID id newPriority
  match r.2 with
  | .error err =>
    { result := .error err, state := r.1, calls := [.reprioritize projectID id newPriority] }
  | .ok updates =>
    let i1 := s.cache.Invalidate r.1 "goods:list"
    let i2 := s.cache.Invalidate i1.1 (goodKey projectID id)
    let data := s.json.marshalUpdates updates
    let pub := s.logger.PublishLog i2.1 data
    { result := .ok updates, state := pub.1,
      calls := [.reprioritize projectID id newPriority, .cacheInvalidate "goods:list",
        .cacheInvalidate (goodKey projectID id), .publishLog data] }

/-- GoodsService.List. -/
def GoodsService.List {σ : Type} (s : GoodsService σ) (w : σ) (limit offset : Int) :
    Served σ (List Good × Int × Int) :=
  let key := listKey limit offset
  let c := s.cache.Get w key
  match c.2 with
  | .ok bytes =>
    { result := .ok (s.json.unmarshalList bytes).1, state := c.1, calls := [.cacheGet key] }
  | .error _ =>
    let r := s.repo.ListGoods c.1 limit offset
    match r.2 with
    | .error err =>
      { result := .error err, state := r.1, calls := [.cacheGet key, .listGoods limit offset] }
    | .ok (goods, total, removed) =>
      let data := s.json.marshalList goods total removed limit offset
      let st := s.cache.Set r.1 key data s.cacheTTL
      { result := .ok (goods, total, removed), state := st.1,
        calls := [.cacheGet key, .listGoods limit offset, .cacheSet key data s.cacheTTL] }

/-! ## internal/transport/http/handler.go -/

/-- The text err.Error(). -/
def Error.errorText : Error → String
  | .ErrNotFound => "record not found"
  | .ErrEmptyName => "name cannot be empty"
  | .external text => text
  | .wrapf msg cause => msg ++ ": " ++ cause.errorText

/-- The interface GoodsService of the HTTP layer over a service in state σ. -/
structure http.GoodsService (σ : Type) where
  Create : σ → Int → String → Option String → σ × Except Error Good
  Get : σ → Int → Int → σ × Except Error Good
  Update : σ → Int → Int → String → Option String → σ × Except Error Good
  Remove : σ → Int → Int → σ × Option Error
  Reprioritize : σ → Int → Int → Int → σ × Except Error (List PriorityUpdate)
  List : σ → Int → Int → σ × Except Error (List Good × Int × Int)

/-- GoodsService of the service package seen through the interface of the HTTP
layer; the state also accumulates the calls made on the collaborators. -/
def asHandlerService {σ : Type} (s : GoodsService σ) : http.GoodsService (σ × List Call) :=
  { Create := fun w projectID name description =>
      let r := s.Create w.1 projectID name description
      ((r.state, w.2 ++ r.calls), r.result)
    Get := fun w projectID id =>
      let r := s.Get w.1 projectID id
      ((r.state, w.2 ++ r.calls), r.result)
    Update := fun w projectID id name description =>
      let r := s.Update w.1 projectID id name description
      ((r.state, w.2 ++ r.calls), r.result)
    Remove := fun w projectID id =>
      let r := s.Remove w.1 projectID id
      ((r.state, w.2 ++ r.calls),
        match r.result with
        | .error err => some err
        | .ok _ => none)
    List := fun w limit offset =>
      let r := s.List w.1 limit offset
      ((r.state, w.2 ++ r.calls), r.result)
    Reprioritize := fun w projectID id newPriority =>
      let r := s.Reprioritize w.1 projectID id newPriority
      ((r.state, w.2 ++ r.calls), r.result) }

/-- What a handler reads of the request: the query parameters
(`r.URL.Query().Get`, the empty string for an absent parameter) and the body. -/
structure Request where
  query : String → String
  body : Payload

/-- Standard-library parsers used by the handlers: strconv.Atoi and the JSON
decoding of the two request bodies (name and description; newPriority). -/
structure Parsers where
  Atoi : String → Except Error Int
  decodeGoodRequest : Payload → Except Error (String × Option String)
  decodePriorityRequest : Payload → Except Error Int

/-- Calls made by a handler on the service. -/
inductive ServiceCall where
  | create (projectID : Int) (name : String) (description : Option String)
  | get (projectID id : Int)
  | update (projectID id : Int) (name : String) (description : Option String)
  | remove (projectID id : Int)
  | list (limit offset : Int)
  | reprioritize (projectID id newPriority : Int)
deriving DecidableEq, Repr

/-- Body written by a handler: an ErrorResponse (its details are always the
empty object) or the JSON of a result. -/
inductive ResponseBody where
  | error (code : Int) (message : String)
  | good (g : Good)
  | removed (id campaignId : Int)
  | priorities (updates : List PriorityUpdate)
  | goods (total removed limit offset : Int) (items : List Good)
deriving DecidableEq, Repr

/-- Status code and body of a response. -/
structure Response where
  status : Nat
  body : ResponseBody
deriving DecidableEq, Repr

/-- Effect of a handler: the response, the state of the service afterwards and
the calls made on the service. -/
structure Handled (σ : Type) where
  response : Response
  state : σ
  calls : List ServiceCall

/-- Status http.StatusOK, also the status of a response written without
WriteHeader. -/
def StatusOK : Nat := 200

/-- Status http.StatusBadRequest. -/
def StatusBadRequest : Nat := 400

/-- Status http.StatusNotFound. -/
def StatusNotFound : Nat := 404

/-- Status http.StatusInternalServerError. -/
def StatusInternalServerError : Nat := 500

/-- The call writeError(w, status, ErrorResponse{code, message, {}}). -/
def writeError (status : Nat) (code : Int) (message : String) : Response :=
  { status := status, body := .error code message }

/-- The branch shared by Get, Update, Remove and Reprioritize for a failed
service call: `err == repository.ErrNotFound` gives 404, anything else 500. -/
def notFoundOr500 (err : Error) : Response :=
  if err = .ErrNotFound then writeError StatusNotFound 3 "errors.common.notFound"
  else writeError StatusInternalServerError 1 err.errorText

/-- Handler of the HTTP layer. -/
structure Handler (σ : Type) where
  srv : http.GoodsService σ

/-- The function parseIDs. -/
def parseIDs (ps : Parsers) (r : Request) : Int × Int × Bool :=
  match ps.Atoi (r.query "projectId"), ps.Atoi (r.query "id") with
  | .ok pid, .ok id => if pid ≤ 0 ∨ id ≤ 0 then (0, 0, false) else (pid, id, true)
  | _, _ => (0, 0, false)

/-- Handler.Create. -/
def Handler.Create {σ : Type} (h : Handler σ) (ps : Parsers) (w : σ) (r : Request) :
    Handled σ :=
  match ps.Atoi (r.query "projectId") with
  | .error _ =>
    { response := writeError StatusBadRequest 1 "invalid projectId", state := w, calls := [] }
  | .ok pid =>
    if pid ≤ 0 then
      { response := writeError StatusBadRequest 1 "invalid projectId", state := w, calls := [] }
    else
      match ps.decodeGoodRequest r.body with
      | .error _ =>
        { response := writeError StatusBadRequest 1 "invalid request body", state := w,
          calls := [] }
      | .ok req =>
        let c := h.srv.Create w pid req.1 req.2
        match c.2 with
        | .error err =>
          { response := writeError StatusInternalServerError 1 err.errorText, state := c.1,
            calls := [.create pid req.1 req.2] }
        | .ok good =>
          { response := { status := StatusOK, body := .good good }, state := c.1,
            calls := [.create pid req.1 req.2] }

/-- Handler.Update. -/
def Handler.Update {σ : Type} (h : Handler σ) (ps : Parsers) (w : σ) (r : Request) :
    Handled σ :=
  match parseIDs ps r with
  | (_, _, false) =>
    { response := writeError StatusBadRequest 1 "invalid projectId or id", state := w,
      calls := [] }
  | (pid, id, true) =>
    match ps.decodeGoodRequest r.body with
    | .error _ =>
      { response := writeError StatusBadRequest 1 "invalid request body", state := w,
        calls := [] }
    | .ok req =>
      let c := h.srv.Update w pid id req.1 req.2
      match c.2 with
      | .error err =>
        { response := notFoundOr500 err, state := c.1, calls := [.update pid id req.1 req.2] }
      | .ok good =>
        { response := { status := StatusOK, body := .good good }, state := c.1,
          calls := [.update pid id req.1 req.2] }

/-- Handler.Remove. -/
def Handler.Remove {σ : Type} (h : Handler σ) (ps : Parsers) (w : σ) (r : Request) :
    Handled σ :=
  match parseIDs ps r with
  | (_, _, false) =>
    { response := writeError StatusBadRequest 1 "invalid projectId or id", state := w,
      calls := [] }
  | (pid, id, true) =>
    let c := h.srv.Remove w pid id
    match c.2 with
    | some err => { response := notFoundOr500 err, state := c.1, calls := [.remove pid id] }
    | none =>
      { response := { status := StatusOK, body := .removed id pid }, state := c.1,
        calls := [.remove pid id] }

/-- Handler.Get. -/
def Handler.Get {σ : Type} (h : Handler σ) (ps : Parsers) (w : σ) (r : Request) :
    Handled σ :=
  match ps.Atoi (r.query "id") with
  | .error _ =>
    { response := writeError StatusBadRequest 1 "invalid id", state := w, calls := [] }
  | .ok id =>
    if id ≤ 0 then
      { response := writeError StatusBadRequest 1 "invalid id", state := w, calls := [] }
    else
      match ps.Atoi (r.query "projectId") with
      | .error _ =>
        { response := writeError StatusBadRequest 1 "invalid projectId", state := w,
          calls := [] }
      | .ok pid =>
        if pid ≤ 0 then
          { response := writeError StatusBadRequest 1 "invalid projectId", state := w,
            calls := [] }
        else
          let c := h.srv.Get w pid id
          match c.2 with
          | .error err => { response := notFoundOr500 err, state := c.1, calls := [.get pid id] }
          | .ok good =>
            { response := { status := StatusOK, body := .good good }, state := c.1,
              calls := [.get pid id] }

/-- Handler.Reprioritize. -/
def Handler.Reprioritize {σ : Type} (h : Handler σ) (ps : Parsers) (w : σ) (r : Request) :
    Handled σ :=
  match parseIDs ps r with
  | (_, _, false) =>
    { response := writeError StatusBadRequest 1 "invalid projectId or id", state := w,
      calls := [] }
  | (pid, id, true) =>
    match ps.decodePriorityRequest r.body with
    | .error _ =>
      { response := writeError StatusBadRequest 1 "invalid request body", state := w,
        calls := [] }
    | .ok newPriority =>
      let c := h.srv.Reprioritize w pid id newPriority
      match c.2 with
      | .error err =>
        { response := notFoundOr500 err, state := c.1,
          calls := [.reprioritize pid id newPriority] }
      | .ok updates =>
        { response := { status := StatusOK, body := .priorities updates }, state := c.1,
          calls := [.reprioritize pid id newPriority] }

/-- The optional integer parameter of Handler.List: the default unless the
parameter is present and parses. -/
def queryIntOr (ps : Parsers) (r : Request) (name : String) (dflt : Int) : Int :=
  if r.query name = "" then dflt
  else
    match ps.Atoi (r.query name) with
    | .ok i => i
    | .error _ => dflt

/-- Handler.List. -/
def Handler.List {σ : Type} (h : Handler σ) (ps : Parsers) (w : σ) (r : Request) :
    Handled σ :=
  let limit := queryIntOr ps r "limit" 10
  let offset := queryIntOr ps r "offset" 0
  let c := h.srv.List w limit offset
  match c.2 with
  | .error err =>
    { response := writeError StatusInternalServerError 1 err.errorText, state := c.1,
      calls := [.list limit offset] }
  | .ok res =>
    { response := { status := StatusOK, body := .goods res.2.1 res.2.2 limit offset res.1 },
      state := c.1, calls := [.list limit offset] }

/-! ## In-memory collaborators used in the examples -/

/-- State of the in-memory collaborators: the goods table, the cache entries
and the published messages. -/
structure World where
  db : Table
  cache : List (String × Payload)
  published : List Payload

/-- Repository over the table of a World; no statement fails.  CreateGood and
ListGoods have no configured behaviour in the examples and report a failure of
the database. -/
def memRepo : service.Repo World :=
  { CreateGood := fun w _ _ _ => (w, .error (.wrapf "failed to insert good" (.external "down")))
    GetGood := fun w projectID id =>
      let r := GetGood none w.db projectID id
      ({ w with db := r.db }, r.result)
    UpdateGood := fun w projectID id name description =>
      let r := UpdateGood TxFaults.ok w.db projectID id name description
      ({ w with db := r.db }, r.result)
    RemoveGood := fun w projectID id =>
      let r := RemoveGood TxFaults.ok w.db projectID id
      ({ w with db := r.db },
        match r.result with
        | .error err => some err
        | .ok _ => none)
    ListGoods := fun w _ _ => (w, .error (.wrapf "failed to count goods" (.external "down")))
    Reprioritize := fun w projectID id newPriority =>
      let r := Reprioritize Faults.ok w.db projectID id newPriority
      ({ w with db := r.db }, r.result) }

/-- Cache over the entries of a World: Get misses with ErrCacheMiss, Set
replaces the entry, Invalidate deletes exactly the given key; `invalErr` is the
error Invalidate returns. -/
def memCache (invalErr : Option Error) : service.Cache World :=
  { Set := fun w key value _ =>
      ({ w with cache := (key, value) :: w.cache.filter (fun e => e.1 ≠ key) }, none)
    Get := fun w key =>
      match w.cache.find? (fun e => e.1 = key) with
      | some e => (w, .ok e.2)
      | none => (w, .error (errorsNew "cache miss"))
    Invalidate := fun w key =>
      ({ w with cache := w.cache.filter (fun e => e.1 ≠ key) }, invalErr) }

/-- Logger recording the published messages; `pubErr` is the error PublishLog
returns. -/
def memLogger (pubErr : Option Error) : service.Logger World :=
  { PublishLog := fun w data => ({ w with published := w.published ++ [data] }, pubErr) }

/-- Stand-in codec of the examples: a record is written as the single byte of
its id and read back as the sample event with that id; a delta list is written
as the bytes of its ids. -/
def sampleCodec : Codec :=
  { marshalGood := fun g => [UInt8.ofNat g.ID.toNat]
    marshalUpdates := fun us => us.map fun u => UInt8.ofNat u.ID.toNat
    marshalList := fun goods _ _ _ _ => goods.map fun g => UInt8.ofNat g.ID.toNat
    unmarshalGood := fun data =>
      match sampleDecode data with
      | .ok g => (g, none)
      | .error err => (sampleEvent 0, some err)
    unmarshalList := fun data => ((data.map fun b => sampleEvent b.toNat, 0, 0), none) }

/-- Service over the in-memory collaborators. -/
def sampleService (invalErr pubErr : Option Error) : GoodsService World :=
  { repo := memRepo, cache := memCache invalErr, logger := memLogger pubErr,
    json := sampleCodec, cacheTTL := 60000000000 }

/-- World holding the sample table, an empty cache and nothing published. -/
def sampleWorld : World :=
  { db := sampleTable, cache := [], published := [] }

/-- Stand-in for strconv.Atoi in the examples: a single decimal digit parses to
its value, every other text is rejected. -/
def sampleAtoi (text : String) : Except Error Int :=
  match text.data with
  | [c] =>
    if c.isDigit then .ok ((c.toNat : Int) - 48)
    else .error (.external "strconv.Atoi: invalid syntax")
  | _ => .error (.external "strconv.Atoi: invalid syntax")

/-- Stand-in parsers of the examples: an empty body is rejected, the body [0]
decodes to an empty name, any other body to the name `n`; a one-byte body
decodes to that newPriority. -/
def sampleParsers : Parsers :=
  { Atoi := sampleAtoi
    decodeGoodRequest := fun body =>
      match body with
      | [] => .error (.external "EOF")
      | [0] => .ok ("", none)
      | _ => .ok ("n", none)
    decodePriorityRequest := fun body =>
      match body with
      | [b] => .ok (b.toNat : Int)
      | _ => .error (.external "EOF") }

/-- Request with the given projectId and id query parameters and body. -/
def sampleRequest (projectId id : String) (body : Payload) : Request :=
  { query := fun k => if k = "projectId" then projectId else if k = "id" then id else ""
    body := body }

/-- Handler over the sample service. -/
def sampleHandler : Handler (World × List Call) :=
  { srv := asHandlerService (sampleService none none) }

/-- The property that a Reprioritize outcome invalidated the entity key of every
item of its returned delta list. -/
def InvalidatesDeltaKeys {σ : Type} (r : Served σ (List PriorityUpdate)) (projectID : Int) :
    Prop :=
  ∀ us, r.result = .ok us → ∀ u ∈ us, Call.cacheInvalidate (goodKey projectID u.ID) ∈ r.calls

/-- The status is a client error other than 404. -/
def ClientErrorNot404 (status : Nat) : Prop :=
  400 ≤ status ∧ status < 500 ∧ status ≠ 404

/-! ## internal/repository/postgres.go: ListGoods -/

/-- Which queries of ListGoods fail, and with which driver error; `scan i` is a
failure of rows.Scan on the i-th row of the page. -/
structure ListFaults where
  countTotal : Option Error
  countRemoved : Option Error
  selectRows : Option Error
  scan : Nat → Option Error

/-- Every query succeeds. -/
def ListFaults.ok : ListFaults :=
  { countTotal := none, countRemoved := none, selectRows := none, scan := fun _ => none }

/-- The order of `ORDER BY id`. -/
def idLE (a b : Good) : Prop := a.ID ≤ b.ID

instance : DecidableRel idLE := fun a b => by
  unfold idLE; infer_instance

instance : IsTotal Good idLE := ⟨fun a b => Int.le_total a.ID b.ID⟩

instance : IsTrans Good idLE := ⟨fun _ _ _ h1 h2 => Int.le_trans h1 h2⟩

/-- Rows of the table in the order of `ORDER BY id` (rows with equal ids keep
their table order). -/
def orderById (db : Table) : Table :=
  db.insertionSort idLE

/-- Rows of `SELECT ... FROM goods ORDER BY id LIMIT $1 OFFSET $2` for
non-negative arguments. -/
def pageOf (db : Table) (limit offset : Int) : List Good :=
  ((orderById db).drop offset.toNat).take limit.toNat

/-- The loop `for rows.Next() { rows.Scan(...); goods = append(goods, g) }` of
ListGoods; `i` is the index of the next row. -/
def scanGoods (scan : Nat → Option Error) : Nat → List Good → List Good → Except Error (List Good)
  | _, [], goods => .ok goods
  | i, g :: rows, goods =>
    match scan i with
    | some err => .error (.wrapf "failed to scan good" err)
    | none => scanGoods scan (i + 1) rows (goods ++ [g])

/-- GoodRepository.ListGoods: two counts over the whole table, then the page.
The database rejects a negative LIMIT or OFFSET, which fails the page query. -/
def ListGoods (f : ListFaults) (db : Table) (limit offset : Int) :
    RepoResult (List Good × Int × Int) :=
  match f.countTotal with
  | some err => { result := .error (.wrapf "failed to count goods" err), db := db }
  | none =>
  let total : Int := db.length
  match f.countRemoved with
  | some err => { result := .error (.wrapf "failed to count removed goods" err), db := db }
  | none =>
  let removed : Int := (db.filter fun g => g.Removed).length
  match (if limit < 0 ∨ offset < 0 then
      some (Error.external "LIMIT and OFFSET must not be negative") else f.selectRows) with
  | some err => { result := .error (.wrapf "failed to select goods list" err), db := db }
  | none =>
  match scanGoods f.scan 0 (pageOf db limit offset) [] with
  | .error err => { result := .error err, db := db }
  | .ok goods => { result := .ok (goods, total, removed), db := db }

/-! ## internal/repository/clickhouse.go -/

/-- Arguments of one `INSERT INTO events_log (Id, ProjectId, Name, Description,
Priority, Removed, EventTime)` exec. -/
structure LogRow where
  Id : Int
  ProjectId : Int
  Name : String
  Description : String
  Priority : Int
  Removed : Nat
  EventTime : Int
deriving DecidableEq, Repr

/-- The function boolToUInt8. -/
def boolToUInt8 (b : Bool) : Nat :=
  if b then 1 else 0

/-- Which calls of BatchInsertLogs fail; `exec i` is a failure of the i-th
ExecContext. -/
structure ChFaults where
  beginTx : Option Error
  prepare : Option Error
  exec : Nat → Option Error
  commit : Option Error

/-- Every call succeeds. -/
def ChFaults.ok : ChFaults :=
  { beginTx := none, prepare := none, exec := fun _ => none, commit := none }

/-- Calls made by BatchInsertLogs on the database handle, the transaction and the
prepared statement. -/
inductive ChCall where
  | beginTx
  | prepare
  | exec (row : LogRow)
  | commit
  | rollback
deriving DecidableEq, Repr

/-- Returned error of BatchInsertLogs, the events_log table afterwards and the
calls made. -/
structure ChResult where
  err : Option Error
  table : List LogRow
  log : List ChCall

/-- The arguments passed to ExecContext for event e at time now. -/
def logRow (now : Int) (e : Good) : LogRow :=
  { Id := e.ID, ProjectId := e.ProjectID, Name := e.Name,
    Description := match e.Description with
      | some d => d
      | none => "",
    Priority := e.Priority, Removed := boolToUInt8 e.Removed, EventTime := now }

/-- The rows of a batch; `clock i` is the value of time.Now() at the i-th exec. -/
def logRows (clock : Nat → Int) : Nat → List Good → List LogRow
  | _, [] => []
  | i, e :: events => logRow (clock i) e :: logRows clock (i + 1) events

/-- The loop over the events of BatchInsertLogs from index i on: the rows passed
to ExecContext, in order, and the error of the first failing exec, if any. -/
def execEvents (exec : Nat → Option Error) (clock : Nat → Int) :
    Nat → List Good → List LogRow × Option Error
  | _, [] => ([], none)
  | i, e :: events =>
    match exec i with
    | some err => ([logRow (clock i) e], some err)
    | none =>
      let r := execEvents exec clock (i + 1) events
      (logRow (clock i) e :: r.1, r.2)

/-- ClickhouseRepo.BatchInsertLogs.  The rows of the batch reach the table only
through a successful Commit. -/
def BatchInsertLogs (f : ChFaults) (clock : Nat → Int) (table : List LogRow)
    (events : List Good) : ChResult :=
  match f.beginTx with
  | some err => { err := some err, table := table, log := [.beginTx] }
  | none =>
  match f.prepare with
  | some err => { err := some err, table := table, log := [.beginTx, .prepare, .rollback] }
  | none =>
  let r := execEvents f.exec clock 0 events
  match r.2 with
  | some err =>
    { err := some err, table := table,
      log := [.beginTx, .prepare] ++ r.1.map ChCall.exec ++ [.rollback] }
  | none =>
  match f.commit with
  | some err =>
    { err := some err, table := table,
      log := [.beginTx, .prepare] ++ r.1.map ChCall.exec ++ [.commit] }
  | none =>
    { err := none, table := table ++ r.1,
      log := [.beginTx, .prepare] ++ r.1.map ChCall.exec ++ [.commit] }

/-- ClickhouseRepo as the Repo of the consumer: the state is the events_log
table. -/
def clickhouseRepo (f : ChFaults) (clock : Nat → Int) : Repo (List LogRow) :=
  { BatchInsertLogs := fun table events =>
      let r := BatchInsertLogs f clock table events
      (r.table, r.err) }

/-- The rank r lies between the old rank cur and the new rank n of a move, the
new rank included and the old one excluded. -/
def betweenRanks (n cur r : Int) : Bool :=
  (n ≤ r ∧ r < cur) ∨ (cur < r ∧ r ≤ n)

/-- The repository leaves the cache entries of the World as they are. -/
def RepoKeepsCache (repo : service.Repo World) : Prop :=
  (∀ w p name d, (repo.CreateGood w p name d).1.cache = w.cache) ∧
  (∀ w p id, (repo.GetGood w p id).1.cache = w.cache) ∧
  (∀ w p id name d, (repo.UpdateGood w p id name d).1.cache = w.cache) ∧
  (∀ w p id, (repo.RemoveGood w p id).1.cache = w.cache) ∧
  (∀ w p id n, (repo.Reprioritize w p id n).1.cache = w.cache)

/-- The cache entry stored under the key, if any. -/
def cached (w : World) (key : String) : Option (String × Payload) :=
  w.cache.find? fun e => e.1 = key

/-- The events decoded from the HandleMessage calls of a series, in arrival
order. -/
def decodedEvents (unmarshal : Decoder) : List Op → List Good
  | [] => []
  | .handle data :: ops =>
    match unmarshal data with
    | .ok g => g :: decodedEvents unmarshal ops
    | .error _ => decodedEvents unmarshal ops
  | .flush :: ops => decodedEvents unmarshal ops

/-- The zero value of model.Good. -/
def zeroGood : Good :=
  { ID := 0, ProjectID := 0, Name := "", Description := none, Priority := 0, Removed := false,
    CreatedAt := 0 }

/-- Stand-in codec for a payload with a type mismatch.  For an object whose id is
a number and whose name is not a string, encoding/json stores the id, skips the
name and returns an UnmarshalTypeError; the two-byte payload [b, 255] stands
for such an object with id b.  Every other payload is read as by sampleCodec. -/
def typeMismatchCodec : Codec :=
  { sampleCodec with
    unmarshalGood := fun data =>
      match data with
      | [b, 255] =>
        ({ zeroGood with ID := b.toNat },
          some (.external "json: cannot unmarshal number into Go struct field Good.name"))
      | _ => sampleCodec.unmarshalGood data }

/-- State of the repository after BatchInsertLogs was called with the given
batches, one after the other, starting from state s. -/
def applyBatches {ρ : Type} (repo : Repo ρ) (s : ρ) (batches : List (List Good)) : ρ :=
  batches.foldl (fun st b => (repo.BatchInsertLogs st b).1) s

/-! ## Reprioritize: auxiliary facts -/

theorem scanRows_ok (scan : Nat → Option Error) (rows : List PriorityUpdate) :
    ∀ (i : Nat) (acc us : List PriorityUpdate),
      scanRows scan i rows acc = .ok us → us = acc ++ rows := by
  induction rows with
  | nil => intro i acc us h; simp [scanRows] at h; simp [h]
  | cons pu rows ih =>
    intro i acc us h
    unfold scanRows at h
    split at h
    · cases h
    · have := ih _ _ _ h
      simpa using this

theorem scanRows_noFault (rows : List PriorityUpdate) :
    ∀ (i : Nat) (acc : List PriorityUpdate),
      scanRows (fun _ => none) i rows acc = .ok (acc ++ rows) := by
  induction rows with
  | nil => intro i acc; simp [scanRows]
  | cons pu rows ih => intro i acc; simp [scanRows, ih]

/-- Shape of every successful call. -/
theorem Reprioritize_ok {f : Faults} {db : Table} {p id n : Int} {us : List PriorityUpdate}
    (h : (Reprioritize f db p id n).result = .ok us) :
    ∃ cur, selectPriority db id p = some cur ∧
      (Reprioritize f db p id n).db = setPriority n id p (shiftStep db p n cur).2.1 ∧
      us = (shiftStep db p n cur).2.2 ++ [{ ID := id, Priority := n }] := by
  unfold Reprioritize at h ⊢
  split at h
  · cases h
  · split at h
    · cases h
    · split at h
      · cases h
      · rename_i cur hcur
        refine ⟨cur, hcur, ?_⟩
        simp only [hcur] at h ⊢
        cases hA : (if (shiftStep db p n cur).1 = [] then none else f.shift) with
        | some e => simp [hA] at h
        | none =>
          cases hB : scanRows f.scan 0 (shiftStep db p n cur).2.2 [] with
          | error e => simp [hA, hB] at h
          | ok upd =>
            cases hC : f.setPriority with
            | some e => simp [hA, hB, hC] at h
            | none =>
              cases hD : f.commit with
              | some e => simp [hA, hB, hC, hD] at h
              | none =>
                have hu := scanRows_ok _ _ _ _ _ hB
                simp only [hA, hB, hC, hD] at h ⊢
                simp only [List.nil_append] at hu
                subst hu
                simp only [Except.ok.injEq] at h
                exact ⟨trivial, h.symm⟩

/-- Without faults the call succeeds as soon as the locked read finds the row. -/
theorem Reprioritize_noFault {db : Table} {p id n cur : Int}
    (hcur : selectPriority db id p = some cur) :
    (Reprioritize Faults.ok db p id n).result =
        .ok ((shiftStep db p n cur).2.2 ++ [{ ID := id, Priority := n }]) ∧
      (Reprioritize Faults.ok db p id n).db = setPriority n id p (shiftStep db p n cur).2.1 := by
  simp [Reprioritize, Faults.ok, hcur, scanRows_noFault]

theorem selectPriority_of_hasItem {db : Table} {p id : Int} (h : HasItem db p id) :
    ∃ cur, selectPriority db id p = some cur := by
  obtain ⟨g, hg, hid, hp⟩ := h
  unfold selectPriority
  cases hf : db.find? (fun g => g.ID = id ∧ g.ProjectID = p) with
  | none =>
    rw [List.find?_eq_none] at hf
    exact absurd (by simp [hid, hp]) (hf g hg)
  | some x => exact ⟨x.Priority, rfl⟩

/-- The row read by the locked read. -/
theorem selectPriority_some {db : Table} {p id cur : Int}
    (h : selectPriority db id p = some cur) :
    ∃ x ∈ db, x.ID = id ∧ x.ProjectID = p ∧ x.Priority = cur := by
  unfold selectPriority at h
  rw [Option.map_eq_some'] at h
  obtain ⟨x, hf, hx⟩ := h
  have hk := List.find?_some hf
  simp only [decide_eq_true_eq] at hk
  exact ⟨x, List.mem_of_find?_eq_some hf, hk.1, hk.2, hx⟩

/-- The table of a successful call is the table of the specification. -/
theorem txTable_eq_reference (db : Table) (p id n cur : Int) :
    setPriority n id p (shiftStep db p n cur).2.1 = db.map (referenceRow p id n cur) := by
  unfold shiftStep setPriority
  split_ifs with h1 h2
  all_goals simp only [shiftRows, List.map_map]
  all_goals
    apply List.map_congr_left
    intro g _
    rcases g with ⟨gid, gp, gn, gd, gr, grem, gc⟩
    simp only [Function.comp, inShiftUp, inShiftDown, referenceRow, referenceRank,
      Bool.decide_and, Bool.and_eq_true, decide_eq_true_eq]
    split_ifs <;> simp_all <;> omega

theorem mem_ranks1N {n : Nat} {a : Int} : a ∈ ranks1N n ↔ 1 ≤ a ∧ a ≤ n := by
  unfold ranks1N
  simp only [List.mem_map, List.mem_range]
  constructor
  · rintro ⟨i, hi, rfl⟩
    omega
  · rintro ⟨h1, h2⟩
    refine ⟨(a - 1).toNat, ?_, ?_⟩ <;> omega

theorem nodup_ranks1N (n : Nat) : (ranks1N n).Nodup := by
  unfold ranks1N
  refine (List.nodup_range n).map_on ?_
  intro x _ y _ h
  omega

/-- Under the primary key the target row is the only row with its key. -/
theorem target_rank {db : Table} {p id cur : Int} (hk : PrimaryKey db)
    (hcur : selectPriority db id p = some cur) {g : Good} (hg : g ∈ db)
    (hid : g.ID = id) (hp : g.ProjectID = p) : g.Priority = cur := by
  obtain ⟨x, hx, hxid, hxp, hxr⟩ := selectPriority_some hcur
  have := List.inj_on_of_nodup_map hk hg hx (by simp [hid, hp, hxid, hxp])
  rw [this, hxr]

/-- With unique ranks the target row is the only row of its project with its rank. -/
theorem rank_target {db : Table} {p id cur : Int} (hu : UniqueRanks db p)
    (hcur : selectPriority db id p = some cur) {g : Good} (hg : g ∈ db)
    (hp : g.ProjectID = p) (hr : g.Priority = cur) : g.ID = id := by
  obtain ⟨x, hx, hxid, hxp, hxr⟩ := selectPriority_some hcur
  have hg' : g ∈ db.filter (fun g => g.ProjectID = p) := by simp [hg, hp]
  have hx' : x ∈ db.filter (fun g => g.ProjectID = p) := by simp [hx, hxp]
  have := List.inj_on_of_nodup_map hu hg' hx' (by rw [hr, hxr])
  rw [this, hxid]

/-- On the rows of the project the specified rank is a function of the old rank. -/
theorem referenceRank_eq_moveRank {db : Table} {p id n cur : Int} (hk : PrimaryKey db)
    (hu : UniqueRanks db p) (hcur : selectPriority db id p = some cur) {g : Good}
    (hg : g ∈ db) (hp : g.ProjectID = p) :
    referenceRank p id n cur g = moveRank n cur g.Priority := by
  have h1 := @target_rank db p id cur hk hcur g hg
  have h2 := @rank_target db p id cur hu hcur g hg hp
  unfold referenceRank moveRank
  by_cases hid : g.ID = id
  · have := h1 hid hp
    simp [hid, hp, this]
  · have hne : g.Priority ≠ cur := fun h => hid (h2 h)
    simp only [hid, false_and, if_false, hne, hp, true_and]
    split_ifs <;> omega

theorem ranksOf_reference {db : Table} {p id n cur : Int} (hk : PrimaryKey db)
    (hu : UniqueRanks db p) (hcur : selectPriority db id p = some cur) :
    ranksOf (db.map (referenceRow p id n cur)) p = (ranksOf db p).map (moveRank n cur) := by
  unfold ranksOf
  rw [List.filter_map, List.map_map, List.map_map]
  have hf : ((fun g : Good => decide (g.ProjectID = p)) ∘ referenceRow p id n cur)
      = fun g : Good => decide (g.ProjectID = p) := by
    funext g; simp [referenceRow]
  rw [hf]
  apply List.map_congr_left
  intro g hg
  rw [List.mem_filter] at hg
  simp only [Function.comp, referenceRow]
  exact referenceRank_eq_moveRank hk hu hcur hg.1 (by simpa using hg.2)

/-- A move inside 1..N permutes the ranks 1..N. -/
theorem moveRank_perm {N : Nat} {n cur : Int} (hn1 : 1 ≤ n) (hn2 : n ≤ N) (hc1 : 1 ≤ cur)
    (hc2 : cur ≤ N) : ((ranks1N N).map (moveRank n cur)).Perm (ranks1N N) := by
  have hnd : ((ranks1N N).map (moveRank n cur)).Nodup := by
    refine (nodup_ranks1N N).map_on ?_
    intro x _ y _ h
    unfold moveRank at h
    split_ifs at h <;> omega
  rw [List.perm_ext_iff_of_nodup hnd (nodup_ranks1N N)]
  intro a
  simp only [List.mem_map, mem_ranks1N]
  constructor
  · rintro ⟨r, ⟨hr1, hr2⟩, rfl⟩
    unfold moveRank
    split_ifs <;> omega
  · rintro ⟨ha1, ha2⟩
    by_cases h1 : a = n
    · exact ⟨cur, ⟨hc1, hc2⟩, by simp [moveRank, h1]⟩
    · by_cases h2 : n < a ∧ a ≤ cur
      · refine ⟨a - 1, by omega, ?_⟩
        unfold moveRank
        split_ifs <;> omega
      · by_cases h3 : cur ≤ a ∧ a < n
        · refine ⟨a + 1, by omega, ?_⟩
          unfold moveRank
          split_ifs <;> omega
        · refine ⟨a, ⟨ha1, ha2⟩, ?_⟩
          unfold moveRank
          split_ifs <;> omega

theorem DenseRanks.unique {db : Table} {p : Int} {N : Nat} (h : DenseRanks db p N) :
    UniqueRanks db p :=
  (List.Perm.nodup_iff h).2 (nodup_ranks1N N)

/-- Reprioritize keeps dense ranks dense. -/
theorem dense_after_move {db : Table} {p id n cur : Int} {N : Nat} (hk : PrimaryKey db)
    (hd : DenseRanks db p N) (hcur : selectPriority db id p = some cur)
    (hn1 : 1 ≤ n) (hn2 : n ≤ N) :
    DenseRanks (setPriority n id p (shiftStep db p n cur).2.1) p N := by
  obtain ⟨x, hx, _, hxp, hxr⟩ := selectPriority_some hcur
  have hmem : cur ∈ ranksOf db p := by
    unfold ranksOf
    exact List.mem_map.2 ⟨x, by simp [hx, hxp], hxr⟩
  have hc := mem_ranks1N.1 ((List.Perm.mem_iff hd).1 hmem)
  unfold DenseRanks
  rw [txTable_eq_reference, ranksOf_reference hk hd.unique hcur]
  exact (List.Perm.map _ hd).trans (moveRank_perm hn1 hn2 hc.1 hc.2)

theorem selectPriority_of_row {db : Table} {p id : Int} (hk : PrimaryKey db) {g : Good}
    (hg : g ∈ db) (hid : g.ID = id) (hp : g.ProjectID = p) :
    selectPriority db id p = some g.Priority := by
  obtain ⟨cur, hcur⟩ := selectPriority_of_hasItem ⟨g, hg, hid, hp⟩
  rw [hcur, target_rank hk hcur hg hid hp]

/-- After a successful call the locked read finds the new rank. -/
theorem selectPriority_reference {db : Table} {p id n cur : Int}
    (hcur : selectPriority db id p = some cur) :
    selectPriority (db.map (referenceRow p id n cur)) id p = some n := by
  unfold selectPriority at hcur ⊢
  rw [Option.map_eq_some'] at hcur
  obtain ⟨x, hf, _⟩ := hcur
  have hk := List.find?_some hf
  simp only [decide_eq_true_eq] at hk
  rw [List.find?_map]
  have hc : ((fun g : Good => decide (g.ID = id ∧ g.ProjectID = p)) ∘ referenceRow p id n cur)
      = fun g : Good => decide (g.ID = id ∧ g.ProjectID = p) := by
    funext g; simp [referenceRow]
  rw [hc, hf]
  simp [referenceRow, referenceRank, hk.1, hk.2]

/-- Moving back undoes the move, row by row. -/
theorem referenceRow_roundtrip {db : Table} {p id r1 r2 : Int} (hk : PrimaryKey db)
    (hu : UniqueRanks db p) (hcur : selectPriority db id p = some r1) {g : Good}
    (hg : g ∈ db) : referenceRow p id r1 r2 (referenceRow p id r2 r1 g) = g := by
  have h1 := @target_rank db p id r1 hk hcur g hg
  have h2 := @rank_target db p id r1 hu hcur g hg
  rcases g with ⟨gid, gp, gn, gd, gr, grem, gc⟩
  simp only [referenceRow, referenceRank, Good.mk.injEq, true_and, and_true] at h1 h2 ⊢
  by_cases hid : gid = id
  · by_cases hp : gp = p
    · simp [hid, hp, h1 hid hp]
    · simp [hid, hp]
  · by_cases hp : gp = p
    · have hne : gr ≠ r1 := fun h => hid (h2 hp h)
      simp only [hid, hp, false_and, if_false, true_and]
      split_ifs <;> omega
    · simp [hid, hp]

theorem scanRows_error (scan : Nat → Option Error) (rows : List PriorityUpdate) :
    ∀ (i : Nat) (acc : List PriorityUpdate) (e : Error),
      scanRows scan i rows acc = .error e →
        ∃ k c, scan k = some c ∧ e = .wrapf "failed to scan shifted priority" c := by
  induction rows with
  | nil => intro i acc e h; simp [scanRows] at h
  | cons pu rows ih =>
    intro i acc e h
    unfold scanRows at h
    split at h
    · rename_i c hc
      cases h
      exact ⟨i, c, hc, rfl⟩
    · exact ih _ _ _ h

/-- The exits of Reprioritize, one disjunct per return statement. -/
theorem Reprioritize_cases (f : Faults) (db : Table) (p id n : Int) :
    (∃ c, f.beginTx = some c ∧ Reprioritize f db p id n =
      { result := .error (.wrapf "failed to begin transaction" c), db := db,
        log := [.beginTx] }) ∨
    (f.beginTx = none ∧ ∃ c, f.selectRow = some c ∧ Reprioritize f db p id n =
      { result := .error (.wrapf "failed to select good for reprioritize" c), db := db,
        log := [.beginTx, .selectForUpdate id p, .rollback] }) ∨
    (f.beginTx = none ∧ f.selectRow = none ∧ selectPriority db id p = none ∧
      Reprioritize f db p id n =
        { result := .error .ErrNotFound, db := db,
          log := [.beginTx, .selectForUpdate id p, .rollback] }) ∨
    (f.beginTx = none ∧ f.selectRow = none ∧ ∃ cur, selectPriority db id p = some cur ∧
      ((n ≠ cur ∧ ∃ c, f.shift = some c ∧ Reprioritize f db p id n =
          { result := .error (.wrapf
              (if n < cur then "failed to shift priorities up"
               else "failed to shift priorities down") c),
            db := db,
            log := [.beginTx, .selectForUpdate id p] ++ (shiftStep db p n cur).1
              ++ [.rollback] }) ∨
       (∃ k c, f.scan k = some c ∧ Reprioritize f db p id n =
          { result := .error (.wrapf "failed to scan shifted priority" c), db := db,
            log := [.beginTx, .selectForUpdate id p] ++ (shiftStep db p n cur).1
              ++ [.rollback] }) ∨
       (∃ c, f.setPriority = some c ∧ Reprioritize f db p id n =
          { result := .error (.wrapf "failed to update priority of good" c), db := db,
            log := [.beginTx, .selectForUpdate id p] ++ (shiftStep db p n cur).1
              ++ [.setPriority n id p, .rollback] }) ∨
       (f.setPriority = none ∧ ∃ c, f.commit = some c ∧ Reprioritize f db p id n =
          { result := .error (.wrapf "failed to commit transaction" c), db := db,
            log := [.beginTx, .selectForUpdate id p] ++ (shiftStep db p n cur).1
              ++ [.setPriority n id p, .commit, .rollback] }) ∨
       (f.setPriority = none ∧ f.commit = none ∧ (n ≠ cur → f.shift = none) ∧
        Reprioritize f db p id n =
          { result := .ok ((shiftStep db p n cur).2.2 ++ [{ ID := id, Priority := n }]),
            db := setPriority n id p (shiftStep db p n cur).2.1,
            log := [.beginTx, .selectForUpdate id p] ++ (shiftStep db p n cur).1
              ++ [.setPriority n id p, .commit, .rollback] }))) := by
  cases hA : f.beginTx with
  | some c => left; exact ⟨c, rfl, by simp [Reprioritize, hA]⟩
  | none =>
  right
  cases hB : f.selectRow with
  | some c => left; exact ⟨rfl, c, rfl, by simp [Reprioritize, hA, hB]⟩
  | none =>
  right
  cases hC : selectPriority db id p with
  | none => left; exact ⟨rfl, rfl, rfl, by simp [Reprioritize, hA, hB, hC]⟩
  | some cur =>
  right
  refine ⟨rfl, rfl, cur, rfl, ?_⟩
  have hnil : (shiftStep db p n cur).1 = [] ↔ n = cur := by
    unfold shiftStep
    split_ifs <;> simp <;> omega
  cases hD : (if (shiftStep db p n cur).1 = [] then none else f.shift) with
  | some c =>
    left
    have hne : n ≠ cur := by
      intro h; rw [if_pos (hnil.2 h)] at hD; cases hD
    rw [if_neg (fun h => hne (hnil.1 h))] at hD
    have hD2 : (if (shiftStep db p n cur).1 = [] then none else f.shift) = some c := by
      rw [if_neg (fun h => hne (hnil.1 h))]; exact hD
    exact ⟨hne, c, hD, by simp [Reprioritize, hA, hB, hC, hD2]⟩
  | none =>
  right
  have hsh : n ≠ cur → f.shift = none := by
    intro hne; rw [if_neg (fun h => hne (hnil.1 h))] at hD; exact hD
  cases hE : scanRows f.scan 0 (shiftStep db p n cur).2.2 [] with
  | error e =>
    left
    obtain ⟨k, c, hk, rfl⟩ := scanRows_error _ _ _ _ _ hE
    exact ⟨k, c, hk, by simp [Reprioritize, hA, hB, hC, hD, hE]⟩
  | ok upd =>
  right
  have hu := scanRows_ok _ _ _ _ _ hE
  simp only [List.nil_append] at hu
  subst hu
  cases hF : f.setPriority with
  | some c => left; exact ⟨c, rfl, by simp [Reprioritize, hA, hB, hC, hD, hE, hF]⟩
  | none =>
  right
  cases hG : f.commit with
  | some c => left; exact ⟨rfl, c, rfl, by simp [Reprioritize, hA, hB, hC, hD, hE, hF, hG]⟩
  | none => right; exact ⟨rfl, rfl, hsh, by simp [Reprioritize, hA, hB, hC, hD, hE, hF, hG]⟩

/-- A failed call leaves the table as it was. -/
theorem Reprioritize_error_db {f : Faults} {db : Table} {p id n : Int} {e : Error}
    (h : (Reprioritize f db p id n).result = .error e) :
    (Reprioritize f db p id n).db = db := by
  rcases Reprioritize_cases f db p id n with ⟨c, _, hr⟩ | ⟨_, c, _, hr⟩ | ⟨_, _, _, hr⟩ |
    ⟨_, _, cur, _, ⟨_, c, _, hr⟩ | ⟨k, c, _, hr⟩ | ⟨c, _, hr⟩ | ⟨_, c, _, hr⟩ | ⟨_, _, _, hr⟩⟩
  all_goals rw [hr] at h ⊢
  all_goals first | rfl | cases h

/-- Setting the rank that the row already has changes nothing. -/
theorem setPriority_same {db : Table} {p id n : Int} (hk : PrimaryKey db)
    (hcur : selectPriority db id p = some n) : setPriority n id p db = db := by
  unfold setPriority
  conv_rhs => rw [← List.map_id db]
  apply List.map_congr_left
  intro g hg
  split_ifs with ht
  · have := target_rank hk hcur hg ht.1 ht.2
    rcases g with ⟨gid, gp, gn, gd, gr, grem, gc⟩
    simp_all
  · rfl

theorem shiftStep_same (db : Table) (p n : Int) : shiftStep db p n n = ([], db, []) := by
  simp [shiftStep]

/-- Under the primary key a row is found by its own key. -/
theorem find_own_key {db : Table} (hk : PrimaryKey db) {g : Good} (hg : g ∈ db) :
    db.find? (fun x => x.ID = g.ID ∧ x.ProjectID = g.ProjectID) = some g := by
  cases hf : db.find? (fun x => x.ID = g.ID ∧ x.ProjectID = g.ProjectID) with
  | none =>
    rw [List.find?_eq_none] at hf
    exact absurd (by simp) (hf g hg)
  | some x =>
    have hx := List.find?_some hf
    simp only [decide_eq_true_eq] at hx
    have := List.inj_on_of_nodup_map hk (List.mem_of_find?_eq_some hf) hg
      (by simp [hx.1, hx.2])
    rw [this]

theorem rankIn_reference {db : Table} {p id n cur : Int} (hk : PrimaryKey db) {g : Good}
    (hg : g ∈ db) :
    rankIn (db.map (referenceRow p id n cur)) g = some (referenceRank p id n cur g) := by
  unfold rankIn selectPriority
  rw [List.find?_map]
  have hc : ((fun x : Good => decide (x.ID = g.ID ∧ x.ProjectID = g.ProjectID))
      ∘ referenceRow p id n cur)
      = fun x : Good => decide (x.ID = g.ID ∧ x.ProjectID = g.ProjectID) := by
    funext x; simp [referenceRow]
  rw [hc, find_own_key hk hg]
  simp [referenceRow]

/-- The rows returned by the shift statement are the non-target rows whose
reference rank differs from their rank, each with its reference rank. -/
theorem shiftStep_returning {db : Table} {p id n cur : Int} (hk : PrimaryKey db)
    (hcur : selectPriority db id p = some cur) :
    (shiftStep db p n cur).2.2 =
      (db.filter fun g => !(decide (g.ID = id ∧ g.ProjectID = p)) &&
          decide (referenceRank p id n cur g ≠ g.Priority)).map
        fun g => { ID := g.ID, Priority := referenceRank p id n cur g } := by
  have key : ∀ g ∈ db, g.ID = id → g.ProjectID = p → g.Priority = cur :=
    fun g hg => target_rank hk hcur hg
  unfold shiftStep
  split_ifs with h1 h2
  · simp only [shiftReturning]
    have hfil : db.filter (inShiftUp p n cur) = db.filter (fun g =>
        !(decide (g.ID = id ∧ g.ProjectID = p)) &&
          decide (referenceRank p id n cur g ≠ g.Priority)) := by
      apply List.filter_congr
      intro g hg
      have := key g hg
      simp only [inShiftUp, referenceRank]
      by_cases hid : g.ID = id <;> by_cases hp : g.ProjectID = p
      · have := this hid hp
        simp [hid, hp]; omega
      all_goals simp [hid, hp]
      all_goals split_ifs <;> simp <;> omega
    rw [hfil]
    apply List.map_congr_left
    intro g hg
    rw [List.mem_filter] at hg
    obtain ⟨_, hg2⟩ := hg
    simp only [Bool.and_eq_true, Bool.not_eq_true', decide_eq_false_iff_not,
      decide_eq_true_eq] at hg2
    obtain ⟨ht, hne⟩ := hg2
    unfold referenceRank at hne ⊢
    simp only [ht, if_false] at hne ⊢
    split_ifs at hne ⊢ <;> first | rfl | omega
  · simp only [shiftReturning]
    have hfil : db.filter (inShiftDown p cur n) = db.filter (fun g =>
        !(decide (g.ID = id ∧ g.ProjectID = p)) &&
          decide (referenceRank p id n cur g ≠ g.Priority)) := by
      apply List.filter_congr
      intro g hg
      have := key g hg
      simp only [inShiftDown, referenceRank]
      by_cases hid : g.ID = id <;> by_cases hp : g.ProjectID = p
      · have := this hid hp
        simp [hid, hp]; omega
      all_goals simp [hid, hp]
      all_goals split_ifs <;> simp <;> omega
    rw [hfil]
    apply List.map_congr_left
    intro g hg
    rw [List.mem_filter] at hg
    obtain ⟨_, hg2⟩ := hg
    simp only [Bool.and_eq_true, Bool.not_eq_true', decide_eq_false_iff_not,
      decide_eq_true_eq] at hg2
    obtain ⟨ht, hne⟩ := hg2
    unfold referenceRank at hne ⊢
    simp only [ht, if_false] at hne ⊢
    split_ifs at hne ⊢ <;> first | rfl | omega
  · have hfil : db.filter (fun g =>
        !(decide (g.ID = id ∧ g.ProjectID = p)) &&
          decide (referenceRank p id n cur g ≠ g.Priority)) = [] := by
      rw [List.filter_eq_nil_iff]
      intro g _
      simp only [referenceRank]
      by_cases ht : g.ID = id ∧ g.ProjectID = p
      · simp [ht]
      · simp only [ht, if_false]
        split_ifs <;> simp <;> omega
    rw [hfil]
    rfl

/-- The delta list of a successful call, read off the tables before and after. -/
theorem deltas_of_tables {db : Table} {p id n cur : Int} (hk : PrimaryKey db)
    (hcur : selectPriority db id p = some cur) :
    (shiftStep db p n cur).2.2 =
      (shiftedRows db (db.map (referenceRow p id n cur)) p id).map
        (deltaOf (db.map (referenceRow p id n cur))) := by
  rw [shiftStep_returning hk hcur]
  unfold shiftedRows
  have hfil : db.filter (fun g => !(decide (g.ID = id ∧ g.ProjectID = p)) &&
        decide (rankIn (db.map (referenceRow p id n cur)) g ≠ some g.Priority))
      = db.filter (fun g => !(decide (g.ID = id ∧ g.ProjectID = p)) &&
        decide (referenceRank p id n cur g ≠ g.Priority)) := by
    apply List.filter_congr
    intro g hg
    rw [rankIn_reference hk hg]
    simp
  rw [hfil]
  apply List.map_congr_left
  intro g hg
  rw [List.mem_filter] at hg
  simp [deltaOf, rankIn_reference hk hg.1]


/-! ## Reprioritize: the rank store contract -/

/-- C1: if the ranks of all items of project p (removed items included) are
exactly 1..N without duplicates, the item (p, id) exists and 1 <= newRank <= N,
then Reprioritize succeeds when no statement fails, and every successful
Reprioritize(p, id, newRank) leaves the ranks of p a duplicate-free permutation
of 1..N. -/
theorem reprioritize_keeps_dense_ranks (db : Table) (p id newRank : Int) (N : Nat)
    (hk : PrimaryKey db) (hd : DenseRanks db p N) (hi : HasItem db p id)
    (h1 : 1 ≤ newRank) (h2 : newRank ≤ N) :
    (∃ us, (Reprioritize Faults.ok db p id newRank).result = .ok us) ∧
    ∀ (f : Faults) (us : List PriorityUpdate),
      (Reprioritize f db p id newRank).result = .ok us →
        DenseRanks (Reprioritize f db p id newRank).db p N := by
  constructor
  · obtain ⟨cur, hcur⟩ := selectPriority_of_hasItem hi
    exact ⟨_, (Reprioritize_noFault hcur).1⟩
  · intro f us h
    obtain ⟨cur, hcur, hdb, _⟩ := Reprioritize_ok h
    rw [hdb]
    exact dense_after_move hk hd hcur h1 h2

theorem reprioritize_keeps_dense_ranks_witness :
    DenseRanks (Reprioritize Faults.ok sampleTable 1 3 1).db 1 4 :=
  (reprioritize_keeps_dense_ranks sampleTable 1 3 1 4 (by decide) (by decide)
    ⟨_, List.mem_cons_of_mem _ (List.mem_cons_of_mem _ (List.mem_cons_of_mem _
      (List.mem_cons_self _ _))), rfl, rfl⟩ (by decide) (by decide)).2 Faults.ok _ rfl

/-- C2: with unique ranks inside project p, for an item X of p with rank r1 and
any rank r2, Reprioritize(p, X, r2) followed by Reprioritize(p, X, r1) succeeds
when no statement fails, and whenever both calls succeed the whole table (hence
the rank of every item) is what it was before the first call. -/
theorem reprioritize_roundtrip (db : Table) (p : Int) (x : Good) (r2 : Int)
    (hk : PrimaryKey db) (hu : UniqueRanks db p) (hx : x ∈ db) (hp : x.ProjectID = p) :
    (∃ us1 us2,
      (Reprioritize Faults.ok db p x.ID r2).result = .ok us1 ∧
      (Reprioritize Faults.ok (Reprioritize Faults.ok db p x.ID r2).db p x.ID
        x.Priority).result = .ok us2) ∧
    ∀ (f1 f2 : Faults) (us1 us2 : List PriorityUpdate),
      (Reprioritize f1 db p x.ID r2).result = .ok us1 →
      (Reprioritize f2 (Reprioritize f1 db p x.ID r2).db p x.ID x.Priority).result = .ok us2 →
        (Reprioritize f2 (Reprioritize f1 db p x.ID r2).db p x.ID x.Priority).db = db := by
  have hcur : selectPriority db x.ID p = some x.Priority := selectPriority_of_row hk hx rfl hp
  have hdb1 := (Reprioritize_noFault (n := r2) hcur).2
  rw [txTable_eq_reference] at hdb1
  constructor
  · have e2 := (Reprioritize_noFault (n := x.Priority)
      (selectPriority_reference (n := r2) hcur)).1
    rw [← hdb1] at e2
    exact ⟨_, _, (Reprioritize_noFault hcur).1, e2⟩
  · intro f1 f2 us1 us2 e1 e2
    obtain ⟨c1, hc1, hd1, _⟩ := Reprioritize_ok e1
    rw [hcur] at hc1
    cases hc1
    rw [txTable_eq_reference] at hd1
    obtain ⟨c2, hc2, hd2, _⟩ := Reprioritize_ok e2
    rw [hd1, selectPriority_reference hcur] at hc2
    cases hc2
    rw [hd2, txTable_eq_reference, hd1, List.map_map]
    conv_rhs => rw [← List.map_id db]
    apply List.map_congr_left
    intro g hg
    exact referenceRow_roundtrip hk hu hcur hg

theorem reprioritize_roundtrip_witness :
    (Reprioritize Faults.ok (Reprioritize Faults.ok sampleTable 1 3 1).db 1 3 3).db
      = sampleTable :=
  (reprioritize_roundtrip sampleTable 1
    { ID := 3, ProjectID := 1, Name := "C", Description := none, Priority := 3,
      Removed := false, CreatedAt := 103 } 1 (by decide) (by decide)
    (List.mem_cons_of_mem _ (List.mem_cons_of_mem _ (List.mem_cons_of_mem _
      (List.mem_cons_self _ _)))) rfl).2 Faults.ok Faults.ok _ _ rfl rfl

/-- C3: for an existing item (p, id) whose current rank equals newRank,
Reprioritize(p, id, newRank) returns exactly one delta, (id, newRank), and the
table (hence the rank of every item in the store) is the same after the call as
before it; this holds whichever statements fail, and without failures the call
succeeds. -/
theorem reprioritize_same_rank (db : Table) (p : Int) (x : Good)
    (hk : PrimaryKey db) (hx : x ∈ db) (hp : x.ProjectID = p) :
    (Reprioritize Faults.ok db p x.ID x.Priority).result
        = .ok [{ ID := x.ID, Priority := x.Priority }] ∧
    ∀ f : Faults,
      (Reprioritize f db p x.ID x.Priority).db = db ∧
      ∀ us, (Reprioritize f db p x.ID x.Priority).result = .ok us →
        us = [{ ID := x.ID, Priority := x.Priority }] := by
  have hcur : selectPriority db x.ID p = some x.Priority := selectPriority_of_row hk hx rfl hp
  constructor
  · have := (Reprioritize_noFault (n := x.Priority) hcur).1
    simpa [shiftStep_same] using this
  · intro f
    cases hr : (Reprioritize f db p x.ID x.Priority).result with
    | error e => exact ⟨Reprioritize_error_db hr, fun us h => by cases h⟩
    | ok us =>
      obtain ⟨c, hc, hd, hus⟩ := Reprioritize_ok hr
      rw [hcur] at hc
      cases hc
      rw [shiftStep_same] at hd hus
      refine ⟨by rw [hd]; exact setPriority_same hk hcur, ?_⟩
      intro us2 h2
      cases h2
      simpa using hus

theorem reprioritize_same_rank_witness :
    (Reprioritize Faults.ok sampleTable 1 2 2).result = .ok [{ ID := 2, Priority := 2 }] :=
  (reprioritize_same_rank sampleTable 1
    { ID := 2, ProjectID := 1, Name := "B", Description := some "b", Priority := 2,
      Removed := false, CreatedAt := 101 } (by decide)
    (List.mem_cons_of_mem _ (List.mem_cons_self _ _)) rfl).1

/-- C4: after every successful Reprioritize(p, id, newRank) on an item read
with current rank cur, the table is the old table with each row replaced by its
reference row: the target has rank newRank; another row of p with old rank r has
r+1 if newRank < cur and newRank <= r < cur, r-1 if newRank > cur and
cur < r <= newRank, and r otherwise; rows of other projects keep their rank, and
no field other than the rank changes on any row. -/
theorem reprioritize_matches_reference (f : Faults) (db : Table) (p id newRank : Int)
    (us : List PriorityUpdate)
    (h : (Reprioritize f db p id newRank).result = .ok us) :
    ∃ cur, selectPriority db id p = some cur ∧
      (Reprioritize f db p id newRank).db = db.map (referenceRow p id newRank cur) ∧
      ∀ g, (referenceRow p id newRank cur g).ID = g.ID ∧
        (referenceRow p id newRank cur g).ProjectID = g.ProjectID ∧
        (referenceRow p id newRank cur g).Name = g.Name ∧
        (referenceRow p id newRank cur g).Description = g.Description ∧
        (referenceRow p id newRank cur g).Removed = g.Removed ∧
        (referenceRow p id newRank cur g).CreatedAt = g.CreatedAt ∧
        (referenceRow p id newRank cur g).Priority = referenceRank p id newRank cur g := by
  obtain ⟨cur, hcur, hd, _⟩ := Reprioritize_ok h
  refine ⟨cur, hcur, ?_, ?_⟩
  · rw [hd, txTable_eq_reference]
  · intro g
    simp [referenceRow]

theorem reprioritize_matches_reference_witness :
    ∃ cur, selectPriority sampleTable 4 1 = some cur ∧
      (Reprioritize Faults.ok sampleTable 1 4 2).db
        = sampleTable.map (referenceRow 1 4 2 cur) ∧
      ∀ g, (referenceRow 1 4 2 cur g).ID = g.ID ∧
        (referenceRow 1 4 2 cur g).ProjectID = g.ProjectID ∧
        (referenceRow 1 4 2 cur g).Name = g.Name ∧
        (referenceRow 1 4 2 cur g).Description = g.Description ∧
        (referenceRow 1 4 2 cur g).Removed = g.Removed ∧
        (referenceRow 1 4 2 cur g).CreatedAt = g.CreatedAt ∧
        (referenceRow 1 4 2 cur g).Priority = referenceRank 1 4 2 cur g :=
  reprioritize_matches_reference Faults.ok sampleTable 1 4 2 _ rfl

/-- C5: the delta list returned by a successful Reprioritize(p, id, newRank)
holds, in table order, exactly one entry (item id, rank after the call) for
every item other than the target whose rank the call changed, followed by the
target entry (id, newRank) as the last element.  With ranks 1:A, 2:B, 3:C, 4:D,
moving C to rank 1 returns A->2, B->3 and then C->1 and yields the ranks C:1,
A:2, B:3, D:4. -/
theorem reprioritize_delta_list (f : Faults) (db : Table) (p id newRank : Int)
    (us : List PriorityUpdate) (hk : PrimaryKey db)
    (h : (Reprioritize f db p id newRank).result = .ok us) :
    us = (shiftedRows db (Reprioritize f db p id newRank).db p id).map
          (deltaOf (Reprioritize f db p id newRank).db)
        ++ [{ ID := id, Priority := newRank }] ∧
    us.getLast? = some { ID := id, Priority := newRank } ∧
    (Reprioritize Faults.ok sampleTable 1 3 1).result
      = .ok [{ ID := 1, Priority := 2 }, { ID := 2, Priority := 3 }, { ID := 3, Priority := 1 }] ∧
    ((Reprioritize Faults.ok sampleTable 1 3 1).db.filter (fun g => g.ProjectID = 1)).map
        (fun g => (g.Name, g.Priority))
      = [("A", 2), ("B", 3), ("C", 1), ("D", 4)] := by
  obtain ⟨cur, hcur, hd, hus⟩ := Reprioritize_ok h
  rw [txTable_eq_reference] at hd
  have h1 : us = (shiftedRows db (Reprioritize f db p id newRank).db p id).map
          (deltaOf (Reprioritize f db p id newRank).db)
        ++ [{ ID := id, Priority := newRank }] := by
    rw [hd, ← deltas_of_tables hk hcur]
    exact hus
  refine ⟨h1, ?_, rfl, rfl⟩
  rw [h1, List.getLast?_concat]

theorem reprioritize_delta_list_witness :
    [{ ID := 2, Priority := 3 }, { ID := 3, Priority := 2 }]
      = (shiftedRows sampleTable (Reprioritize Faults.ok sampleTable 1 3 2).db 1 3).map
          (deltaOf (Reprioritize Faults.ok sampleTable 1 3 2).db)
        ++ [({ ID := 3, Priority := 2 } : PriorityUpdate)] :=
  (reprioritize_delta_list Faults.ok sampleTable 1 3 2 _ (by decide) rfl).1

/-- C6: whenever Reprioritize returns an error the table is unchanged.  The
error is ErrNotFound only if no item (projectId, id) exists, and then nothing
but the locked read was issued; every other error wraps the error of a failing
statement (which is therefore in its Unwrap chain), and after a successful
BeginTx the last call is Rollback.  Conversely: a missing item gives ErrNotFound
before any shift statement; a failing shift statement, a failing target update
and a failing commit each give an error wrapping that failure, with the table
as before the call. -/
theorem reprioritize_error_atomic (f : Faults) (db : Table) (p id newRank : Int) :
    (∀ e, (Reprioritize f db p id newRank).result = .error e →
      (Reprioritize f db p id newRank).db = db ∧
      (e = .ErrNotFound ∨ ∃ msg c, e = .wrapf msg c ∧ f.raises c ∧ c ∈ e.chain) ∧
      (e = .ErrNotFound → ¬ HasItem db p id ∧
        (Reprioritize f db p id newRank).log
          = [.beginTx, .selectForUpdate id p, .rollback]) ∧
      (f.beginTx = none →
        (Reprioritize f db p id newRank).log.getLast? = some .rollback)) ∧
    (f.beginTx = none → f.selectRow = none → ¬ HasItem db p id →
      (Reprioritize f db p id newRank).result = .error .ErrNotFound ∧
      (Reprioritize f db p id newRank).log = [.beginTx, .selectForUpdate id p, .rollback]) ∧
    (∀ cur c, f.beginTx = none → f.selectRow = none → selectPriority db id p = some cur →
      newRank ≠ cur → f.shift = some c →
      (Reprioritize f db p id newRank).result
        = .error (.wrapf (if newRank < cur then "failed to shift priorities up"
            else "failed to shift priorities down") c) ∧
      (Reprioritize f db p id newRank).db = db ∧
      Stmt.commit ∉ (Reprioritize f db p id newRank).log) ∧
    (∀ cur c, f.beginTx = none → f.selectRow = none → selectPriority db id p = some cur →
      (newRank ≠ cur → f.shift = none) → (∀ k, f.scan k = none) → f.setPriority = some c →
      (Reprioritize f db p id newRank).result
        = .error (.wrapf "failed to update priority of good" c) ∧
      (Reprioritize f db p id newRank).db = db ∧
      Stmt.commit ∉ (Reprioritize f db p id newRank).log) ∧
    (∀ cur c, f.beginTx = none → f.selectRow = none → selectPriority db id p = some cur →
      (newRank ≠ cur → f.shift = none) → (∀ k, f.scan k = none) → f.setPriority = none →
      f.commit = some c →
      (Reprioritize f db p id newRank).result
        = .error (.wrapf "failed to commit transaction" c) ∧
      (Reprioritize f db p id newRank).db = db) := by
  have hnil : ∀ cur, newRank ≠ cur → (shiftStep db p newRank cur).1 ≠ [] := by
    intro cur hne
    unfold shiftStep
    split_ifs
    · simp
    · simp
    · simp; omega
  have hlog : ∀ cur, Stmt.commit ∉ (shiftStep db p newRank cur).1 := by
    intro cur
    unfold shiftStep
    split_ifs <;> simp
  have hchain : ∀ (msg : String) (c : Error), c ∈ (Error.wrapf msg c).chain := by
    intro msg c
    cases c <;> simp [Error.chain]
  have hlast1 : ∀ l m : List Stmt, (l ++ m ++ [Stmt.rollback]).getLast? = some .rollback :=
    fun l m => List.getLast?_concat _
  have hlast2 : ∀ (l m : List Stmt) (a : Stmt),
      (l ++ m ++ [a, Stmt.rollback]).getLast? = some .rollback := by
    intro l m a
    simp
  have hlast3 : ∀ (l m : List Stmt) (a b : Stmt),
      (l ++ m ++ [a, b, Stmt.rollback]).getLast? = some .rollback := by
    intro l m a b
    simp
  refine ⟨?_, ?_, ?_, ?_, ?_⟩
  · intro e h
    refine ⟨Reprioritize_error_db h, ?_⟩
    rcases Reprioritize_cases f db p id newRank with ⟨c, hc, hr⟩ | ⟨hb, c, hc, hr⟩ |
      ⟨hb, _, hn, hr⟩ | ⟨hb, _, cur, _, ⟨_, c, hc, hr⟩ | ⟨k, c, hc, hr⟩ | ⟨c, hc, hr⟩ |
        ⟨_, c, hc, hr⟩ | ⟨_, _, _, hr⟩⟩
    all_goals rw [hr] at h ⊢
    all_goals simp only [Except.error.injEq] at h
    · subst h
      exact ⟨Or.inr ⟨_, c, rfl, Or.inl hc, hchain _ c⟩, (fun h => by cases h),
        (fun h => by rw [hc] at h; cases h)⟩
    · subst h
      exact ⟨Or.inr ⟨_, c, rfl, Or.inr (Or.inl hc), hchain _ c⟩,
        (fun h => by cases h), (fun _ => rfl)⟩
    · subst h
      refine ⟨Or.inl rfl, fun _ => ⟨?_, rfl⟩, fun _ => rfl⟩
      intro hi
      obtain ⟨cur, hcur⟩ := selectPriority_of_hasItem hi
      rw [hn] at hcur
      cases hcur
    · subst h
      exact ⟨Or.inr ⟨_, c, rfl, Or.inr (Or.inr (Or.inl hc)), hchain _ c⟩,
        (fun h => by cases h), (fun _ => hlast1 _ _)⟩
    · subst h
      exact ⟨Or.inr ⟨_, c, rfl, Or.inr (Or.inr (Or.inr (Or.inl ⟨k, hc⟩))),
        hchain _ c⟩, (fun h => by cases h), (fun _ => hlast1 _ _)⟩
    · subst h
      exact ⟨Or.inr ⟨_, c, rfl, Or.inr (Or.inr (Or.inr (Or.inr (Or.inl hc)))),
        hchain _ c⟩, (fun h => by cases h), (fun _ => hlast2 _ _ _)⟩
    · subst h
      exact ⟨Or.inr ⟨_, c, rfl, Or.inr (Or.inr (Or.inr (Or.inr (Or.inr hc)))),
        hchain _ c⟩, (fun h => by cases h), (fun _ => hlast3 _ _ _ _)⟩
    · cases h
  · intro hb hs hi
    have hn : selectPriority db id p = none := by
      cases hc : selectPriority db id p with
      | none => rfl
      | some cur =>
        obtain ⟨x, hx, hid, hp, _⟩ := selectPriority_some hc
        exact absurd ⟨x, hx, hid, hp⟩ hi
    simp [Reprioritize, hb, hs, hn]
  · intro cur c hb hs hcur hne hsh
    have := hnil cur hne
    have hl := hlog cur
    refine ⟨?_, ?_, ?_⟩
    · simp only [Reprioritize, hb, hs, hcur, this, if_false, hsh]
    · simp [Reprioritize, hb, hs, hcur, this, hsh]
    · simp [Reprioritize, hb, hs, hcur, this, hsh, hl]
  · intro cur c hb hs hcur hsh hscan hset
    have hsc : f.scan = fun _ => none := funext hscan
    have hl := hlog cur
    have hif : (if (shiftStep db p newRank cur).1 = [] then none else f.shift) = none := by
      split_ifs with h0
      · rfl
      · by_cases hne : newRank = cur
        · subst hne; simp [shiftStep] at h0
        · exact hsh hne
    simp [Reprioritize, hb, hs, hcur, hif, hsc, scanRows_noFault, hset, hl]
  · intro cur c hb hs hcur hsh hscan hset hcom
    have hsc : f.scan = fun _ => none := funext hscan
    have hif : (if (shiftStep db p newRank cur).1 = [] then none else f.shift) = none := by
      split_ifs with h0
      · rfl
      · by_cases hne : newRank = cur
        · subst hne; simp [shiftStep] at h0
        · exact hsh hne
    simp [Reprioritize, hb, hs, hcur, hif, hsc, scanRows_noFault, hset, hcom]

theorem reprioritize_error_atomic_witness :
    (Reprioritize { Faults.ok with shift := some (.external "lock timeout") }
        sampleTable 1 3 1).result
      = .error (.wrapf "failed to shift priorities up" (.external "lock timeout")) ∧
    (Reprioritize { Faults.ok with shift := some (.external "lock timeout") }
        sampleTable 1 3 1).db = sampleTable :=
  ⟨rfl, ((reprioritize_error_atomic { Faults.ok with shift := some (.external "lock timeout") }
    sampleTable 1 3 1).1 _ rfl).1⟩

/-! ## Consumer: auxiliary facts -/

theorem HandleMessage_batchSize {ρ : Type} (unmarshal : Decoder) (repo : Repo ρ) (c : Consumer)
    (s : ρ) (data : Payload) :
    (HandleMessage unmarshal repo c s data).consumer.batchSize = c.batchSize := by
  unfold HandleMessage
  split
  · rfl
  · simp only
    split <;> rfl

theorem Flush_batchSize {ρ : Type} (repo : Repo ρ) (c : Consumer) (s : ρ) :
    (Flush repo c s).consumer.batchSize = c.batchSize := by
  unfold Flush
  split <;> rfl

theorem Run.step_batchSize {ρ : Type} (unmarshal : Decoder) (repo : Repo ρ) (t : Run ρ)
    (op : Op) : (Run.step unmarshal repo t op).consumer.batchSize = t.consumer.batchSize := by
  cases op with
  | handle data => exact HandleMessage_batchSize unmarshal repo _ _ data
  | flush => exact Flush_batchSize repo _ _

theorem Run.exec_batchSize {ρ : Type} (unmarshal : Decoder) (repo : Repo ρ) (ops : List Op) :
    ∀ t : Run ρ, (Run.exec unmarshal repo t ops).consumer.batchSize = t.consumer.batchSize := by
  induction ops with
  | nil => intro t; rfl
  | cons op ops ih =>
    intro t
    simp only [Run.exec, List.foldl_cons] at ih ⊢
    rw [ih, Run.step_batchSize]

/-- After a HandleMessage that returns nil the buffer is shorter than a
positive batch size, whatever the state before. -/
theorem HandleMessage_nil_length {ρ : Type} (unmarshal : Decoder) (repo : Repo ρ)
    (c : Consumer) (s : ρ) (data : Payload) (hb : 1 ≤ c.batchSize)
    (h : (HandleMessage unmarshal repo c s data).err = none) :
    ((HandleMessage unmarshal repo c s data).consumer.events.length : Int) < c.batchSize := by
  unfold HandleMessage at h ⊢
  split at h
  · cases h
  · simp only at h ⊢
    split
    · simp; omega
    · rename_i hlt
      simpa using hlt

/-- A full batch is not affected by a later event. -/
theorem chunk_append (es : List Good) (g : Good) (T j : Nat) (h : (j + 1) * T ≤ es.length) :
    ((es ++ [g]).drop (j * T)).take T = (es.drop (j * T)).take T := by
  have h1 : j * T ≤ es.length := by
    have : j * T ≤ (j + 1) * T := Nat.mul_le_mul_right T (Nat.le_succ j)
    omega
  rw [List.drop_append_of_le_length h1, List.take_append_of_le_length]
  rw [List.length_drop]
  rw [Nat.succ_mul] at h
  omega

/-- State of a run after the events es have been handled by a fresh consumer of
batch size T whose repository never fails: q full batches were written and the
last r events are buffered. -/
theorem handle_run_invariant {ρ : Type} (unmarshal : Decoder) (repo : Repo ρ) (T : Nat)
    (hT : 1 ≤ T) (hok : ∀ s b, (repo.BatchInsertLogs s b).2 = none) (s0 : ρ) (es : List Good) :
    ∀ datas : List Payload, datas.map unmarshal = es.map Except.ok →
      ∃ q r, es.length = q * T + r ∧ r < T ∧
        (Run.exec unmarshal repo (Run.start { batchSize := T, events := [] } s0)
          (datas.map Op.handle)).calls
          = (List.range q).map (fun j => (es.drop (j * T)).take T) ∧
        (Run.exec unmarshal repo (Run.start { batchSize := T, events := [] } s0)
          (datas.map Op.handle)).consumer = { batchSize := T, events := es.drop (q * T) } ∧
        (Run.exec unmarshal repo (Run.start { batchSize := T, events := [] } s0)
          (datas.map Op.handle)).errs = List.replicate es.length none := by
  induction es using List.reverseRecOn with
  | nil =>
    intro datas hd
    simp only [List.map_nil, List.map_eq_nil_iff] at hd
    subst hd
    exact ⟨0, 0, by simp, by omega, rfl, by simp [Run.exec, Run.start], rfl⟩
  | append_singleton es g ih =>
    intro datas hd
    rw [List.map_append, List.map_eq_append_iff] at hd
    obtain ⟨d1, d2, rfl, hd1, hd2⟩ := hd
    simp only [List.map_cons, List.map_nil] at hd2
    rw [List.map_eq_cons_iff] at hd2
    obtain ⟨d, l1, rfl, hdg, hl1⟩ := hd2
    rw [List.map_eq_nil_iff] at hl1
    subst hl1
    obtain ⟨q, r, hlen, hr, hcalls, hcons, herrs⟩ := ih d1 hd1
    have hstep : Run.exec unmarshal repo (Run.start { batchSize := T, events := [] } s0)
        ((d1 ++ [d]).map Op.handle)
        = Run.step unmarshal repo
            (Run.exec unmarshal repo (Run.start { batchSize := T, events := [] } s0)
              (d1.map Op.handle)) (Op.handle d) := by
      simp [Run.exec, List.foldl_append]
    rw [hstep]
    have hqT : q * T ≤ es.length := by omega
    have hbuf : (es.drop (q * T)).length = r := by
      rw [List.length_drop]; omega
    have hchunks : (List.range q).map (fun j => ((es ++ [g]).drop (j * T)).take T)
        = (List.range q).map (fun j => (es.drop (j * T)).take T) := by
      apply List.map_congr_left
      intro j hj
      rw [List.mem_range] at hj
      apply chunk_append
      have : (j + 1) * T ≤ q * T := Nat.mul_le_mul_right T hj
      omega
    by_cases hfull : r + 1 = T
    · refine ⟨q + 1, 0, ?_, by omega, ?_, ?_, ?_⟩
      · rw [List.length_append, List.length_singleton, Nat.succ_mul]; omega
      · simp only [Run.step, HandleMessage, hdg, hcons, hcalls, List.length_append,
          List.length_singleton, hbuf]
        have hge : ((r + 1 : Nat) : Int) ≥ (T : Int) := by omega
        simp only [hge, if_true]
        rw [List.range_succ, List.map_append, hchunks, List.map_singleton]
        congr 2
        rw [List.drop_append_of_le_length hqT, List.take_of_length_le]
        rw [List.length_append, List.length_singleton, hbuf]; omega
      · simp only [Run.step, HandleMessage, hdg, hcons, List.length_append,
          List.length_singleton, hbuf]
        have hge : ((r + 1 : Nat) : Int) ≥ (T : Int) := by omega
        simp only [hge, if_true]
        rw [List.drop_of_length_le]
        rw [List.length_append, List.length_singleton, Nat.succ_mul]; omega
      · simp only [Run.step, HandleMessage, hdg, hcons, herrs, List.length_append,
          List.length_singleton, hbuf]
        have hge : ((r + 1 : Nat) : Int) ≥ (T : Int) := by omega
        simp only [hge, if_true, hok]
        rw [List.replicate_succ']
    · refine ⟨q, r + 1, ?_, by omega, ?_, ?_, ?_⟩
      · rw [List.length_append, List.length_singleton]; omega
      · simp only [Run.step, HandleMessage, hdg, hcons, hcalls, List.length_append,
          List.length_singleton, hbuf]
        have hge : ¬ ((r + 1 : Nat) : Int) ≥ (T : Int) := by omega
        simp only [hge, if_false, List.append_nil]
        exact hchunks.symm
      · simp only [Run.step, HandleMessage, hdg, hcons, List.length_append,
          List.length_singleton, hbuf]
        have hge : ¬ ((r + 1 : Nat) : Int) ≥ (T : Int) := by omega
        simp only [hge, if_false]
        rw [List.drop_append_of_le_length hqT]
      · simp only [Run.step, HandleMessage, hdg, hcons, herrs, List.length_append,
          List.length_singleton, hbuf]
        have hge : ¬ ((r + 1 : Nat) : Int) ≥ (T : Int) := by omega
        simp only [hge, if_false]
        rw [List.replicate_succ']

/-! ## Consumer: the ingestion batcher contract -/

/-- C7: for a Consumer created by NewConsumer with batchSize >= 1 and any
sequential series of HandleMessage and Flush calls, right after a HandleMessage
call that returns nil the buffer length is strictly less than batchSize. -/
theorem handle_buffer_below_batchSize {ρ : Type} (unmarshal : Decoder) (repo : Repo ρ)
    (batchSize : Int) (c0 : Consumer) (s0 : ρ) (ops : List Op) (data : Payload)
    (hb : 1 ≤ batchSize) (hnew : NewConsumer batchSize = some c0)
    (hnil : (HandleMessage unmarshal repo (Run.exec unmarshal repo (Run.start c0 s0) ops).consumer
      (Run.exec unmarshal repo (Run.start c0 s0) ops).repo data).err = none) :
    ((HandleMessage unmarshal repo (Run.exec unmarshal repo (Run.start c0 s0) ops).consumer
      (Run.exec unmarshal repo (Run.start c0 s0) ops).repo data).consumer.events.length : Int)
      < batchSize := by
  have hc0 : c0.batchSize = batchSize := by
    unfold NewConsumer at hnew
    split at hnew
    · cases hnew
    · cases hnew; rfl
  have hbs := Run.exec_batchSize unmarshal repo ops (Run.start c0 s0)
  have hbs2 : (Run.exec unmarshal repo (Run.start c0 s0) ops).consumer.batchSize = batchSize := by
    rw [hbs]; exact hc0
  have := HandleMessage_nil_length unmarshal repo _ _ data (by rw [hbs2]; exact hb) hnil
  rw [hbs2] at this
  exact this

theorem handle_buffer_below_batchSize_witness :
    ((HandleMessage sampleDecode (mockRepo none)
        (Run.exec sampleDecode (mockRepo none) (Run.start { batchSize := 2, events := [] } [])
          [.handle [1], .flush, .handle [2]]).consumer
        (Run.exec sampleDecode (mockRepo none) (Run.start { batchSize := 2, events := [] } [])
          [.handle [1], .flush, .handle [2]]).repo [3]).consumer.events.length : Int) < 2 :=
  handle_buffer_below_batchSize sampleDecode (mockRepo none) 2 { batchSize := 2, events := [] }
    [] [.handle [1], .flush, .handle [2]] [3] (by decide) rfl rfl

theorem applyBatches_append {ρ : Type} (repo : Repo ρ) (s : ρ) (xs ys : List (List Good)) :
    applyBatches repo s (xs ++ ys) = applyBatches repo (applyBatches repo s xs) ys := by
  simp [applyBatches, List.foldl_append]

/-- One call extends the batches passed so far, and the repository is in the
state reached by calling BatchInsertLogs with exactly the new batches. -/
theorem Run.step_ledger {ρ : Type} (unmarshal : Decoder) (repo : Repo ρ) (t : Run ρ) (op : Op) :
    ∃ new, (Run.step unmarshal repo t op).calls = t.calls ++ new ∧
      (Run.step unmarshal repo t op).repo = applyBatches repo t.repo new := by
  cases op with
  | handle data =>
    cases hu : unmarshal data with
    | error err => exact ⟨[], by simp [Run.step, HandleMessage, hu], by
        simp [Run.step, HandleMessage, hu, applyBatches]⟩
    | ok g =>
      by_cases hfull : ((t.consumer.events ++ [g]).length : Int) ≥ t.consumer.batchSize
      · refine ⟨[t.consumer.events ++ [g]], ?_, ?_⟩
        · simp only [Run.step, HandleMessage, hu, if_pos hfull]
        · simp only [Run.step, HandleMessage, hu, if_pos hfull]
          simp [applyBatches]
      · refine ⟨[], ?_, ?_⟩
        · simp only [Run.step, HandleMessage, hu, if_neg hfull, List.append_nil]
        · simp only [Run.step, HandleMessage, hu, if_neg hfull]
          simp [applyBatches]
  | flush =>
    by_cases hempty : t.consumer.events.length = 0
    · exact ⟨[], by simp [Run.step, Flush, hempty], by
        simp [Run.step, Flush, hempty, applyBatches]⟩
    · exact ⟨[t.consumer.events], by simp [Run.step, Flush, hempty], by
        simp [Run.step, Flush, hempty, applyBatches]⟩

theorem Run.exec_ledger {ρ : Type} (unmarshal : Decoder) (repo : Repo ρ) (ops : List Op) :
    ∀ t : Run ρ, ∃ new, (Run.exec unmarshal repo t ops).calls = t.calls ++ new ∧
      (Run.exec unmarshal repo t ops).repo = applyBatches repo t.repo new := by
  induction ops with
  | nil => intro t; exact ⟨[], by simp [Run.exec], by simp [Run.exec, applyBatches]⟩
  | cons op ops ih =>
    intro t
    obtain ⟨n1, hc1, hr1⟩ := Run.step_ledger unmarshal repo t op
    obtain ⟨n2, hc2, hr2⟩ := ih (Run.step unmarshal repo t op)
    have hexec : Run.exec unmarshal repo t (op :: ops)
        = Run.exec unmarshal repo (Run.step unmarshal repo t op) ops := by
      simp [Run.exec]
    refine ⟨n1 ++ n2, ?_, ?_⟩
    · rw [hexec, hc2, hc1, List.append_assoc]
    · rw [hexec, hr2, hr1, applyBatches_append]

/-- The repository after a run is in the state reached by calling
BatchInsertLogs with exactly the recorded batches, in order. -/
theorem Run.exec_repo {ρ : Type} (unmarshal : Decoder) (repo : Repo ρ) (c : Consumer) (s : ρ)
    (ops : List Op) :
    (Run.exec unmarshal repo (Run.start c s) ops).repo
      = applyBatches repo s (Run.exec unmarshal repo (Run.start c s) ops).calls := by
  obtain ⟨new, hc, hr⟩ := Run.exec_ledger unmarshal repo ops (Run.start c s)
  rw [hr, hc]
  simp [Run.start]

/-- The recording repository of the tests has received exactly the batches it
was called with. -/
theorem applyBatches_mockRepo (err : Option Error) (batches : List (List Good)) :
    ∀ received : List (List Good),
      applyBatches (mockRepo err) received batches = received ++ batches := by
  induction batches with
  | nil => intro received; simp [applyBatches]
  | cons b bs ih =>
    intro received
    have h := ih (received ++ [b])
    simp only [applyBatches, List.foldl_cons, mockRepo] at h ⊢
    rw [h, List.append_assoc]
    rfl

/-- C8: a new Consumer with batchSize T >= 1 whose repository never fails has,
after k sequential HandleMessage calls with well-formed events es (and no
Flush), made exactly floor(k/T) batched writes, the j-th (counting from 0)
holding the events j*T+1 .. (j+1)*T in arrival order; the buffer holds the
remaining k mod T events in arrival order, and every call returned nil.  The
repository is in the state reached from its initial state by BatchInsertLogs
applied to exactly these batches, in order; the recording repository of the
tests has received exactly these batches.  With T = 2 and ids 1, 2, 3 there is
one write [1, 2] after the second call, still one write and the buffer [3] after
the third, and a following Flush writes [3]; the recording repository holds
[[1, 2]], [[1, 2]] and [[1, 2], [3]] at these points. -/
theorem batches_after_handles {ρ : Type} (unmarshal : Decoder) (repo : Repo ρ) (T : Nat)
    (c0 : Consumer) (s0 : ρ) (es : List Good) (datas : List Payload)
    (hT : 1 ≤ T) (hnew : NewConsumer T = some c0)
    (hok : ∀ s b, (repo.BatchInsertLogs s b).2 = none)
    (hdec : datas.map unmarshal = es.map Except.ok) :
    (Run.exec unmarshal repo (Run.start c0 s0) (datas.map Op.handle)).calls
      = (List.range (es.length / T)).map (fun j => (es.drop (j * T)).take T) ∧
    (Run.exec unmarshal repo (Run.start c0 s0) (datas.map Op.handle)).calls.length
      = es.length / T ∧
    (Run.exec unmarshal repo (Run.start c0 s0) (datas.map Op.handle)).consumer.events
      = es.drop (es.length / T * T) ∧
    (Run.exec unmarshal repo (Run.start c0 s0) (datas.map Op.handle)).consumer.events.length
      = es.length % T ∧
    (Run.exec unmarshal repo (Run.start c0 s0) (datas.map Op.handle)).errs
      = List.replicate es.length none ∧
    (Run.exec sampleDecode (mockRepo none) (Run.start { batchSize := 2, events := [] } [])
        [.handle [1], .handle [2]]).calls = [[sampleEvent 1, sampleEvent 2]] ∧
    (Run.exec sampleDecode (mockRepo none) (Run.start { batchSize := 2, events := [] } [])
        [.handle [1], .handle [2], .handle [3]]).calls = [[sampleEvent 1, sampleEvent 2]] ∧
    (Run.exec sampleDecode (mockRepo none) (Run.start { batchSize := 2, events := [] } [])
        [.handle [1], .handle [2], .handle [3]]).consumer.events = [sampleEvent 3] ∧
    (Run.exec sampleDecode (mockRepo none) (Run.start { batchSize := 2, events := [] } [])
        [.handle [1], .handle [2], .handle [3], .flush]).calls
      = [[sampleEvent 1, sampleEvent 2], [sampleEvent 3]] ∧
    (Run.exec unmarshal repo (Run.start c0 s0) (datas.map Op.handle)).repo
      = applyBatches repo s0
          ((List.range (es.length / T)).map (fun j => (es.drop (j * T)).take T)) ∧
    (∀ received : List (List Good),
      (Run.exec unmarshal (mockRepo none) (Run.start c0 received) (datas.map Op.handle)).repo
        = received ++ (List.range (es.length / T)).map (fun j => (es.drop (j * T)).take T)) ∧
    (Run.exec sampleDecode (mockRepo none) (Run.start { batchSize := 2, events := [] } [])
        [.handle [1], .handle [2]]).repo = [[sampleEvent 1, sampleEvent 2]] ∧
    (Run.exec sampleDecode (mockRepo none) (Run.start { batchSize := 2, events := [] } [])
        [.handle [1], .handle [2], .handle [3]]).repo = [[sampleEvent 1, sampleEvent 2]] ∧
    (Run.exec sampleDecode (mockRepo none) (Run.start { batchSize := 2, events := [] } [])
        [.handle [1], .handle [2], .handle [3], .flush]).repo
      = [[sampleEvent 1, sampleEvent 2], [sampleEvent 3]] := by
  have hc0 : c0 = { batchSize := T, events := [] } := by
    unfold NewConsumer at hnew
    split at hnew
    · cases hnew
    · cases hnew; rfl
  subst hc0
  obtain ⟨q, r, hlen, hr, hcalls, hcons, herrs⟩ :=
    handle_run_invariant unmarshal repo T hT hok s0 es datas hdec
  have hq : es.length / T = q := by
    rw [hlen, Nat.add_comm, Nat.add_mul_div_right _ _ (by omega), Nat.div_eq_of_lt hr]
    omega
  have hm : es.length % T = r := by
    rw [hlen, Nat.add_comm, Nat.add_mul_mod_self_right, Nat.mod_eq_of_lt hr]
  refine ⟨?_, ?_, ?_, ?_, herrs, rfl, rfl, rfl, rfl, ?_, ?_, rfl, rfl, rfl⟩
  · rw [hcalls, hq]
  · rw [hcalls, hq, List.length_map, List.length_range]
  · rw [hcons, hq]
  · rw [hcons, hm]
    simp only [List.length_drop]
    omega
  · rw [Run.exec_repo, hcalls, hq]
  · intro received
    obtain ⟨q2, r2, hlen2, hr2, hcalls2, _, _⟩ :=
      handle_run_invariant unmarshal (mockRepo none) T hT (fun _ _ => rfl) received es datas hdec
    have hq2 : es.length / T = q2 := by
      rw [hlen2, Nat.add_comm, Nat.add_mul_div_right _ _ (by omega), Nat.div_eq_of_lt hr2]
      omega
    rw [Run.exec_repo, hcalls2, hq2, applyBatches_mockRepo]

theorem batches_after_handles_witness :
    (Run.exec sampleDecode (mockRepo none) (Run.start { batchSize := 2, events := [] } [])
        ([[1], [2], [3], [4], [5]].map Op.handle)).calls
      = (List.range (5 / 2)).map (fun j =>
          (([1, 2, 3, 4, 5].map fun (i : Nat) => sampleEvent i).drop (j * 2)).take 2) ∧
    (Run.exec sampleDecode (mockRepo none) (Run.start { batchSize := 2, events := [] } [])
        ([[1], [2], [3], [4], [5]].map Op.handle)).repo
      = [[sampleEvent 1, sampleEvent 2], [sampleEvent 3, sampleEvent 4]] :=
  ⟨(batches_after_handles sampleDecode (mockRepo none) 2 { batchSize := 2, events := [] } []
    ([1, 2, 3, 4, 5].map fun (i : Nat) => sampleEvent i) [[1], [2], [3], [4], [5]]
    (by decide) rfl (fun _ _ => rfl) rfl).1,
   ((batches_after_handles sampleDecode (mockRepo none) 2 { batchSize := 2, events := [] } []
    ([1, 2, 3, 4, 5].map fun (i : Nat) => sampleEvent i) [[1], [2], [3], [4], [5]]
    (by decide) rfl (fun _ _ => rfl) rfl).2.2.2.2.2.2.2.2.2.2.1 []).trans rfl⟩

/-- C9: Flush on an empty buffer performs no repository write, changes nothing
and returns nil; on a non-empty buffer it performs exactly one BatchInsertLogs
call whose argument is the buffered events in their buffered order, leaves the
buffer empty and returns the result of that call, so that a second Flush right
after it performs no write and returns nil. -/
theorem flush_contract {ρ : Type} (repo : Repo ρ) (c : Consumer) (s : ρ) :
    (c.events = [] →
      (Flush repo c s).calls = [] ∧ (Flush repo c s).err = none ∧
      (Flush repo c s).consumer = c ∧ (Flush repo c s).repo = s) ∧
    (c.events ≠ [] →
      (Flush repo c s).calls = [c.events] ∧
      (Flush repo c s).consumer.events = [] ∧
      (Flush repo c s).consumer.batchSize = c.batchSize ∧
      (Flush repo c s).err = (repo.BatchInsertLogs s c.events).2 ∧
      (Flush repo c s).repo = (repo.BatchInsertLogs s c.events).1 ∧
      (Flush repo (Flush repo c s).consumer (Flush repo c s).repo).calls = [] ∧
      (Flush repo (Flush repo c s).consumer (Flush repo c s).repo).err = none) := by
  constructor
  · intro h
    simp [Flush, h]
  · intro h
    have hl : c.events.length ≠ 0 := by
      intro h0
      exact h (List.length_eq_zero.1 h0)
    simp [Flush, hl]

theorem flush_contract_witness :
    (Flush (mockRepo none) { batchSize := 5, events := [sampleEvent 1, sampleEvent 2, sampleEvent 3] }
        []).calls = [[sampleEvent 1, sampleEvent 2, sampleEvent 3]] ∧
    (Flush (mockRepo none) { batchSize := 5, events := [] } []).calls = [] :=
  ⟨((flush_contract (mockRepo none)
      { batchSize := 5, events := [sampleEvent 1, sampleEvent 2, sampleEvent 3] }
      []).2 (by simp)).1,
   ((flush_contract (mockRepo none) { batchSize := 5, events := [] } []).1 rfl).1⟩

/-- C10: for every consumer state and every payload that does not decode into
an item record, HandleMessage returns the decoding error, makes no repository
write, and leaves the buffer, the batch size and the repository exactly as they
were before the call. -/
theorem handle_decode_error {ρ : Type} (unmarshal : Decoder) (repo : Repo ρ) (c : Consumer)
    (s : ρ) (data : Payload) (e : Error) (h : unmarshal data = .error e) :
    (HandleMessage unmarshal repo c s data).err = some e ∧
    (HandleMessage unmarshal repo c s data).calls = [] ∧
    (HandleMessage unmarshal repo c s data).consumer = c ∧
    (HandleMessage unmarshal repo c s data).repo = s := by
  simp [HandleMessage, h]

theorem handle_decode_error_witness :
    (HandleMessage sampleDecode (mockRepo none) { batchSize := 1, events := [] } []
        [110, 111, 116]).err = some (.external "invalid character") ∧
    (HandleMessage sampleDecode (mockRepo none) { batchSize := 1, events := [] } []
        [110, 111, 116]).calls = [] ∧
    (HandleMessage sampleDecode (mockRepo none) { batchSize := 1, events := [] } []
        [110, 111, 116]).consumer = { batchSize := 1, events := [] } ∧
    (HandleMessage sampleDecode (mockRepo none) { batchSize := 1, events := [] } []
        [110, 111, 116]).repo = [] :=
  handle_decode_error sampleDecode (mockRepo none) { batchSize := 1, events := [] } []
    [110, 111, 116] (.external "invalid character") rfl

/-- C11: when a HandleMessage call brings the buffer to batchSize (or beyond) and
the resulting BatchInsertLogs call fails with error e, HandleMessage returns
exactly e after that single call, and the buffer is empty afterwards: the events
of the failed batch are not retained. -/
theorem handle_flush_failure {ρ : Type} (unmarshal : Decoder) (repo : Repo ρ) (c : Consumer)
    (s : ρ) (data : Payload) (g : Good) (e : Error)
    (hdec : unmarshal data = .ok g)
    (hfull : ((c.events ++ [g]).length : Int) ≥ c.batchSize)
    (hfail : (repo.BatchInsertLogs s (c.events ++ [g])).2 = some e) :
    (HandleMessage unmarshal repo c s data).err = some e ∧
    (HandleMessage unmarshal repo c s data).calls = [c.events ++ [g]] ∧
    (HandleMessage unmarshal repo c s data).consumer.events = [] ∧
    (HandleMessage unmarshal repo c s data).consumer.batchSize = c.batchSize := by
  simp only [HandleMessage, hdec, hfull, if_true, hfail]
  exact ⟨trivial, trivial, trivial, trivial⟩

theorem handle_flush_failure_witness :
    (HandleMessage sampleDecode (mockRepo (some (.external "insert failed")))
        { batchSize := 1, events := [] } [] [9]).err = some (.external "insert failed") ∧
    (HandleMessage sampleDecode (mockRepo (some (.external "insert failed")))
        { batchSize := 1, events := [] } [] [9]).consumer.events = [] :=
  ⟨(handle_flush_failure sampleDecode (mockRepo (some (.external "insert failed")))
      { batchSize := 1, events := [] } [] [9] (sampleEvent 9) (.external "insert failed")
      rfl (by decide) rfl).1,
   (handle_flush_failure sampleDecode (mockRepo (some (.external "insert failed")))
      { batchSize := 1, events := [] } [] [9] (sampleEvent 9) (.external "insert failed")
      rfl (by decide) rfl).2.2.1⟩

/-! ## GoodsService: the write orchestrator contract -/

/-- C12: for every project id, item id and description, GoodsService.Create and
GoodsService.Update called with an empty name return the validation error
`name cannot be empty` and make no call on the repository, the cache or the
publisher; the state of the collaborators is unchanged. -/
theorem empty_name_rejected {σ : Type} (s : GoodsService σ) (w : σ) (projectID id : Int)
    (description : Option String) :
    (s.Create w projectID "" description).result
      = .error (errorsNew "name cannot be empty") ∧
    (s.Create w projectID "" description).calls = [] ∧
    (s.Create w projectID "" description).state = w ∧
    (s.Update w projectID id "" description).result
      = .error (errorsNew "name cannot be empty") ∧
    (s.Update w projectID id "" description).calls = [] ∧
    (s.Update w projectID id "" description).state = w := by
  simp [GoodsService.Create, GoodsService.Update]

/-- C13: when the cache returns a payload without error for the key
`good:<projectId>:<id>`, GoodsService.Get returns the value decoded from that
payload with a nil error, and its only call is that cache Get: no GetGood, no
publish, no cache Set. -/
theorem get_cache_hit {σ : Type} (s : GoodsService σ) (w : σ) (projectID id : Int)
    (bytes : Payload) (hit : (s.cache.Get w (goodKey projectID id)).2 = .ok bytes) :
    (s.Get w projectID id).result = .ok (s.json.unmarshalGood bytes).1 ∧
    (s.Get w projectID id).calls = [.cacheGet (goodKey projectID id)] ∧
    (s.Get w projectID id).state = (s.cache.Get w (goodKey projectID id)).1 := by
  simp [GoodsService.Get, hit]

theorem get_cache_hit_witness :
    ((sampleService none none).Get { sampleWorld with cache := [(goodKey 1 3, [7])] } 1 3).result
      = .ok (sampleEvent 7) ∧
    ((sampleService none none).Get { sampleWorld with cache := [(goodKey 1 3, [7])] } 1 3).calls
      = [.cacheGet (goodKey 1 3)] :=
  ⟨(get_cache_hit (sampleService none none) { sampleWorld with cache := [(goodKey 1 3, [7])] }
      1 3 [7] rfl).1,
   (get_cache_hit (sampleService none none) { sampleWorld with cache := [(goodKey 1 3, [7])] }
      1 3 [7] rfl).2.1⟩

/-- C14: when the cache Get for `good:<projectId>:<id>` reports a miss (returns
an error), GoodsService.Get calls GetGood(projectId, id) on the repository; if
that succeeds with item g it then stores the serialized g under the same key
with the configured TTL and returns g, leaving the state produced by that cache
Set; if it fails with error e it returns e unchanged and makes no cache Set,
leaving the state produced by GetGood.  Over the in-memory cache the entry
(key, serialized g) is then in the cache, and a second Get is served from it
without calling the repository. -/
theorem get_cache_miss {σ : Type} (s : GoodsService σ) (w : σ) (projectID id : Int)
    (miss : Error) (hmiss : (s.cache.Get w (goodKey projectID id)).2 = .error miss) :
    (∀ g, (s.repo.GetGood (s.cache.Get w (goodKey projectID id)).1 projectID id).2 = .ok g →
      (s.Get w projectID id).result = .ok g ∧
      (s.Get w projectID id).calls
        = [.cacheGet (goodKey projectID id), .getGood projectID id,
            .cacheSet (goodKey projectID id) (s.json.marshalGood g) s.cacheTTL] ∧
      (s.Get w projectID id).state
        = (s.cache.Set (s.repo.GetGood (s.cache.Get w (goodKey projectID id)).1 projectID id).1
            (goodKey projectID id) (s.json.marshalGood g) s.cacheTTL).1) ∧
    (∀ e, (s.repo.GetGood (s.cache.Get w (goodKey projectID id)).1 projectID id).2 = .error e →
      (s.Get w projectID id).result = .error e ∧
      (s.Get w projectID id).calls
        = [.cacheGet (goodKey projectID id), .getGood projectID id] ∧
      (s.Get w projectID id).state
        = (s.repo.GetGood (s.cache.Get w (goodKey projectID id)).1 projectID id).1) ∧
    (∀ (t : GoodsService World) (invalErr : Option Error) (v : World) (p i : Int) (g : Good),
      t.cache = memCache invalErr → cached v (goodKey p i) = none →
      (t.repo.GetGood v p i).2 = .ok g →
      (t.Get v p i).state
        = { (t.repo.GetGood v p i).1 with
            cache := (goodKey p i, t.json.marshalGood g)
              :: (t.repo.GetGood v p i).1.cache.filter (fun e => e.1 ≠ goodKey p i) } ∧
      cached (t.Get v p i).state (goodKey p i) = some (goodKey p i, t.json.marshalGood g) ∧
      (t.Get (t.Get v p i).state p i).calls = [.cacheGet (goodKey p i)] ∧
      (t.Get (t.Get v p i).state p i).result
        = .ok (t.json.unmarshalGood (t.json.marshalGood g)).1) ∧
    ((sampleService none none).Get sampleWorld 1 3).state.cache = [(goodKey 1 3, [3])] ∧
    ((sampleService none none).Get
        ((sampleService none none).Get sampleWorld 1 3).state 1 3).calls
      = [.cacheGet (goodKey 1 3)] ∧
    ((sampleService none none).Get sampleWorld 1 9).state.cache = [] := by
  refine ⟨?_, ?_, ?_, rfl, rfl, rfl⟩
  · intro g hg
    simp [GoodsService.Get, hmiss, hg]
  · intro e he
    simp [GoodsService.Get, hmiss, he]
  · intro t invalErr v p i g hc hnone hg
    have hget : t.cache.Get v (goodKey p i) = (v, .error (errorsNew "cache miss")) := by
      unfold cached at hnone
      rw [hc]
      simp only [memCache, hnone]
    have hstate : (t.Get v p i).state
        = { (t.repo.GetGood v p i).1 with
            cache := (goodKey p i, t.json.marshalGood g)
              :: (t.repo.GetGood v p i).1.cache.filter (fun e => e.1 ≠ goodKey p i) } := by
      simp only [GoodsService.Get, hget, hg]
      rw [hc]
      rfl
    have hcached : cached (t.Get v p i).state (goodKey p i)
        = some (goodKey p i, t.json.marshalGood g) := by
      rw [hstate]
      simp [cached]
    have hhit : (t.cache.Get (t.Get v p i).state (goodKey p i)).2
        = .ok (t.json.marshalGood g) := by
      unfold cached at hcached
      rw [hc]
      simp only [memCache, hcached]
    refine ⟨hstate, hcached, ?_, ?_⟩
    · generalize (t.Get v p i).state = w2 at hhit ⊢
      simp only [GoodsService.Get, hhit]
    · generalize (t.Get v p i).state = w2 at hhit ⊢
      simp only [GoodsService.Get, hhit]

theorem get_cache_miss_witness :
    ((sampleService none none).Get sampleWorld 1 3).calls
      = [.cacheGet (goodKey 1 3), .getGood 1 3,
          .cacheSet (goodKey 1 3) [3] 60000000000] ∧
    ((sampleService none none).Get sampleWorld 1 9).result = .error .ErrNotFound ∧
    ((sampleService none none).Get sampleWorld 1 3).state.cache = [(goodKey 1 3, [3])] :=
  ⟨((get_cache_miss (sampleService none none) sampleWorld 1 3 (errorsNew "cache miss") rfl).1
      { ID := 3, ProjectID := 1, Name := "C", Description := none, Priority := 3,
        Removed := false, CreatedAt := 103 } rfl).2.1,
   ((get_cache_miss (sampleService none none) sampleWorld 1 9 (errorsNew "cache miss") rfl).2.1
      .ErrNotFound rfl).1,
   (congrArg World.cache
     ((get_cache_miss (sampleService none none) sampleWorld 1 3 (errorsNew "cache miss") rfl).1
      { ID := 3, ProjectID := 1, Name := "C", Description := none, Priority := 3,
        Removed := false, CreatedAt := 103 } rfl).2.2).trans rfl⟩

/-- C15: when GetGood and RemoveGood both succeed and the publish call fails
with error e, GoodsService.Remove returns e, although RemoveGood and the two
Invalidate calls (`goods:list`, then `good:<projectId>:<id>`) were made before
the publish and nothing is undone: the final state is the state left by those
calls and the publish. -/
theorem remove_publish_failure {σ : Type} (s : GoodsService σ) (w : σ) (projectID id : Int)
    (g : Good) (e : Error)
    (hget : (s.repo.GetGood w projectID id).2 = .ok g)
    (hrem : (s.repo.RemoveGood (s.repo.GetGood w projectID id).1 projectID id).2 = none)
    (hpub : (s.logger.PublishLog
      (s.cache.Invalidate
        (s.cache.Invalidate (s.repo.RemoveGood (s.repo.GetGood w projectID id).1 projectID id).1
          "goods:list").1 (goodKey projectID id)).1
      (s.json.marshalGood { g with Removed := true })).2 = some e) :
    (s.Remove w projectID id).result = .error e ∧
    (s.Remove w projectID id).calls
      = [.getGood projectID id, .removeGood projectID id, .cacheInvalidate "goods:list",
          .cacheInvalidate (goodKey projectID id),
          .publishLog (s.json.marshalGood { g with Removed := true })] ∧
    (s.Remove w projectID id).state
      = (s.logger.PublishLog
          (s.cache.Invalidate
            (s.cache.Invalidate
              (s.repo.RemoveGood (s.repo.GetGood w projectID id).1 projectID id).1
              "goods:list").1 (goodKey projectID id)).1
          (s.json.marshalGood { g with Removed := true })).1 := by
  simp [GoodsService.Remove, hget, hrem, hpub]

theorem remove_publish_failure_witness :
    ((sampleService none (some (.external "nats down"))).Remove
        { sampleWorld with cache := [(goodKey 1 3, [3])] } 1 3).result
      = .error (.external "nats down") ∧
    (((sampleService none (some (.external "nats down"))).Remove
        { sampleWorld with cache := [(goodKey 1 3, [3])] } 1 3).state.db.map
          fun g => (g.ID, g.Removed))
      = [(1, false), (2, false), (5, false), (3, true), (4, true)] ∧
    ((sampleService none (some (.external "nats down"))).Remove
        { sampleWorld with cache := [(goodKey 1 3, [3])] } 1 3).state.cache = [] :=
  ⟨(remove_publish_failure (sampleService none (some (.external "nats down")))
      { sampleWorld with cache := [(goodKey 1 3, [3])] } 1 3
      { ID := 3, ProjectID := 1, Name := "C", Description := none, Priority := 3,
        Removed := false, CreatedAt := 103 } (.external "nats down") rfl rfl rfl).1,
   rfl, rfl⟩

/-- C16: for Create, Update and Reprioritize, whenever the repository call
succeeds the service returns the result of the repository with a nil error,
whatever the two Invalidate calls and the PublishLog call return; for Remove,
once GetGood and RemoveGood have succeeded, the returned error is exactly the
one returned by PublishLog, whatever the two Invalidate calls return. -/
theorem best_effort_side_effects {σ : Type} (s : GoodsService σ) (w : σ) (projectID id : Int)
    (name : String) (description : Option String) (newPriority : Int) :
    (∀ g, name ≠ "" → (s.repo.CreateGood w projectID name description).2 = .ok g →
      (s.Create w projectID name description).result = .ok g) ∧
    (∀ g, name ≠ "" → (s.repo.UpdateGood w projectID id name description).2 = .ok g →
      (s.Update w projectID id name description).result = .ok g) ∧
    (∀ us, (s.repo.Reprioritize w projectID id newPriority).2 = .ok us →
      (s.Reprioritize w projectID id newPriority).result = .ok us) ∧
    (∀ g, (s.repo.GetGood w projectID id).2 = .ok g →
      (s.repo.RemoveGood (s.repo.GetGood w projectID id).1 projectID id).2 = none →
      (s.Remove w projectID id).result =
        match (s.logger.PublishLog
          (s.cache.Invalidate
            (s.cache.Invalidate
              (s.repo.RemoveGood (s.repo.GetGood w projectID id).1 projectID id).1
              "goods:list").1 (goodKey projectID id)).1
          (s.json.marshalGood { g with Removed := true })).2 with
        | some err => .error err
        | none => .ok ()) := by
  refine ⟨?_, ?_, ?_, ?_⟩
  · intro g hn hg
    simp [GoodsService.Create, hn, hg]
  · intro g hn hg
    simp [GoodsService.Update, hn, hg]
  · intro us hu
    simp [GoodsService.Reprioritize, hu]
  · intro g hg hr
    simp [GoodsService.Remove, hg, hr]

theorem best_effort_side_effects_witness :
    ((sampleService (some (.external "redis down")) (some (.external "nats down"))).Update
        sampleWorld 1 2 "B2" none).result
      = .ok { ID := 2, ProjectID := 1, Name := "B2", Description := none, Priority := 2,
              Removed := false, CreatedAt := 101 } ∧
    ((sampleService (some (.external "redis down")) (some (.external "nats down"))).Reprioritize
        sampleWorld 1 3 1).result
      = .ok [{ ID := 1, Priority := 2 }, { ID := 2, Priority := 3 }, { ID := 3, Priority := 1 }] ∧
    ((sampleService (some (.external "redis down")) none).Remove sampleWorld 1 2).result
      = .ok () :=
  ⟨(best_effort_side_effects
      (sampleService (some (.external "redis down")) (some (.external "nats down")))
      sampleWorld 1 2 "B2" none 0).2.1 _ (by decide) rfl,
   (best_effort_side_effects
      (sampleService (some (.external "redis down")) (some (.external "nats down")))
      sampleWorld 1 3 "" none 1).2.2.1 _ rfl,
   (best_effort_side_effects (sampleService (some (.external "redis down")) none)
      sampleWorld 1 2 "" none 0).2.2.2 _ rfl rfl⟩

/-- C17: when the repository call of a mutating operation fails with error e
(CreateGood in Create, UpdateGood in Update, GetGood or RemoveGood in Remove,
Reprioritize in Reprioritize), the operation returns e unchanged and its only
calls are the repository calls made so far: no cache invalidation and no
publish. -/
theorem repo_failure_propagates {σ : Type} (s : GoodsService σ) (w : σ) (projectID id : Int)
    (name : String) (description : Option String) (newPriority : Int) (e : Error) :
    (name ≠ "" → (s.repo.CreateGood w projectID name description).2 = .error e →
      (s.Create w projectID name description).result = .error e ∧
      (s.Create w projectID name description).calls
        = [.createGood projectID name description]) ∧
    (name ≠ "" → (s.repo.UpdateGood w projectID id name description).2 = .error e →
      (s.Update w projectID id name description).result = .error e ∧
      (s.Update w projectID id name description).calls
        = [.updateGood projectID id name description]) ∧
    ((s.repo.GetGood w projectID id).2 = .error e →
      (s.Remove w projectID id).result = .error e ∧
      (s.Remove w projectID id).calls = [.getGood projectID id]) ∧
    (∀ g, (s.repo.GetGood w projectID id).2 = .ok g →
      (s.repo.RemoveGood (s.repo.GetGood w projectID id).1 projectID id).2 = some e →
      (s.Remove w projectID id).result = .error e ∧
      (s.Remove w projectID id).calls = [.getGood projectID id, .removeGood projectID id]) ∧
    ((s.repo.Reprioritize w projectID id newPriority).2 = .error e →
      (s.Reprioritize w projectID id newPriority).result = .error e ∧
      (s.Reprioritize w projectID id newPriority).calls
        = [.reprioritize projectID id newPriority]) := by
  refine ⟨?_, ?_, ?_, ?_, ?_⟩
  · intro hn he
    simp [GoodsService.Create, hn, he]
  · intro hn he
    simp [GoodsService.Update, hn, he]
  · intro he
    simp [GoodsService.Remove, he]
  · intro g hg he
    simp [GoodsService.Remove, hg, he]
  · intro he
    simp [GoodsService.Reprioritize, he]

theorem repo_failure_propagates_witness :
    ((sampleService none none).Reprioritize sampleWorld 1 9 2).result = .error .ErrNotFound ∧
    ((sampleService none none).Reprioritize sampleWorld 1 9 2).calls = [.reprioritize 1 9 2] :=
  (repo_failure_propagates (sampleService none none) sampleWorld 1 9 "" none 2
    .ErrNotFound).2.2.2.2 rfl

/-- C18 fails as stated: on the sample table, moving item 3 of project 1 to rank
1 returns a delta for the shifted item 1, but no Invalidate call is made for
`good:1:1`, and the entry cached under that key is still in the cache after the
call. -/
theorem shifted_keys_not_invalidated :
    ¬ InvalidatesDeltaKeys
        ((sampleService none none).Reprioritize
          { sampleWorld with cache := [(goodKey 1 1, [1])] } 1 3 1) 1 ∧
    ((sampleService none none).Reprioritize
        { sampleWorld with cache := [(goodKey 1 1, [1])] } 1 3 1).state.cache
      = [(goodKey 1 1, [1])] := by
  refine ⟨?_, rfl⟩
  intro h
  have h1 := h [{ ID := 1, Priority := 2 }, { ID := 2, Priority := 3 }, { ID := 3, Priority := 1 }]
    rfl { ID := 1, Priority := 2 } (by simp)
  revert h1
  decide

/-- C18 (amended): after every successful GoodsService.Reprioritize the calls
are the repository call, Invalidate of `goods:list`, Invalidate of the key
`good:<projectId>:<id>` of the target, and the publish of the delta list; the
only keys for which Invalidate is called are those two. -/
theorem reprioritize_invalidates_target_only {σ : Type} (s : GoodsService σ) (w : σ)
    (projectID id newPriority : Int) (us : List PriorityUpdate)
    (h : (s.repo.Reprioritize w projectID id newPriority).2 = .ok us) :
    (s.Reprioritize w projectID id newPriority).result = .ok us ∧
    (s.Reprioritize w projectID id newPriority).calls
      = [.reprioritize projectID id newPriority, .cacheInvalidate "goods:list",
          .cacheInvalidate (goodKey projectID id), .publishLog (s.json.marshalUpdates us)] ∧
    ∀ key, Call.cacheInvalidate key ∈ (s.Reprioritize w projectID id newPriority).calls ↔
      key = "goods:list" ∨ key = goodKey projectID id := by
  simp [GoodsService.Reprioritize, h]

theorem reprioritize_invalidates_target_only_witness :
    ((sampleService none none).Reprioritize sampleWorld 1 3 1).calls
      = [.reprioritize 1 3 1, .cacheInvalidate "goods:list", .cacheInvalidate (goodKey 1 3),
          .publishLog [1, 2, 3]] :=
  (reprioritize_invalidates_target_only (sampleService none none) sampleWorld 1 3 1 _ rfl).2.1

/-! ## HTTP handlers: status of a failed service call -/

/-- C19 fails as stated: an update and a create request with an empty name reach
the service, which rejects them without touching its collaborators, and the
handlers answer 500 with the text of the validation error, not a client-error
status. -/
theorem empty_name_gives_500 :
    (sampleHandler.Update sampleParsers (sampleWorld, []) (sampleRequest "1" "2" [0])).response
      = { status := 500, body := .error 1 "name cannot be empty" } ∧
    (sampleHandler.Update sampleParsers (sampleWorld, []) (sampleRequest "1" "2" [0])).calls
      = [.update 1 2 "" none] ∧
    (sampleHandler.Update sampleParsers (sampleWorld, []) (sampleRequest "1" "2" [0])).state.2
      = [] ∧
    ¬ ClientErrorNot404
      (sampleHandler.Update sampleParsers (sampleWorld, [])
        (sampleRequest "1" "2" [0])).response.status ∧
    (sampleHandler.Create sampleParsers (sampleWorld, []) (sampleRequest "1" "" [0])).response
      = { status := 500, body := .error 1 "name cannot be empty" } ∧
    ¬ ClientErrorNot404
      (sampleHandler.Create sampleParsers (sampleWorld, [])
        (sampleRequest "1" "" [0])).response.status := by
  refine ⟨rfl, rfl, rfl, ?_, rfl, ?_⟩
  · have h : (sampleHandler.Update sampleParsers (sampleWorld, [])
        (sampleRequest "1" "2" [0])).response.status = 500 := rfl
    rw [h]
    unfold ClientErrorNot404
    omega
  · have h : (sampleHandler.Create sampleParsers (sampleWorld, [])
        (sampleRequest "1" "" [0])).response.status = 500 := rfl
    rw [h]
    unfold ClientErrorNot404
    omega

/-- C19 (amended): in the Get, Update, Remove and Reprioritize handlers a failed
service call gives 404 when the error is ErrNotFound and 500 for every other
error; in the Create and List handlers every failed service call gives 500.  An
empty name on create or update is rejected by the service with an error other
than ErrNotFound and is therefore answered with 500. -/
theorem handler_status_of_service_error {σ : Type} (h : Handler σ) (ps : Parsers) (w : σ)
    (r : Request) (pid id : Int) (e : Error) :
    (∀ req, ps.Atoi (r.query "projectId") = .ok pid → 0 < pid →
      ps.decodeGoodRequest r.body = .ok req → (h.srv.Create w pid req.1 req.2).2 = .error e →
      (h.Create ps w r).response.status = 500) ∧
    (∀ req, parseIDs ps r = (pid, id, true) → ps.decodeGoodRequest r.body = .ok req →
      (h.srv.Update w pid id req.1 req.2).2 = .error e →
      (h.Update ps w r).response.status = if e = .ErrNotFound then 404 else 500) ∧
    (parseIDs ps r = (pid, id, true) → (h.srv.Remove w pid id).2 = some e →
      (h.Remove ps w r).response.status = if e = .ErrNotFound then 404 else 500) ∧
    (ps.Atoi (r.query "id") = .ok id → 0 < id → ps.Atoi (r.query "projectId") = .ok pid →
      0 < pid → (h.srv.Get w pid id).2 = .error e →
      (h.Get ps w r).response.status = if e = .ErrNotFound then 404 else 500) ∧
    (∀ n, parseIDs ps r = (pid, id, true) → ps.decodePriorityRequest r.body = .ok n →
      (h.srv.Reprioritize w pid id n).2 = .error e →
      (h.Reprioritize ps w r).response.status = if e = .ErrNotFound then 404 else 500) ∧
    ((h.srv.List w (queryIntOr ps r "limit" 10) (queryIntOr ps r "offset" 0)).2 = .error e →
      (h.List ps w r).response.status = 500) ∧
    (∀ (τ : Type) (s : GoodsService τ) (v : τ × List Call) (req : String × Option String),
      parseIDs ps r = (pid, id, true) → ps.decodeGoodRequest r.body = .ok req → req.1 = "" →
      (Handler.Update { srv := asHandlerService s } ps v r).response.status = 500) ∧
    (∀ (τ : Type) (s : GoodsService τ) (v : τ × List Call) (req : String × Option String),
      ps.Atoi (r.query "projectId") = .ok pid → 0 < pid →
      ps.decodeGoodRequest r.body = .ok req → req.1 = "" →
      (Handler.Create { srv := asHandlerService s } ps v r).response.status = 500) := by
  refine ⟨?_, ?_, ?_, ?_, ?_, ?_, ?_, ?_⟩
  · intro req ha hp hd he
    have hp2 : ¬ pid ≤ 0 := by omega
    simp [Handler.Create, ha, hp2, hd, he, writeError, StatusInternalServerError]
  · intro req hp hd he
    simp only [Handler.Update, hp, hd, he, notFoundOr500]
    split_ifs <;> rfl
  · intro hp he
    simp only [Handler.Remove, hp, he, notFoundOr500]
    split_ifs <;> rfl
  · intro hi hi2 ha hp he
    have hi3 : ¬ id ≤ 0 := by omega
    have hp2 : ¬ pid ≤ 0 := by omega
    simp only [Handler.Get, hi, hi3, ha, hp2, he, notFoundOr500, if_false]
    split_ifs <;> rfl
  · intro n hp hd he
    simp only [Handler.Reprioritize, hp, hd, he, notFoundOr500]
    split_ifs <;> rfl
  · intro he
    simp [Handler.List, he, writeError, StatusInternalServerError]
  · intro τ s v req hp hd hn
    have hreq : req = ("", req.2) := by
      cases req; simp_all
    rw [hreq] at hd
    simp [Handler.Update, hp, hd, asHandlerService, GoodsService.Update, notFoundOr500,
      errorsNew, writeError, StatusInternalServerError]
  · intro τ s v req ha hp hd hn
    have hp2 : ¬ pid ≤ 0 := by omega
    have hreq : req = ("", req.2) := by
      cases req; simp_all
    rw [hreq] at hd
    simp [Handler.Create, ha, hp2, hd, asHandlerService, GoodsService.Create, errorsNew,
      writeError, StatusInternalServerError]

theorem handler_status_of_service_error_witness :
    (sampleHandler.Reprioritize sampleParsers (sampleWorld, [])
        (sampleRequest "1" "9" [2])).response.status = 404 ∧
    (sampleHandler.Update sampleParsers (sampleWorld, [])
        (sampleRequest "1" "2" [0])).response.status = 500 :=
  ⟨(handler_status_of_service_error sampleHandler sampleParsers (sampleWorld, [])
      (sampleRequest "1" "9" [2]) 1 9 .ErrNotFound).2.2.2.2.1 2 rfl rfl rfl,
   (handler_status_of_service_error sampleHandler sampleParsers (sampleWorld, [])
      (sampleRequest "1" "2" [0]) 1 2 .ErrNotFound).2.2.2.2.2.2.1 World
      (sampleService none none) (sampleWorld, []) ("", none) rfl rfl rfl⟩

/-! ## Removed items -/

/-- Under the primary key, the row found by the key of x in a table mapped by a
key-preserving function is the image of x. -/
theorem selectGood_map {db : Table} (hk : PrimaryKey db) {x : Good} (hx : x ∈ db)
    (f : Good → Good) (hf : ∀ g, (f g).ID = g.ID ∧ (f g).ProjectID = g.ProjectID) :
    selectGood (db.map f) x.ID x.ProjectID = some (f x) := by
  unfold selectGood
  rw [List.find?_map]
  have hc : ((fun g : Good => decide (g.ID = x.ID ∧ g.ProjectID = x.ProjectID)) ∘ f)
      = fun g : Good => decide (g.ID = x.ID ∧ g.ProjectID = x.ProjectID) := by
    funext g
    simp [(hf g).1, (hf g).2]
  rw [hc, find_own_key hk hx]
  rfl

/-- Shape of every successful UpdateGood. -/
theorem UpdateGood_ok {f : TxFaults} {db : Table} {p id : Int} {name : String}
    {description : Option String} {g : Good}
    (h : (UpdateGood f db p id name description).result = .ok g) :
    ∃ x, selectGood db id p = some x ∧
      g = { x with Name := name, Description := description } ∧
      (UpdateGood f db p id name description).db = setNameDescription name description id p db := by
  unfold UpdateGood at h ⊢
  by_cases hn : name = ""
  · simp [hn] at h
  · simp only [hn, if_false] at h ⊢
    cases hA : f.beginTx with
    | some e => simp [hA] at h
    | none =>
      cases hB : f.selectRow with
      | some e => simp [hA, hB] at h
      | none =>
        cases hC : selectGood db id p with
        | none => simp [hA, hB, hC] at h
        | some x =>
          cases hD : f.exec with
          | some e => simp [hA, hB, hC, hD] at h
          | none =>
            cases hE : f.commit with
            | some e => simp [hA, hB, hC, hD, hE] at h
            | none =>
              simp only [hA, hB, hC, hD, hE, Except.ok.injEq] at h ⊢
              exact ⟨x, rfl, h.symm, trivial⟩

/-- C20 fails as stated: item 4 of project 1 is removed in the sample table, yet
a later UpdateGood changes its name and description and a later Reprioritize
changes its rank; both calls succeed. -/
theorem removed_item_still_mutable :
    (selectGood sampleTable 4 1).map (fun g => (g.Removed, g.Name, g.Description, g.Priority))
      = some (true, "D", none, 4) ∧
    (selectGood (UpdateGood TxFaults.ok sampleTable 1 4 "D2" (some "new")).db 4 1).map
        (fun g => (g.Removed, g.Name, g.Description, g.Priority))
      = some (true, "D2", some "new", 4) ∧
    (selectGood (Reprioritize Faults.ok sampleTable 1 4 1).db 4 1).map
        (fun g => (g.Removed, g.Name, g.Description, g.Priority))
      = some (true, "D", none, 1) ∧
    (UpdateGood TxFaults.ok sampleTable 1 4 "D2" (some "new")).result
      = .ok { ID := 4, ProjectID := 1, Name := "D2", Description := some "new", Priority := 4,
              Removed := true, CreatedAt := 104 } ∧
    (Reprioritize Faults.ok sampleTable 1 4 1).result
      = .ok [{ ID := 1, Priority := 2 }, { ID := 2, Priority := 3 }, { ID := 3, Priority := 4 },
             { ID := 4, Priority := 1 }] :=
  ⟨rfl, rfl, rfl, rfl, rfl⟩

/-- C20 (amended): removal does not block later mutation.  For a removed item x
of a table with its primary key, UpdateGood with a non-empty name succeeds when
no statement fails, and every successful UpdateGood leaves in the table, and
returns, x with the new name and description and nothing else changed; every
successful Reprioritize leaves x with the new rank and nothing else changed.  In
both cases the item is still removed. -/
theorem removed_item_mutation (db : Table) (x : Good) (hk : PrimaryKey db) (hx : x ∈ db)
    (hrem : x.Removed = true) :
    (∀ name description, name ≠ "" →
      (UpdateGood TxFaults.ok db x.ProjectID x.ID name description).result
        = .ok { x with Name := name, Description := description }) ∧
    (∀ (f : TxFaults) name description g,
      (UpdateGood f db x.ProjectID x.ID name description).result = .ok g →
      g = { x with Name := name, Description := description } ∧ g.Removed = true ∧
      selectGood (UpdateGood f db x.ProjectID x.ID name description).db x.ID x.ProjectID
        = some { x with Name := name, Description := description }) ∧
    (∀ (f : Faults) newRank us,
      (Reprioritize f db x.ProjectID x.ID newRank).result = .ok us →
      selectGood (Reprioritize f db x.ProjectID x.ID newRank).db x.ID x.ProjectID
        = some { x with Priority := newRank } ∧
      ({ x with Priority := newRank } : Good).Removed = true) := by
  have hsel : selectGood db x.ID x.ProjectID = some x := find_own_key hk hx
  refine ⟨?_, ?_, ?_⟩
  · intro name description hn
    simp [UpdateGood, hn, TxFaults.ok, hsel]
  · intro f name description g h
    obtain ⟨y, hy, hg, hdb⟩ := UpdateGood_ok h
    rw [hsel] at hy
    cases hy
    refine ⟨hg, by rw [hg]; exact hrem, ?_⟩
    rw [hdb]
    unfold setNameDescription
    rw [selectGood_map hk hx _ (by intro g; split_ifs <;> simp)]
    simp
  · intro f newRank us h
    obtain ⟨cur, hcur, hdb, _⟩ := Reprioritize_ok h
    refine ⟨?_, hrem⟩
    rw [hdb, txTable_eq_reference,
      selectGood_map hk hx _ (by intro g; simp [referenceRow])]
    simp [referenceRow, referenceRank]

theorem removed_item_mutation_witness :
    selectGood (Reprioritize Faults.ok sampleTable 1 4 2).db 4 1
      = some { ID := 4, ProjectID := 1, Name := "D", Description := none, Priority := 2,
               Removed := true, CreatedAt := 104 } :=
  ((removed_item_mutation sampleTable
    { ID := 4, ProjectID := 1, Name := "D", Description := none, Priority := 4,
      Removed := true, CreatedAt := 104 } (by decide)
    (List.mem_cons_of_mem _ (List.mem_cons_of_mem _ (List.mem_cons_of_mem _
      (List.mem_cons_of_mem _ (List.mem_cons_self _ _))))) rfl).2.2 Faults.ok 2 _ rfl).1

/-! ## UpdateGood and RemoveGood: frame -/

/-- Shape of every successful RemoveGood. -/
theorem RemoveGood_ok {f : TxFaults} {db : Table} {p id : Int}
    (h : (RemoveGood f db p id).result = .ok ()) :
    (∃ x, selectGood db id p = some x) ∧ (RemoveGood f db p id).db = setRemoved id p db := by
  unfold RemoveGood at h ⊢
  cases hA : f.beginTx with
  | some e => simp [hA] at h
  | none =>
    cases hB : f.selectRow with
    | some e => simp [hA, hB] at h
    | none =>
      cases hC : selectGood db id p with
      | none => simp [hA, hB, hC] at h
      | some x =>
        cases hD : f.exec with
        | some e => simp [hA, hB, hC, hD] at h
        | none =>
          cases hE : f.commit with
          | some e => simp [hA, hB, hC, hD, hE] at h
          | none => exact ⟨⟨x, rfl⟩, rfl⟩

/-- A failed UpdateGood or RemoveGood leaves the table as it was. -/
theorem update_remove_error_db (db : Table) (p id : Int) (name : String)
    (description : Option String) (f : TxFaults) :
    (∀ e, (UpdateGood f db p id name description).result = .error e →
      (UpdateGood f db p id name description).db = db) ∧
    (∀ e, (RemoveGood f db p id).result = .error e → (RemoveGood f db p id).db = db) := by
  constructor
  · intro e h
    unfold UpdateGood at h ⊢
    by_cases hn : name = ""
    · simp [hn]
    · simp only [hn, if_false] at h ⊢
      cases hA : f.beginTx <;> cases hB : f.selectRow <;>
        cases hC : selectGood db id p <;> cases hD : f.exec <;> cases hE : f.commit <;>
        simp_all
  · intro e h
    unfold RemoveGood at h ⊢
    cases hA : f.beginTx <;> cases hB : f.selectRow <;>
      cases hC : selectGood db id p <;> cases hD : f.exec <;> cases hE : f.commit <;>
      simp_all

/-- Under the primary key, rewriting the rows with the key of x rewrites x only. -/
theorem map_key_eq_map_row {db : Table} (hk : PrimaryKey db) {x : Good} (hx : x ∈ db)
    (h : Good → Good) :
    db.map (fun y => if y.ID = x.ID ∧ y.ProjectID = x.ProjectID then h y else y)
      = db.map (fun y => if y = x then h x else y) := by
  apply List.map_congr_left
  intro y hy
  by_cases hyx : y = x
  · subst hyx; simp
  · have hkey : ¬ (y.ID = x.ID ∧ y.ProjectID = x.ProjectID) := by
      intro hkk
      exact hyx (List.inj_on_of_nodup_map hk hy hx (by simp [hkk.1, hkk.2]))
    simp [hyx, hkey]

theorem selectGood_none_of_missing {db : Table} {p id : Int} (h : ¬ HasItem db p id) :
    selectGood db id p = none := by
  unfold selectGood
  rw [List.find?_eq_none]
  intro g hg hkey
  simp only [decide_eq_true_eq] at hkey
  exact h ⟨g, hg, hkey.1, hkey.2⟩

/-- C21 fails as stated: item 9 of project 1 is missing from the sample table,
yet UpdateGood with an empty name returns ErrEmptyName, not ErrNotFound. -/
theorem update_missing_item_empty_name :
    ¬ HasItem sampleTable 1 9 ∧
    (UpdateGood TxFaults.ok sampleTable 1 9 "" none).result = .error .ErrEmptyName ∧
    (UpdateGood TxFaults.ok sampleTable 1 9 "" none).result ≠ .error .ErrNotFound := by
  refine ⟨?_, rfl, ?_⟩
  · simp [HasItem, sampleTable]
  · intro h
    have h2 : (UpdateGood TxFaults.ok sampleTable 1 9 "" none).result
        = .error .ErrEmptyName := rfl
    rw [h2] at h
    cases h

/-- C21 (amended): in a table with its primary key and for an existing item x, a
successful UpdateGood replaces x by x with the new name and description and
leaves every other row as it is, and returns x with the new name and
description (rank, removed flag, project and creation time as read); a
successful RemoveGood replaces x by x with removed = true and leaves every other
row as it is; in both cases the ranks of all rows are unchanged, and both
succeed when no step fails (UpdateGood for a non-empty name).  For a missing
item, RemoveGood, and UpdateGood with a non-empty name, return ErrNotFound when
BeginTx and the locked read do not fail, and the table is unchanged. -/
theorem update_remove_frame (db : Table) (x : Good) (hk : PrimaryKey db) (hx : x ∈ db) :
    (∀ name description, name ≠ "" →
      (UpdateGood TxFaults.ok db x.ProjectID x.ID name description).result
        = .ok { x with Name := name, Description := description }) ∧
    (∀ (f : TxFaults) name description g,
      (UpdateGood f db x.ProjectID x.ID name description).result = .ok g →
      g = { x with Name := name, Description := description } ∧
      (UpdateGood f db x.ProjectID x.ID name description).db
        = db.map (fun y => if y = x then { x with Name := name, Description := description }
            else y) ∧
      (UpdateGood f db x.ProjectID x.ID name description).db.map (fun y => y.Priority)
        = db.map (fun y => y.Priority)) ∧
    ((RemoveGood TxFaults.ok db x.ProjectID x.ID).result = .ok ()) ∧
    (∀ f : TxFaults, (RemoveGood f db x.ProjectID x.ID).result = .ok () →
      (RemoveGood f db x.ProjectID x.ID).db
        = db.map (fun y => if y = x then { x with Removed := true } else y) ∧
      (RemoveGood f db x.ProjectID x.ID).db.map (fun y => y.Priority)
        = db.map (fun y => y.Priority)) ∧
    (∀ (f : TxFaults) p id name description, ¬ HasItem db p id →
      f.beginTx = none → f.selectRow = none →
      (name ≠ "" → (UpdateGood f db p id name description).result = .error .ErrNotFound) ∧
      (UpdateGood f db p id name description).db = db ∧
      (RemoveGood f db p id).result = .error .ErrNotFound ∧
      (RemoveGood f db p id).db = db) := by
  have hsel : selectGood db x.ID x.ProjectID = some x := find_own_key hk hx
  refine ⟨?_, ?_, ?_, ?_, ?_⟩
  · intro name description hn
    simp [UpdateGood, hn, TxFaults.ok, hsel]
  · intro f name description g h
    obtain ⟨y, hy, hg, hdb⟩ := UpdateGood_ok h
    rw [hsel] at hy
    cases hy
    have hmap : (UpdateGood f db x.ProjectID x.ID name description).db
        = db.map (fun y => if y = x then { x with Name := name, Description := description }
            else y) := by
      rw [hdb]
      unfold setNameDescription
      exact map_key_eq_map_row hk hx (fun y => { y with Name := name, Description := description })
    refine ⟨hg, hmap, ?_⟩
    rw [hmap, List.map_map]
    apply List.map_congr_left
    intro y _
    simp only [Function.comp]
    split_ifs with hyx
    · rw [hyx]
    · rfl
  · simp [RemoveGood, TxFaults.ok, hsel]
  · intro f h
    obtain ⟨_, hdb⟩ := RemoveGood_ok h
    have hmap : (RemoveGood f db x.ProjectID x.ID).db
        = db.map (fun y => if y = x then { x with Removed := true } else y) := by
      rw [hdb]
      unfold setRemoved
      exact map_key_eq_map_row hk hx (fun y => { y with Removed := true })
    refine ⟨hmap, ?_⟩
    rw [hmap, List.map_map]
    apply List.map_congr_left
    intro y _
    simp only [Function.comp]
    split_ifs with hyx
    · rw [hyx]
    · rfl
  · intro f p id name description hmiss hb hs
    have hnone := selectGood_none_of_missing hmiss
    refine ⟨?_, ?_, ?_, ?_⟩
    · intro hn
      simp [UpdateGood, hn, hb, hs, hnone]
    · by_cases hn : name = ""
      · simp [UpdateGood, hn]
      · simp [UpdateGood, hn, hb, hs, hnone]
    · simp [RemoveGood, hb, hs, hnone]
    · simp [RemoveGood, hb, hs, hnone]

theorem update_remove_frame_witness :
    (RemoveGood TxFaults.ok sampleTable 1 2).db
      = sampleTable.map (fun y =>
          if y = { ID := 2, ProjectID := 1, Name := "B", Description := some "b", Priority := 2,
                   Removed := false, CreatedAt := 101 }
          then { ID := 2, ProjectID := 1, Name := "B", Description := some "b", Priority := 2,
                 Removed := true, CreatedAt := 101 }
          else y) :=
  ((update_remove_frame sampleTable
    { ID := 2, ProjectID := 1, Name := "B", Description := some "b", Priority := 2,
      Removed := false, CreatedAt := 101 } (by decide)
    (List.mem_cons_of_mem _ (List.mem_cons_self _ _))).2.2.2.1 TxFaults.ok rfl).1

/-! ## ClickhouseRepo.BatchInsertLogs -/

theorem execEvents_ok (exec : Nat → Option Error) (clock : Nat → Int) (events : List Good) :
    ∀ i, (∀ j, j < events.length → exec (i + j) = none) →
      execEvents exec clock i events = (logRows clock i events, none) := by
  induction events with
  | nil => intro i _; rfl
  | cons e events ih =>
    intro i h
    have h0 : exec i = none := by simpa using h 0 (by simp)
    have hrest : ∀ j, j < events.length → exec (i + 1 + j) = none := by
      intro j hj
      have := h (j + 1) (by simp; omega)
      rw [show i + 1 + j = i + (j + 1) by omega]
      exact this
    simp [execEvents, logRows, h0, ih (i + 1) hrest]

theorem execEvents_fail (exec : Nat → Option Error) (clock : Nat → Int) (events : List Good) :
    ∀ i k e, k < events.length → (∀ j, j < k → exec (i + j) = none) → exec (i + k) = some e →
      execEvents exec clock i events = (logRows clock i (events.take (k + 1)), some e) := by
  induction events with
  | nil => intro i k e hk; simp at hk
  | cons ev events ih =>
    intro i k e hk hbefore hfail
    cases k with
    | zero =>
      have h0 : exec i = some e := by simpa using hfail
      simp [execEvents, logRows, h0]
    | succ k =>
      have h0 : exec i = none := by simpa using hbefore 0 (by omega)
      have hk2 : k < events.length := by simpa using hk
      have hb2 : ∀ j, j < k → exec (i + 1 + j) = none := by
        intro j hj
        rw [show i + 1 + j = i + (j + 1) by omega]
        exact hbefore (j + 1) (by omega)
      have hf2 : exec (i + 1 + k) = some e := by
        rw [show i + 1 + k = i + (k + 1) by omega]
        exact hfail
      simp [execEvents, logRows, h0, ih (i + 1) k e hk2 hb2 hf2]

theorem logRows_fields (clock : Nat → Int) (events : List Good) :
    ∀ i, (logRows clock i events).map
        (fun r => (r.Id, r.ProjectId, r.Name, r.Description, r.Priority, r.Removed))
      = events.map (fun e => (e.ID, e.ProjectID, e.Name, e.Description.getD "", e.Priority,
          if e.Removed then 1 else 0)) := by
  induction events with
  | nil => intro i; rfl
  | cons e events ih =>
    intro i
    simp only [logRows, List.map_cons, ih (i + 1)]
    congr 1
    cases hd : e.Description <;> simp [logRow, boolToUInt8, hd]

/-- C22: the rows of a batch are one per event, in batch order, with the id,
project id, name and priority of the event, the description or the empty string
when it is absent, and removed as 1 or 0.  When Begin, Prepare and every exec
succeed, exactly these rows are passed to ExecContext, followed by Commit, and a
successful Commit appends them to the table.  When the exec of row k is the first
to fail with error e, that error is returned after rows 0..k were passed, the
transaction is rolled back and never committed, and the table is unchanged. -/
theorem batch_insert_rows (f : ChFaults) (clock : Nat → Int) (table : List LogRow)
    (events : List Good) :
    ((logRows clock 0 events).map
        (fun r => (r.Id, r.ProjectId, r.Name, r.Description, r.Priority, r.Removed))
      = events.map (fun e => (e.ID, e.ProjectID, e.Name, e.Description.getD "", e.Priority,
          if e.Removed then 1 else 0))) ∧
    (f.beginTx = none → f.prepare = none → (∀ i, i < events.length → f.exec i = none) →
      (BatchInsertLogs f clock table events).log
        = [.beginTx, .prepare] ++ (logRows clock 0 events).map ChCall.exec ++ [.commit] ∧
      (BatchInsertLogs f clock table events).err = f.commit ∧
      (f.commit = none →
        (BatchInsertLogs f clock table events).table = table ++ logRows clock 0 events)) ∧
    (∀ k e, f.beginTx = none → f.prepare = none → k < events.length →
      (∀ j, j < k → f.exec j = none) → f.exec k = some e →
      (BatchInsertLogs f clock table events).err = some e ∧
      (BatchInsertLogs f clock table events).table = table ∧
      (BatchInsertLogs f clock table events).log
        = [.beginTx, .prepare] ++ (logRows clock 0 (events.take (k + 1))).map ChCall.exec
            ++ [.rollback] ∧
      ChCall.commit ∉ (BatchInsertLogs f clock table events).log) := by
  refine ⟨logRows_fields clock events 0, ?_, ?_⟩
  · intro hb hp hex
    have he := execEvents_ok f.exec clock events 0 (by simpa using hex)
    cases hc : f.commit with
    | none => simp [BatchInsertLogs, hb, hp, he, hc]
    | some c => simp [BatchInsertLogs, hb, hp, he, hc]
  · intro k e hb hp hk hbefore hfail
    have he := execEvents_fail f.exec clock events 0 k e hk (by simpa using hbefore)
      (by simpa using hfail)
    simp [BatchInsertLogs, hb, hp, he]

theorem batch_insert_rows_witness :
    (BatchInsertLogs ChFaults.ok (fun _ => 7) []
        [{ ID := 1, ProjectID := 2, Name := "test", Description := some "desc", Priority := 5,
           Removed := true, CreatedAt := 0 },
         { ID := 3, ProjectID := 2, Name := "x", Description := none, Priority := 6,
           Removed := false, CreatedAt := 0 }]).log
      = [.beginTx, .prepare,
         .exec { Id := 1, ProjectId := 2, Name := "test", Description := "desc", Priority := 5,
                 Removed := 1, EventTime := 7 },
         .exec { Id := 3, ProjectId := 2, Name := "x", Description := "", Priority := 6,
                 Removed := 0, EventTime := 7 },
         .commit] :=
  ((batch_insert_rows ChFaults.ok (fun _ => 7) []
      [{ ID := 1, ProjectID := 2, Name := "test", Description := some "desc", Priority := 5,
         Removed := true, CreatedAt := 0 },
       { ID := 3, ProjectID := 2, Name := "x", Description := none, Priority := 6,
         Removed := false, CreatedAt := 0 }]).2.1 rfl rfl (fun _ _ => rfl)).1

/-! ## ListGoods -/

theorem scanGoods_ok (scan : Nat → Option Error) (rows : List Good) :
    ∀ (i : Nat) (acc goods : List Good),
      scanGoods scan i rows acc = .ok goods → goods = acc ++ rows := by
  induction rows with
  | nil => intro i acc goods h; simp [scanGoods] at h; simp [h]
  | cons g rows ih =>
    intro i acc goods h
    unfold scanGoods at h
    split at h
    · cases h
    · have := ih _ _ _ h
      simpa using this

theorem scanGoods_noFault (rows : List Good) :
    ∀ (i : Nat) (acc : List Good),
      scanGoods (fun _ => none) i rows acc = .ok (acc ++ rows) := by
  induction rows with
  | nil => intro i acc; simp [scanGoods]
  | cons g rows ih => intro i acc; simp [scanGoods, ih]

/-- Shape of every successful ListGoods. -/
theorem ListGoods_ok {f : ListFaults} {db : Table} {limit offset : Int}
    {res : List Good × Int × Int} (hl : 0 ≤ limit) (ho : 0 ≤ offset)
    (h : (ListGoods f db limit offset).result = .ok res) :
    res = (pageOf db limit offset, (db.length : Int),
      ((db.filter fun g => g.Removed).length : Int)) := by
  have hneg : ¬ (limit < 0 ∨ offset < 0) := by omega
  unfold ListGoods at h
  cases hA : f.countTotal with
  | some e => simp [hA] at h
  | none =>
    cases hB : f.countRemoved with
    | some e => simp [hA, hB] at h
    | none =>
      cases hC : f.selectRows with
      | some e => simp [hA, hB, hC, hneg] at h
      | none =>
        cases hD : scanGoods f.scan 0 (pageOf db limit offset) [] with
        | error e => simp [hA, hB, hC, hneg, hD] at h
        | ok goods =>
          have hg := scanGoods_ok _ _ _ _ _ hD
          simp only [hA, hB, hC, hneg, hD, if_false, Except.ok.injEq] at h
          rw [← h, hg]
          simp

/-- C23: for limit >= 0 and offset >= 0, ListGoods succeeds when no query fails,
and every successful call returns the rows of all projects in ascending id order
with the first offset rows skipped and at most limit rows kept, together with
total = the number of all rows and removed = the number of all rows with
removed = true; the counts do not depend on limit, offset or project, removed is
at most total, and the table is unchanged. -/
theorem list_goods_page (db : Table) (limit offset : Int) (hl : 0 ≤ limit) (ho : 0 ≤ offset) :
    (ListGoods ListFaults.ok db limit offset).result
      = .ok (pageOf db limit offset, (db.length : Int),
          ((db.filter fun g => g.Removed).length : Int)) ∧
    (∀ (f : ListFaults) goods total removed,
      (ListGoods f db limit offset).result = .ok (goods, total, removed) →
      goods = ((orderById db).drop offset.toNat).take limit.toNat ∧
      total = (db.length : Int) ∧
      removed = ((db.filter fun g => g.Removed).length : Int) ∧
      removed ≤ total ∧
      goods.Sorted idLE ∧
      (goods.length : Int) ≤ limit) ∧
    (orderById db).Perm db ∧
    (orderById db).Sorted idLE ∧
    (∀ f : ListFaults, (ListGoods f db limit offset).db = db) := by
  have hneg : ¬ (limit < 0 ∨ offset < 0) := by omega
  have hsorted : (orderById db).Sorted idLE := List.sorted_insertionSort idLE db
  refine ⟨?_, ?_, List.perm_insertionSort idLE db, hsorted, ?_⟩
  · simp [ListGoods, ListFaults.ok, hneg, scanGoods_noFault]
  · intro f goods total removed h
    have hres := ListGoods_ok hl ho h
    simp only [Prod.mk.injEq] at hres
    obtain ⟨hg, ht, hr⟩ := hres
    refine ⟨hg, ht, hr, ?_, ?_, ?_⟩
    · rw [ht, hr]
      exact_mod_cast List.length_filter_le _ db
    · rw [hg]
      exact (hsorted.sublist (List.drop_sublist _ _)).sublist (List.take_sublist _ _)
    · rw [hg]
      unfold pageOf
      have := List.length_take_le limit.toNat ((orderById db).drop offset.toNat)
      omega
  · intro f
    unfold ListGoods
    cases f.countTotal <;> cases f.countRemoved <;>
      cases (if limit < 0 ∨ offset < 0 then
        some (Error.external "LIMIT and OFFSET must not be negative") else f.selectRows) <;>
      cases scanGoods f.scan 0 (pageOf db limit offset) [] <;> rfl

theorem list_goods_page_witness :
    (ListGoods ListFaults.ok sampleTable 2 1).result
      = .ok ([{ ID := 2, ProjectID := 1, Name := "B", Description := some "b", Priority := 2,
                Removed := false, CreatedAt := 101 },
              { ID := 3, ProjectID := 1, Name := "C", Description := none, Priority := 3,
                Removed := false, CreatedAt := 103 }], 5, 1) :=
  (list_goods_page sampleTable 2 1 (by decide) (by decide)).1

/-! ## Reprioritize: size of the delta list -/

/-- The ranks 1..N hold hi - lo ranks r with lo <= r < hi when 1 <= lo <= hi <= N+1. -/
theorem count_ranks_in_range (N : Nat) (lo hi : Int) (h1 : 1 ≤ lo) (h2 : lo ≤ hi)
    (h3 : hi ≤ N + 1) :
    ((ranks1N N).filter (fun r => decide (lo ≤ r ∧ r < hi))).length = (hi - lo).toNat := by
  have hnd : ((ranks1N N).filter (fun r => decide (lo ≤ r ∧ r < hi))).Nodup :=
    (nodup_ranks1N N).filter _
  have hnd2 : ((List.range (hi - lo).toNat).map (fun (i : Nat) => lo + (i : Int))).Nodup := by
    refine (List.nodup_range _).map_on ?_
    intro a _ b _ hab
    omega
  have hperm : ((ranks1N N).filter (fun r => decide (lo ≤ r ∧ r < hi))).Perm
      ((List.range (hi - lo).toNat).map (fun (i : Nat) => lo + (i : Int))) := by
    rw [List.perm_ext_iff_of_nodup hnd hnd2]
    intro a
    simp only [List.mem_filter, mem_ranks1N, decide_eq_true_eq, List.mem_map, List.mem_range]
    constructor
    · rintro ⟨_, ha1, ha2⟩
      exact ⟨(a - lo).toNat, by omega, by omega⟩
    · rintro ⟨i, hi1, rfl⟩
      omega
  rw [hperm.length_eq, List.length_map, List.length_range]

/-- With dense ranks, the rows of the project with a rank in lo..hi-1 are hi - lo. -/
theorem count_rows_in_range {db : Table} {p : Int} {N : Nat} (hd : DenseRanks db p N)
    (lo hi : Int) (h1 : 1 ≤ lo) (h2 : lo ≤ hi) (h3 : hi ≤ N + 1) :
    (db.filter (fun g => decide (g.ProjectID = p ∧ lo ≤ g.Priority ∧ g.Priority < hi))).length
      = (hi - lo).toNat := by
  have hsplit : db.filter (fun g => decide (g.ProjectID = p ∧ lo ≤ g.Priority ∧ g.Priority < hi))
      = (db.filter (fun g => decide (g.ProjectID = p))).filter
          (fun g => decide (lo ≤ g.Priority ∧ g.Priority < hi)) := by
    rw [List.filter_filter]
    apply List.filter_congr
    intro g _
    by_cases hp : g.ProjectID = p <;> simp [hp]
  have hmap : ((ranksOf db p).filter (fun r => decide (lo ≤ r ∧ r < hi))).length
      = ((db.filter (fun g => decide (g.ProjectID = p))).filter
          (fun g => decide (lo ≤ g.Priority ∧ g.Priority < hi))).length := by
    unfold ranksOf
    rw [List.filter_map, List.length_map]
    rfl
  rw [hsplit, ← hmap, (List.Perm.filter _ hd).length_eq]
  exact count_ranks_in_range N lo hi h1 h2 h3

/-- C24: with the ranks of project p exactly 1..N, an existing item (p, id) read
with rank cur and 1 <= newRank <= N, Reprioritize succeeds when no statement
fails, and every successful call returns exactly |newRank - cur| + 1 deltas: the
ids of the rows of p whose rank lies between the old and the new rank (the new
rank included, the old one excluded), in table order, followed by the target. -/
theorem delta_count (db : Table) (p id newRank cur : Int) (N : Nat)
    (hd : DenseRanks db p N) (hcur : selectPriority db id p = some cur)
    (h1 : 1 ≤ newRank) (h2 : newRank ≤ N) :
    (∃ us, (Reprioritize Faults.ok db p id newRank).result = .ok us) ∧
    ∀ (f : Faults) (us : List PriorityUpdate),
      (Reprioritize f db p id newRank).result = .ok us →
      us.length = (newRank - cur).natAbs + 1 ∧
      us.map (fun u => u.ID)
        = (db.filter (fun g => decide (g.ProjectID = p) &&
            betweenRanks newRank cur g.Priority)).map (fun g => g.ID) ++ [id] := by
  obtain ⟨x, hx, _, hxp, hxr⟩ := selectPriority_some hcur
  have hmem : cur ∈ ranksOf db p := by
    unfold ranksOf
    exact List.mem_map.2 ⟨x, by simp [hx, hxp], hxr⟩
  have hc := mem_ranks1N.1 ((List.Perm.mem_iff hd).1 hmem)
  refine ⟨⟨_, (Reprioritize_noFault hcur).1⟩, ?_⟩
  intro f us h
  obtain ⟨c, hc2, _, hus⟩ := Reprioritize_ok h
  rw [hcur] at hc2
  cases hc2
  rw [hus]
  unfold shiftStep
  split_ifs with hlt hgt
  · have hfil : db.filter (inShiftUp p newRank cur)
        = db.filter (fun g => decide (g.ProjectID = p ∧ newRank ≤ g.Priority ∧ g.Priority < cur)) := by
      apply List.filter_congr
      intro g _
      simp [inShiftUp]
    have hbet : db.filter (fun g => decide (g.ProjectID = p) &&
          betweenRanks newRank cur g.Priority) = db.filter (inShiftUp p newRank cur) := by
      apply List.filter_congr
      intro g _
      simp only [inShiftUp, betweenRanks]
      by_cases hp : g.ProjectID = p <;> simp [hp]
      omega
    have hcount := count_rows_in_range hd newRank cur h1 (by omega) (by omega)
    constructor
    · simp only [shiftReturning, List.length_append, List.length_map, List.length_singleton,
        hfil, hcount]
      omega
    · simp only [shiftReturning, List.map_append, List.map_map, List.map_singleton, hbet]
      rfl
  · have hfil : db.filter (inShiftDown p cur newRank)
        = db.filter (fun g => decide (g.ProjectID = p ∧ cur + 1 ≤ g.Priority ∧
            g.Priority < newRank + 1)) := by
      apply List.filter_congr
      intro g _
      simp only [inShiftDown]
      rw [Bool.eq_iff_iff]
      simp only [decide_eq_true_eq]
      omega
    have hbet : db.filter (fun g => decide (g.ProjectID = p) &&
          betweenRanks newRank cur g.Priority) = db.filter (inShiftDown p cur newRank) := by
      apply List.filter_congr
      intro g _
      simp only [inShiftDown, betweenRanks]
      by_cases hp : g.ProjectID = p <;> simp [hp]
      omega
    have hcount := count_rows_in_range hd (cur + 1) (newRank + 1) (by omega) (by omega)
      (by omega)
    constructor
    · simp only [shiftReturning, List.length_append, List.length_map, List.length_singleton,
        hfil, hcount]
      omega
    · simp only [shiftReturning, List.map_append, List.map_map, List.map_singleton, hbet]
      rfl
  · have heq : newRank = cur := by omega
    have hbet : db.filter (fun g => decide (g.ProjectID = p) &&
          betweenRanks newRank cur g.Priority) = [] := by
      rw [List.filter_eq_nil_iff]
      intro g _
      simp only [betweenRanks]
      by_cases hp : g.ProjectID = p <;> simp [hp]
      omega
    constructor
    · simp [heq]
    · simp [hbet]

theorem delta_count_witness :
    ([{ ID := 2, Priority := 1 }, { ID := 3, Priority := 2 }, { ID := 4, Priority := 3 },
      { ID := 1, Priority := 4 }] : List PriorityUpdate).length
      = ((4 : Int) - 1).natAbs + 1 :=
  ((delta_count sampleTable 1 1 4 1 4 (by decide) rfl (by decide) (by decide)).2
    Faults.ok _ rfl).1

/-! ## GoodsService.Remove: the published event -/

/-- C25: for every successful GoodsService.Remove(projectId, id), GetGood
succeeded with some item g before RemoveGood was called, the calls are GetGood,
RemoveGood, Invalidate of `goods:list`, Invalidate of `good:<projectId>:<id>` and
then the publish, and the published payload is the serialization of g with
Removed set to true and every other field unchanged. -/
theorem remove_publishes_removed_item {σ : Type} (s : GoodsService σ) (w : σ)
    (projectID id : Int) (h : (s.Remove w projectID id).result = .ok ()) :
    ∃ g, (s.repo.GetGood w projectID id).2 = .ok g ∧
      (s.repo.RemoveGood (s.repo.GetGood w projectID id).1 projectID id).2 = none ∧
      (s.Remove w projectID id).calls
        = [.getGood projectID id, .removeGood projectID id, .cacheInvalidate "goods:list",
            .cacheInvalidate (goodKey projectID id),
            .publishLog (s.json.marshalGood
              { ID := g.ID, ProjectID := g.ProjectID, Name := g.Name,
                Description := g.Description, Priority := g.Priority, Removed := true,
                CreatedAt := g.CreatedAt })] ∧
      ∀ key, Call.cacheInvalidate key ∈ (s.Remove w projectID id).calls ↔
        key = "goods:list" ∨ key = goodKey projectID id := by
  cases hg : (s.repo.GetGood w projectID id).2 with
  | error e => simp [GoodsService.Remove, hg] at h
  | ok g =>
    cases hr : (s.repo.RemoveGood (s.repo.GetGood w projectID id).1 projectID id).2 with
    | some e => simp [GoodsService.Remove, hg, hr] at h
    | none =>
      refine ⟨g, rfl, rfl, ?_⟩
      simp [GoodsService.Remove, hg, hr]

theorem remove_publishes_removed_item_witness :
    ∃ g, (memRepo.GetGood sampleWorld 1 3).2 = .ok g ∧
      (memRepo.RemoveGood (memRepo.GetGood sampleWorld 1 3).1 1 3).2 = none ∧
      ((sampleService none none).Remove sampleWorld 1 3).calls
        = [.getGood 1 3, .removeGood 1 3, .cacheInvalidate "goods:list",
            .cacheInvalidate (goodKey 1 3),
            .publishLog (sampleCodec.marshalGood
              { ID := g.ID, ProjectID := g.ProjectID, Name := g.Name,
                Description := g.Description, Priority := g.Priority, Removed := true,
                CreatedAt := g.CreatedAt })] ∧
      ∀ key, Call.cacheInvalidate key ∈ ((sampleService none none).Remove sampleWorld 1 3).calls ↔
        key = "goods:list" ∨ key = goodKey 1 3 :=
  remove_publishes_removed_item (sampleService none none) sampleWorld 1 3 rfl

/-! ## parseIDs -/

/-- C26: parseIDs returns (projectId, id, true) exactly when both query
parameters are accepted by strconv.Atoi with values greater than 0, and those
values are the ones returned; in every other case it returns (0, 0, false), and
the Update, Remove and Reprioritize handlers then answer 400 without calling the
service and leave its state unchanged. -/
theorem parseIDs_contract (ps : Parsers) (r : Request) :
    (∀ pid id, parseIDs ps r = (pid, id, true) ↔
      (ps.Atoi (r.query "projectId") = .ok pid ∧ ps.Atoi (r.query "id") = .ok id ∧
        0 < pid ∧ 0 < id)) ∧
    ((parseIDs ps r).2.2 = false → parseIDs ps r = (0, 0, false)) ∧
    ((parseIDs ps r).2.2 = false →
      ∀ (σ : Type) (h : Handler σ) (w : σ),
        (h.Update ps w r).response.status = 400 ∧ (h.Update ps w r).calls = [] ∧
        (h.Update ps w r).state = w ∧
        (h.Remove ps w r).response.status = 400 ∧ (h.Remove ps w r).calls = [] ∧
        (h.Remove ps w r).state = w ∧
        (h.Reprioritize ps w r).response.status = 400 ∧ (h.Reprioritize ps w r).calls = [] ∧
        (h.Reprioritize ps w r).state = w) := by
  have hfalse : (parseIDs ps r).2.2 = false → parseIDs ps r = (0, 0, false) := by
    unfold parseIDs
    cases ps.Atoi (r.query "projectId") with
    | error e => intro _; rfl
    | ok a =>
      cases ps.Atoi (r.query "id") with
      | error e => intro _; rfl
      | ok b =>
        simp only
        split_ifs with hle
        · intro _; rfl
        · intro hc; cases hc
  refine ⟨?_, hfalse, ?_⟩
  · intro pid id
    unfold parseIDs
    cases ps.Atoi (r.query "projectId") with
    | error e => simp
    | ok a =>
      cases ps.Atoi (r.query "id") with
      | error e => simp
      | ok b =>
        simp only
        split_ifs with hle
        · simp
          intro ha hb
          omega
        · simp
          intro ha hb
          omega
  · intro hf σ h w
    have hp := hfalse hf
    simp [Handler.Update, Handler.Remove, Handler.Reprioritize, hp, writeError,
      StatusBadRequest]

theorem parseIDs_contract_witness :
    (sampleHandler.Update sampleParsers (sampleWorld, [])
        (sampleRequest "x" "2" [1])).response.status = 400 ∧
    (sampleHandler.Update sampleParsers (sampleWorld, []) (sampleRequest "x" "2" [1])).calls = [] :=
  ⟨((parseIDs_contract sampleParsers (sampleRequest "x" "2" [1])).2.2 rfl
      (World × List Call) sampleHandler (sampleWorld, [])).1,
   ((parseIDs_contract sampleParsers (sampleRequest "x" "2" [1])).2.2 rfl
      (World × List Call) sampleHandler (sampleWorld, [])).2.1⟩

/-! ## Cache keys of list pages -/

theorem listKey_ne_goodKey (limit offset projectID id : Int) :
    listKey limit offset ≠ goodKey projectID id := by
  intro h
  have h2 := congrArg String.data h
  simp [listKey, goodKey, String.data_append] at h2

theorem listKey_ne_list (limit offset : Int) : listKey limit offset ≠ "goods:list" := by
  intro h
  have h2 := congrArg String.length h
  simp only [listKey, String.length_append] at h2
  have e1 : "goods:list:".length = 11 := rfl
  have e2 : "goods:list".length = 10 := rfl
  rw [e1, e2] at h2
  omega

/-- Invalidate on the in-memory cache keeps the entry of every other key. -/
theorem cached_invalidate (invalErr : Option Error) (w : World) (key k : String)
    (hne : key ≠ k) : cached ((memCache invalErr).Invalidate w key).1 k = cached w k := by
  simp only [cached, memCache]
  rw [List.find?_filter]
  congr 1
  funext a
  by_cases hk : a.1 = k
  · have hne2 : a.1 ≠ key := fun h => hne (h.symm.trans hk)
    simp [hk, hne2]
    exact fun h => hne h.symm
  · simp [hk]

theorem cached_congr {w1 w2 : World} (h : w1.cache = w2.cache) (k : String) :
    cached w1 k = cached w2 k := by
  simp [cached, h]

/-- The state left by the two Invalidate calls and the publish of a mutating
operation still holds the entry of every list page. -/
theorem cached_after_side_effects (s : GoodsService World) (invalErr : Option Error)
    (hc : s.cache = memCache invalErr)
    (hl : ∀ w d, (s.logger.PublishLog w d).1.cache = w.cache)
    (v : World) (projectID id limit offset : Int) (data : Payload) :
    cached (s.logger.PublishLog
        (s.cache.Invalidate (s.cache.Invalidate v "goods:list").1 (goodKey projectID id)).1
        data).1 (listKey limit offset)
      = cached v (listKey limit offset) := by
  rw [cached_congr (hl _ _), hc,
    cached_invalidate invalErr _ _ _ (fun h => listKey_ne_goodKey limit offset projectID id h.symm),
    cached_invalidate invalErr _ _ _ (fun h => listKey_ne_list limit offset h.symm)]

/-- C27: the key of a list page differs from `goods:list` and from every entity
key.  Hence, over a cache that deletes exactly the given key (and a repository
and publisher that do not touch the cache), Create, Update, Remove and
Reprioritize leave every cached list page in the cache, and a List after the
mutation returns the page cached before it, decoded, without calling the
repository. -/
theorem list_pages_survive_mutations (s : GoodsService World) (invalErr : Option Error)
    (hc : s.cache = memCache invalErr)
    (hl : ∀ w d, (s.logger.PublishLog w d).1.cache = w.cache)
    (hr : RepoKeepsCache s.repo) (w : World) (limit offset projectID id newPriority : Int)
    (name : String) (description : Option String) :
    (∀ l o p i : Int, listKey l o ≠ "goods:list" ∧ listKey l o ≠ goodKey p i) ∧
    cached (s.Create w projectID name description).state (listKey limit offset)
      = cached w (listKey limit offset) ∧
    cached (s.Update w projectID id name description).state (listKey limit offset)
      = cached w (listKey limit offset) ∧
    cached (s.Remove w projectID id).state (listKey limit offset)
      = cached w (listKey limit offset) ∧
    cached (s.Reprioritize w projectID id newPriority).state (listKey limit offset)
      = cached w (listKey limit offset) ∧
    (∀ (v : World) (page : String × Payload), cached v (listKey limit offset) = some page →
      (s.List v limit offset).result = .ok (s.json.unmarshalList page.2).1 ∧
      (s.List v limit offset).calls = [.cacheGet (listKey limit offset)]) := by
  obtain ⟨hr1, hr2, hr3, hr4, hr5⟩ := hr
  refine ⟨fun l o p i => ⟨listKey_ne_list l o, listKey_ne_goodKey l o p i⟩, ?_, ?_, ?_, ?_, ?_⟩
  · unfold GoodsService.Create
    by_cases hn : name = ""
    · simp [hn]
    · simp only [hn, if_false]
      cases hres : (s.repo.CreateGood w projectID name description).2 with
      | error e => exact cached_congr (hr1 _ _ _ _) _
      | ok g =>
        simp only
        rw [cached_after_side_effects s invalErr hc hl]
        exact cached_congr (hr1 _ _ _ _) _
  · unfold GoodsService.Update
    by_cases hn : name = ""
    · simp [hn]
    · simp only [hn, if_false]
      cases hres : (s.repo.UpdateGood w projectID id name description).2 with
      | error e => exact cached_congr (hr3 _ _ _ _ _) _
      | ok g =>
        simp only
        rw [cached_after_side_effects s invalErr hc hl]
        exact cached_congr (hr3 _ _ _ _ _) _
  · cases hg : (s.repo.GetGood w projectID id).2 with
    | error e =>
      simp only [GoodsService.Remove, hg]
      exact cached_congr (hr2 _ _ _) _
    | ok g =>
      cases hd : (s.repo.RemoveGood (s.repo.GetGood w projectID id).1 projectID id).2 with
      | some e =>
        simp only [GoodsService.Remove, hg, hd]
        rw [cached_congr (hr4 _ _ _)]
        exact cached_congr (hr2 _ _ _) _
      | none =>
        simp only [GoodsService.Remove, hg, hd]
        rw [cached_after_side_effects s invalErr hc hl, cached_congr (hr4 _ _ _)]
        exact cached_congr (hr2 _ _ _) _
  · cases hres : (s.repo.Reprioritize w projectID id newPriority).2 with
    | error e =>
      simp only [GoodsService.Reprioritize, hres]
      exact cached_congr (hr5 _ _ _ _) _
    | ok us =>
      simp only [GoodsService.Reprioritize, hres]
      rw [cached_after_side_effects s invalErr hc hl]
      exact cached_congr (hr5 _ _ _ _) _
  · intro v page hpage
    have hget : (s.cache.Get v (listKey limit offset)) = (v, .ok page.2) := by
      rw [hc]
      unfold cached at hpage
      simp [memCache, hpage]
    simp [GoodsService.List, hget]

theorem list_pages_survive_mutations_witness :
    ((sampleService none none).List
        ((sampleService none none).Reprioritize
          { sampleWorld with cache := [(listKey 10 0, [9])] } 1 3 1).state 10 0).result
      = .ok ([sampleEvent 9], 0, 0) :=
  ((list_pages_survive_mutations (sampleService none none) none rfl (fun _ _ => rfl)
      ⟨fun _ _ _ _ => rfl, fun _ _ _ => rfl, fun _ _ _ _ _ => rfl, fun _ _ _ => rfl,
        fun _ _ _ _ => rfl⟩
      { sampleWorld with cache := [(listKey 10 0, [9])] } 10 0 1 3 1 "" none).2.2.2.2.2
    ((sampleService none none).Reprioritize
      { sampleWorld with cache := [(listKey 10 0, [9])] } 1 3 1).state
    (listKey 10 0, [9]) rfl).1

/-! ## Reprioritize: no validation of the new rank -/

/-- C28: Reprioritize does not validate newRank.  For every table in which
project p has the dense ranks 1..N, every existing item (p, id) and every
newRank below 1 or above N, Reprioritize succeeds when no statement fails, the
item then has rank newRank, and the ranks of p are no longer a permutation of
1..N; the Reprioritize handler passes the decoded newPriority to the service
as it is. -/
theorem reprioritize_unvalidated_rank (db : Table) (p id newRank : Int) (N : Nat)
    (_hd : DenseRanks db p N) (hi : HasItem db p id) (hout : newRank < 1 ∨ (N : Int) < newRank) :
    (∃ us, (Reprioritize Faults.ok db p id newRank).result = .ok us) ∧
    selectPriority (Reprioritize Faults.ok db p id newRank).db id p = some newRank ∧
    ¬ DenseRanks (Reprioritize Faults.ok db p id newRank).db p N ∧
    (∀ (σ : Type) (h : Handler σ) (ps : Parsers) (w : σ) (r : Request) (pid i n : Int),
      parseIDs ps r = (pid, i, true) → ps.decodePriorityRequest r.body = .ok n →
      (h.Reprioritize ps w r).calls = [.reprioritize pid i n]) := by
  obtain ⟨cur, hcur⟩ := selectPriority_of_hasItem hi
  have hres := Reprioritize_noFault (n := newRank) hcur
  have hdb : (Reprioritize Faults.ok db p id newRank).db
      = db.map (referenceRow p id newRank cur) := by
    rw [hres.2, txTable_eq_reference]
  have hsel : selectPriority (Reprioritize Faults.ok db p id newRank).db id p = some newRank := by
    rw [hdb]
    exact selectPriority_reference hcur
  refine ⟨⟨_, hres.1⟩, hsel, ?_, ?_⟩
  · intro hdense
    obtain ⟨x, hx, _, hxp, hxr⟩ := selectPriority_some hsel
    have hmem : newRank ∈ ranksOf (Reprioritize Faults.ok db p id newRank).db p := by
      unfold ranksOf
      exact List.mem_map.2 ⟨x, by simp [hx, hxp], hxr⟩
    have := mem_ranks1N.1 ((List.Perm.mem_iff hdense).1 hmem)
    omega
  · intro σ h ps w r pid i n hp hdec
    cases hc : (h.srv.Reprioritize w pid i n).2 <;>
      simp [Handler.Reprioritize, hp, hdec, hc]

theorem reprioritize_unvalidated_rank_witness :
    ¬ DenseRanks (Reprioritize Faults.ok sampleTable 1 3 5).db 1 4 ∧
    ranksOf (Reprioritize Faults.ok sampleTable 1 3 5).db 1 = [1, 2, 5, 3] ∧
    ranksOf (Reprioritize Faults.ok sampleTable 1 3 0).db 1 = [2, 3, 0, 4] ∧
    ranksOf (Reprioritize Faults.ok sampleTable 1 3 (-3)).db 1 = [2, 3, -3, 4] ∧
    (sampleHandler.Reprioritize sampleParsers (sampleWorld, [])
        (sampleRequest "1" "3" [5])).response
      = { status := 200, body := .priorities [{ ID := 4, Priority := 3 }, { ID := 3, Priority := 5 }] } :=
  ⟨(reprioritize_unvalidated_rank sampleTable 1 3 5 4 (by decide)
      ⟨_, List.mem_cons_of_mem _ (List.mem_cons_of_mem _ (List.mem_cons_of_mem _
        (List.mem_cons_self _ _))), rfl, rfl⟩ (by decide)).2.2.1,
   rfl, rfl, rfl, rfl⟩

/-! ## Consumer: nothing is lost before the repository -/

theorem Run.step_conservation {ρ : Type} (unmarshal : Decoder) (repo : Repo ρ) (t : Run ρ)
    (op : Op) :
    (Run.step unmarshal repo t op).calls.flatten ++ (Run.step unmarshal repo t op).consumer.events
      = t.calls.flatten ++ t.consumer.events ++ decodedEvents unmarshal [op] ∧
    ((∀ b ∈ t.calls, b ≠ []) → ∀ b ∈ (Run.step unmarshal repo t op).calls, b ≠ []) := by
  cases op with
  | handle data =>
    cases hd : unmarshal data with
    | error e => simp [Run.step, HandleMessage, decodedEvents, hd]
    | ok g =>
      by_cases hfull : ((t.consumer.events ++ [g]).length : Int) ≥ t.consumer.batchSize
      · simp only [Run.step, HandleMessage, decodedEvents, hd, hfull, if_true]
        constructor
        · simp
        · intro hne b hb
          rw [List.mem_append] at hb
          rcases hb with hb | hb
          · exact hne b hb
          · simp only [List.mem_singleton] at hb
            rw [hb]
            simp
      · simp only [Run.step, HandleMessage, decodedEvents, hd, hfull, if_false]
        constructor
        · simp
        · intro hne b hb
          simp only [List.append_nil] at hb
          exact hne b hb
  | flush =>
    by_cases hempty : t.consumer.events.length = 0
    · have he : t.consumer.events = [] := List.length_eq_zero.1 hempty
      simp only [Run.step, Flush, hempty, if_true, decodedEvents]
      constructor
      · simp
      · intro hne b hb
        simp only [List.append_nil] at hb
        exact hne b hb
    · simp only [Run.step, Flush, hempty, if_false, decodedEvents]
      constructor
      · simp
      · intro hne b hb
        rw [List.mem_append] at hb
        rcases hb with hb | hb
        · exact hne b hb
        · simp only [List.mem_singleton] at hb
          rw [hb]
          intro h0
          exact hempty (by rw [h0]; rfl)

theorem decodedEvents_cons (unmarshal : Decoder) (op : Op) (ops : List Op) :
    decodedEvents unmarshal (op :: ops)
      = decodedEvents unmarshal [op] ++ decodedEvents unmarshal ops := by
  cases op with
  | handle data =>
    cases hd : unmarshal data <;> simp [decodedEvents, hd]
  | flush => simp [decodedEvents]

theorem Run.exec_conservation {ρ : Type} (unmarshal : Decoder) (repo : Repo ρ) (ops : List Op) :
    ∀ t : Run ρ,
      ((Run.exec unmarshal repo t ops).calls.flatten
          ++ (Run.exec unmarshal repo t ops).consumer.events
        = t.calls.flatten ++ t.consumer.events ++ decodedEvents unmarshal ops) ∧
      ((∀ b ∈ t.calls, b ≠ []) → ∀ b ∈ (Run.exec unmarshal repo t ops).calls, b ≠ []) := by
  induction ops with
  | nil => intro t; simp [Run.exec, decodedEvents]
  | cons op ops ih =>
    intro t
    have hstep := Run.step_conservation unmarshal repo t op
    have hrest := ih (Run.step unmarshal repo t op)
    simp only [Run.exec, List.foldl_cons] at hrest ⊢
    constructor
    · rw [hrest.1, hstep.1, decodedEvents_cons unmarshal op ops, List.append_assoc]
    · intro hne
      exact hrest.2 (hstep.2 hne)

/-- C29: for every consumer state (any batchSize, any buffered events) and every
sequential series of HandleMessage and Flush calls, the batches passed to
BatchInsertLogs, concatenated in call order and followed by the buffer, are the
events buffered at the start followed by the successfully decoded events in
arrival order (for a new consumer: exactly the decoded events), and no batch
passed to the repository is empty.  The repository is in the state reached from
its initial state by BatchInsertLogs applied to exactly these batches, in order:
the recording repository of the tests has received exactly these batches, so
what it received, followed by the buffer, is what it held at the start followed
by the initially buffered and the decoded events, in order. -/
theorem events_conserved {ρ : Type} (unmarshal : Decoder) (repo : Repo ρ) (c : Consumer)
    (s : ρ) (ops : List Op) :
    ((Run.exec unmarshal repo (Run.start c s) ops).calls.flatten
        ++ (Run.exec unmarshal repo (Run.start c s) ops).consumer.events
      = c.events ++ decodedEvents unmarshal ops) ∧
    (∀ b ∈ (Run.exec unmarshal repo (Run.start c s) ops).calls, b ≠ []) ∧
    (∀ batchSize : Int, NewConsumer batchSize = some c →
      (Run.exec unmarshal repo (Run.start c s) ops).calls.flatten
          ++ (Run.exec unmarshal repo (Run.start c s) ops).consumer.events
        = decodedEvents unmarshal ops) ∧
    ((Run.exec unmarshal repo (Run.start c s) ops).repo
      = applyBatches repo s (Run.exec unmarshal repo (Run.start c s) ops).calls) ∧
    (∀ (err : Option Error) (received : List (List Good)),
      (Run.exec unmarshal (mockRepo err) (Run.start c received) ops).repo
        = received ++ (Run.exec unmarshal (mockRepo err) (Run.start c received) ops).calls ∧
      (Run.exec unmarshal (mockRepo err) (Run.start c received) ops).repo.flatten
          ++ (Run.exec unmarshal (mockRepo err) (Run.start c received) ops).consumer.events
        = received.flatten ++ (c.events ++ decodedEvents unmarshal ops) ∧
      (∀ b ∈ (Run.exec unmarshal (mockRepo err) (Run.start c received) ops).repo,
        b ∈ received ∨ b ≠ [])) := by
  have h := Run.exec_conservation unmarshal repo ops (Run.start c s)
  have h1 : (Run.exec unmarshal repo (Run.start c s) ops).calls.flatten
        ++ (Run.exec unmarshal repo (Run.start c s) ops).consumer.events
      = c.events ++ decodedEvents unmarshal ops := by
    rw [h.1]
    simp [Run.start]
  refine ⟨h1, h.2 (by simp [Run.start]), ?_, Run.exec_repo unmarshal repo c s ops, ?_⟩
  · intro batchSize hnew
    rw [h1]
    unfold NewConsumer at hnew
    split at hnew
    · cases hnew
    · cases hnew
      rfl
  · intro err received
    have hm := Run.exec_conservation unmarshal (mockRepo err) ops (Run.start c received)
    have hrepo : (Run.exec unmarshal (mockRepo err) (Run.start c received) ops).repo
        = received ++ (Run.exec unmarshal (mockRepo err) (Run.start c received) ops).calls := by
      rw [Run.exec_repo, applyBatches_mockRepo]
    refine ⟨hrepo, ?_, ?_⟩
    · rw [hrepo, List.flatten_append, List.append_assoc, hm.1]
      simp [Run.start]
    · intro b hb
      rw [hrepo, List.mem_append] at hb
      rcases hb with hb | hb
      · exact Or.inl hb
      · exact Or.inr (hm.2 (by simp [Run.start]) b hb)

theorem events_conserved_witness :
    NewConsumer 2 = some { batchSize := 2, events := [] } ∧
    (Run.exec sampleDecode (mockRepo none) (Run.start { batchSize := 2, events := [] } [])
        [.handle [1], .handle [], .handle [2], .flush, .handle [3]]).calls.flatten
      ++ (Run.exec sampleDecode (mockRepo none) (Run.start { batchSize := 2, events := [] } [])
        [.handle [1], .handle [], .handle [2], .flush, .handle [3]]).consumer.events
      = [sampleEvent 1, sampleEvent 2, sampleEvent 3] ∧
    (Run.exec sampleDecode (mockRepo none) (Run.start { batchSize := 2, events := [] } [])
        [.handle [1], .handle [], .handle [2], .flush, .handle [3]]).repo
      = [[sampleEvent 1, sampleEvent 2]] :=
  ⟨rfl, ((events_conserved sampleDecode (mockRepo none) { batchSize := 2, events := [] } []
    [.handle [1], .handle [], .handle [2], .flush, .handle [3]]).2.2.1 2 rfl).trans rfl,
   ((events_conserved sampleDecode (mockRepo none) { batchSize := 2, events := [] } []
    [.handle [1], .handle [], .handle [2], .flush, .handle [3]]).2.2.2.2 none []).1.trans rfl⟩

/-! ## GoodsService.Get: cache outcomes -/

/-- C30 fails as stated: the cached payload [7, 255] does not decode into an
item (the decoder returns an error), yet Get returns, with a nil error and
without calling the repository, an item that is not zero-valued: the id stored
by the decoder before the failing field is kept. -/
theorem undecodable_hit_not_zero :
    (typeMismatchCodec.unmarshalGood [7, 255]).2
      = some (.external "json: cannot unmarshal number into Go struct field Good.name") ∧
    (GoodsService.Get { sampleService none none with json := typeMismatchCodec }
        { sampleWorld with cache := [(goodKey 1 3, [7, 255])] } 1 3).result
      = .ok { ID := 7, ProjectID := 0, Name := "", Description := none, Priority := 0,
              Removed := false, CreatedAt := 0 } ∧
    (GoodsService.Get { sampleService none none with json := typeMismatchCodec }
        { sampleWorld with cache := [(goodKey 1 3, [7, 255])] } 1 3).result
      ≠ .ok zeroGood ∧
    (GoodsService.Get { sampleService none none with json := typeMismatchCodec }
        { sampleWorld with cache := [(goodKey 1 3, [7, 255])] } 1 3).calls
      = [.cacheGet (goodKey 1 3)] := by
  refine ⟨rfl, rfl, ?_, rfl⟩
  intro h
  have h2 : (GoodsService.Get { sampleService none none with json := typeMismatchCodec }
        { sampleWorld with cache := [(goodKey 1 3, [7, 255])] } 1 3).result
      = .ok { ID := 7, ProjectID := 0, Name := "", Description := none, Priority := 0,
              Removed := false, CreatedAt := 0 } := rfl
  rw [h2] at h
  simp [zeroGood] at h

/-- C30 (amended): GoodsService.Get distinguishes cache outcomes only by error or
no error.  When the cache Get returns any error, Get calls GetGood and returns
its result, storing a found item in the cache, whatever the error was.  When the
cache returns bytes whose decoding fails, Get returns with a nil error, and
without calling the repository, the item as the decoder left it in the
zero-valued target; this is the zero-valued item when the decoder stored
nothing. -/
theorem get_cache_outcomes {σ : Type} (s : GoodsService σ) (w : σ) (projectID id : Int) :
    (∀ e, (s.cache.Get w (goodKey projectID id)).2 = .error e →
      (s.Get w projectID id).result
        = (s.repo.GetGood (s.cache.Get w (goodKey projectID id)).1 projectID id).2 ∧
      (s.Get w projectID id).calls
        = [.cacheGet (goodKey projectID id), .getGood projectID id] ++
          (match (s.repo.GetGood (s.cache.Get w (goodKey projectID id)).1 projectID id).2 with
            | .ok g => [.cacheSet (goodKey projectID id) (s.json.marshalGood g) s.cacheTTL]
            | .error _ => [])) ∧
    (∀ bytes err, (s.cache.Get w (goodKey projectID id)).2 = .ok bytes →
      (s.json.unmarshalGood bytes).2 = some err →
      (s.Get w projectID id).result = .ok (s.json.unmarshalGood bytes).1 ∧
      (s.Get w projectID id).calls = [.cacheGet (goodKey projectID id)] ∧
      ((s.json.unmarshalGood bytes).1 = zeroGood → (s.Get w projectID id).result = .ok zeroGood)) := by
  constructor
  · intro e he
    cases hg : (s.repo.GetGood (s.cache.Get w (goodKey projectID id)).1 projectID id).2 with
    | error e2 => simp [GoodsService.Get, he, hg]
    | ok g => simp [GoodsService.Get, he, hg]
  · intro bytes err hb _
    refine ⟨?_, ?_, ?_⟩
    · simp [GoodsService.Get, hb]
    · simp [GoodsService.Get, hb]
    · intro hz
      simp [GoodsService.Get, hb, hz]

theorem get_cache_outcomes_witness :
    ((sampleService none none).Get
        { sampleWorld with cache := [(goodKey 1 3, [])] } 1 3).calls
      = [.cacheGet (goodKey 1 3)] ∧
    ((sampleService none none).Get sampleWorld 1 3).result
      = (memRepo.GetGood sampleWorld 1 3).2 :=
  ⟨((get_cache_outcomes (sampleService none none)
      { sampleWorld with cache := [(goodKey 1 3, [])] } 1 3).2 []
      (.external "invalid character") rfl rfl).2.1,
   ((get_cache_outcomes (sampleService none none) sampleWorld 1 3).1
      (errorsNew "cache miss") rfl).1⟩

end HezzlTestTask
